import Mathlib

/-!
# Impinj LLRP reader samples (docsample3, docsample5)

A shallow embedding of the two sample applications
`libltkcpp-linux/docsample3/docsample3.cpp` and
`libltkcpp-linux/docsample5/docsample5.cpp`.

* Text buffers are modelled as a memory of cells addressed by integer
  offsets, together with the list of every offset written, so that writes
  outside a caller's buffer are visible.
* The reader (LTK connection object, clock) is an oracle `Reader`; the
  application state `Session` threads the message-id counter and the trace
  of everything the application did.
* The report monitor loop is the only loop whose termination depends on the
  outside world (the clock); it takes a fuel argument.
-/

namespace ImpinjReader

/-! ## printf-style number rendering -/

/-- The C NUL character. -/
def NUL : Char := Char.ofNat 0

/-- One hexadecimal (or decimal) digit; letters in upper or lower case. -/
def hexDigit (upper : Bool) (d : Nat) : Char :=
  if d < 10 then Char.ofNat (48 + d)
  else Char.ofNat ((if upper then 55 else 87) + d)

/-- Digits of `n` in `base`, most significant first, no leading zeros, at
least one digit.  The fuel bounds the number of digits. -/
def digitsAux (base : Nat) (upper : Bool) : Nat → Nat → List Char → List Char
  | 0, _, acc => acc
  | fuel + 1, n, acc =>
    if n / base = 0 then hexDigit upper (n % base) :: acc
    else digitsAux base upper fuel (n / base) (hexDigit upper (n % base) :: acc)

/-- Rendering of a 32-bit unsigned argument (at most ten digits in base ten,
eight in base sixteen). -/
def fmtUnsigned (base : Nat) (upper : Bool) (n : Nat) : List Char :=
  digitsAux base upper 10 n []

/-- Zero padding on the left up to a minimum field width. -/
def padZero (w : Nat) (ds : List Char) : List Char :=
  List.replicate (w - ds.length) '0' ++ ds

/-- The conversion `%02X`. -/
def fmt02X (n : Nat) : List Char := padZero 2 (fmtUnsigned 16 true n)

/-- The conversion `%04x`. -/
def fmt04x (n : Nat) : List Char := padZero 4 (fmtUnsigned 16 false n)

/-- The conversion `%d`. -/
def fmtD (i : Int) : List Char :=
  if i < 0 then '-' :: fmtUnsigned 10 false (-i).toNat
  else fmtUnsigned 10 false i.toNat

/-! ## Memory and snprintf -/

/-- Memory seen by the formatters: the contents of every cell, addressed by
an integer offset, and the offsets written so far (oldest first). -/
structure Mem where
  cell : Int → Char
  touched : List Int

/-- Store one character. -/
def Mem.write (m : Mem) (pos : Int) (c : Char) : Mem :=
  { cell := fun q => if q = pos then c else m.cell q
    touched := m.touched ++ [pos] }

/-- Store a run of characters at consecutive offsets. -/
def Mem.writeList (m : Mem) : Int → List Char → Mem
  | _, [] => m
  | pos, c :: cs => (m.write pos c).writeList (pos + 1) cs

/-- Conversion of an `int` argument to the `size_t` parameter of snprintf
(64-bit `size_t`): negative values become huge. -/
def sizeT (n : Int) : Nat := (n % 2 ^ 64).toNat

/-- The library call `snprintf(p, size, ...)` whose formatted text is
`text`: nothing is stored when the size is zero, otherwise at most
`size - 1` characters and a terminating NUL.  The value returned is the
length of the whole text. -/
def snprintf (m : Mem) (p : Int) (size : Int) (text : List Char) : Mem × Int :=
  if sizeT size = 0 then (m, text.length)
  else (m.writeList p (text.take (sizeT size - 1) ++ [NUL]), text.length)

/-- The NUL-terminated string starting at `pos`, reading at most `fuel`
cells. -/
def cstr (cell : Int → Char) : Nat → Int → List Char
  | 0, _ => []
  | fuel + 1, pos =>
    if cell pos = NUL then [] else cell pos :: cstr cell fuel (pos + 1)

/-- Local variables `p` and `bufsize` of a formatter, with the memory. -/
structure Cursor where
  mem : Mem
  p : Int
  bufsize : Int

/-- The recurring statement group
`written = snprintf(p, bufsize, ...); p += written; bufsize -= written;`. -/
def Cursor.emit (c : Cursor) (text : List Char) : Cursor :=
  let r := snprintf c.mem c.p c.bufsize text
  { mem := r.1, p := c.p + r.2, bufsize := c.bufsize - r.2 }

/-- The loop `for(i = 0; i < n; i++) body`, for a body that neither changes
`i` nor leaves the loop early. -/
def forLoop {σ : Type} (n : Nat) (body : Nat → σ → σ) (s : σ) : σ :=
  (List.range n).foldl (fun acc i => body i acc) s

/-- Body shared by the identifier loops of formatOneEPC and
formatOneSerializedTID: a separator before every even index after the
first while more than one byte of space is left, the value while more than
two are left. -/
def hexLoopBody (value : Nat → List Char) (i : Nat) (c : Cursor) : Cursor :=
  let c1 : Cursor :=
    if 0 < i ∧ i % 2 = 0 ∧ 1 < c.bufsize then
      { mem := c.mem.write c.p '-', p := c.p + 1, bufsize := c.bufsize - 1 }
    else c
  if c1.bufsize > 2 then c1.emit (value i) else c1

/-! ## Report records -/

/-- The EPC parameter of a tag report entry, by type descriptor. -/
inductive EPCParameter where
  /-- The fixed-width encoding: `m_aValue`, twelve bytes. -/
  | EPC_96 (m_aValue : List Nat)
  /-- The variable-length encoding: bit count and byte array (a null
  pointer when nothing was allocated). -/
  | EPCData (m_nBit : Nat) (m_pValue : Option (List Nat))
  /-- Any other parameter type. -/
  | other (typeName : String)

/-- The value pointer and byte count formatOneEPC derives from the
parameter; `none` is the null pointer. -/
def epcValue : EPCParameter → Option (List Nat) × Nat
  | .EPC_96 a => (some a, 12)
  | .EPCData nBit pValue => (pValue, (nBit + 7) / 8)
  | .other _ => (none, 0)

/-- Result code `C1G2ReadResultType_Success`. -/
def C1G2ReadResultType_Success : Int := 0

/-- The C1G2ReadOpSpecResult parameter: result code and read data words. -/
structure C1G2ReadOpSpecResult where
  result : Int
  readData : List Nat

/-- Result code `C1G2WriteResultType`. -/
structure C1G2WriteOpSpecResult where
  result : Int

/-- The ImpinjSetQTConfigOpSpecResult parameter. -/
structure ImpinjSetQTConfigOpSpecResult where
  result : Int

/-- Result code `ImpinjGetQTConfigResultType_Success`. -/
def ImpinjGetQTConfigResultType_Success : Int := 0

/-- The ImpinjGetQTConfigOpSpecResult parameter: result code and the raw
ordinals of the data profile and access range enumerations. -/
structure ImpinjGetQTConfigOpSpecResult where
  result : Int
  dataProfile : Nat
  accessRange : Nat

/-- The ImpinjSerializedTID custom parameter: the TID words. -/
structure ImpinjSerializedTID where
  tid : List Nat

/-- An entry of the AccessCommandOpSpecResult list, by type descriptor. -/
inductive OpSpecResult where
  | read (r : C1G2ReadOpSpecResult)
  | write (r : C1G2WriteOpSpecResult)
  | setQT (r : ImpinjSetQTConfigOpSpecResult)
  | getQT (r : ImpinjGetQTConfigOpSpecResult)
  | other (typeName : String)

/-- An entry of the custom parameter list of a tag report entry. -/
inductive CustomParameter where
  | serializedTID (t : ImpinjSerializedTID)
  | other (typeName : String)

/-- One TagReportData parameter. -/
structure TagReportData where
  epcParameter : Option EPCParameter
  opSpecResults : List OpSpecResult
  custom : List CustomParameter

/-! ## Formatters of docsample3 -/

namespace Docsample3

/-- `CMyApplication::formatOneEPC` of docsample3.  `buf` is the offset of
the caller's buffer in memory. -/
def formatOneEPC (pEPCParameter : Option EPCParameter) (m : Mem) (buf : Int)
    (buflen : Int) : Mem :=
  let c : Cursor := { mem := m, p := buf, bufsize := buflen }
  let c : Cursor :=
    match pEPCParameter with
    | some param =>
      match epcValue param with
      | (some pValue, n) =>
        forLoop n (hexLoopBody (fun i => fmt02X (pValue.getD i 0))) c
      | (none, _) => c.emit "---unknown-epc-data-type---".toList
    | none => c.emit "--null epc---".toList
  c.mem.write (buf + buflen - 1) NUL

/-- `CMyApplication::formatOneReadResult` of docsample3. -/
def formatOneReadResult (pread : C1G2ReadOpSpecResult) (m : Mem) (buf : Int)
    (buflen : Int) : Mem :=
  let c : Cursor := { mem := m, p := buf, bufsize := buflen }
  let c := c.emit ("ReadResult ".toList ++ fmtD pread.result)
  let c : Cursor :=
    if pread.result = C1G2ReadResultType_Success then
      let c := c.emit ": Data  ".toList
      let nValue : Int := pread.readData.length
      let c := forLoop (nValue - 1).toNat
        (fun i c => c.emit (fmt04x (pread.readData.getD i 0) ++ ['-'])) c
      if nValue ≠ 0 then
        c.emit (fmt04x (pread.readData.getD (nValue - 1).toNat 0))
      else c
    else c
  c.mem.write (buf + buflen - 1) NUL

end Docsample3

/-! ## Formatters of docsample5 -/

namespace Docsample5

/-- `CMyApplication::formatOneEPC` of docsample5: writes `startStr` first
and returns `buflen - bufsize`. -/
def formatOneEPC (pEPCParameter : Option EPCParameter) (m : Mem) (buf : Int)
    (buflen : Int) (startStr : List Char) : Mem × Int :=
  let c : Cursor := { mem := m, p := buf, bufsize := buflen }
  let c := c.emit startStr
  let c : Cursor :=
    match pEPCParameter with
    | some param =>
      match epcValue param with
      | (some pValue, n) =>
        forLoop n (hexLoopBody (fun i => fmt02X (pValue.getD i 0))) c
      | (none, _) => c.emit "---unknown-epc-data-type---".toList
    | none => c.emit "--null epc---".toList
  (c.mem.write (buf + buflen - 1) NUL, buflen - c.bufsize)

/-- `CMyApplication::formatOneReadResult` of docsample5. -/
def formatOneReadResult (pread : C1G2ReadOpSpecResult) (m : Mem) (buf : Int)
    (buflen : Int) (startStr : List Char) : Mem × Int :=
  let c : Cursor := { mem := m, p := buf, bufsize := buflen }
  let c := c.emit startStr
  let c := c.emit ("result=".toList ++ fmtD pread.result)
  let c : Cursor :=
    if pread.result = C1G2ReadResultType_Success then
      let c := c.emit " Data=".toList
      let nValue : Int := pread.readData.length
      let c := forLoop (nValue - 1).toNat
        (fun i c => c.emit (fmt04x (pread.readData.getD i 0) ++ ['-'])) c
      if nValue ≠ 0 then
        c.emit (fmt04x (pread.readData.getD (nValue - 1).toNat 0))
      else c
    else c
  (c.mem.write (buf + buflen - 1) NUL, buflen - c.bufsize)

/-- `CMyApplication::formatOneWriteResult`. -/
def formatOneWriteResult (pwrite : C1G2WriteOpSpecResult) (m : Mem) (buf : Int)
    (buflen : Int) (startStr : List Char) : Mem × Int :=
  let c : Cursor := { mem := m, p := buf, bufsize := buflen }
  let c := c.emit startStr
  let c := c.emit ("result=".toList ++ fmtD pwrite.result)
  (c.mem.write (buf + buflen - 1) NUL, buflen - c.bufsize)

/-- `CMyApplication::formatOneSetQTConfigResult`. -/
def formatOneSetQTConfigResult (pset : ImpinjSetQTConfigOpSpecResult) (m : Mem)
    (buf : Int) (buflen : Int) (startStr : List Char) : Mem × Int :=
  let c : Cursor := { mem := m, p := buf, bufsize := buflen }
  let c := c.emit startStr
  let c := c.emit ("result=".toList ++ fmtD pset.result)
  (c.mem.write (buf + buflen - 1) NUL, buflen - c.bufsize)

/-- The table `dataStrings`. -/
def dataStrings : List String := ["Unknown", "Private", "Public"]

/-- The table `rangeStrings`. -/
def rangeStrings : List String := ["Unknown", "Normal", "Short"]

/-- `CMyApplication::formatOneGetQTConfigResult`.  The tables are indexed
with the raw ordinals; what an index outside a table reads is not defined
by the program and is supplied by `wild`. -/
def formatOneGetQTConfigResult (pset : ImpinjGetQTConfigOpSpecResult) (m : Mem)
    (buf : Int) (buflen : Int) (startStr : List Char)
    (wild : Nat → List Char) : Mem × Int :=
  let c : Cursor := { mem := m, p := buf, bufsize := buflen }
  let c := c.emit startStr
  let c := c.emit ("result=".toList ++ fmtD pset.result ++ [' '])
  let c : Cursor :=
    if ImpinjGetQTConfigResultType_Success = pset.result then
      let d := match dataStrings.get? pset.dataProfile with
        | some t => t.toList
        | none => wild pset.dataProfile
      let r := match rangeStrings.get? pset.accessRange with
        | some t => t.toList
        | none => wild pset.accessRange
      c.emit ("data=".toList ++ d ++ " range=".toList ++ r ++ ['\n'])
    else c
  (c.mem.write (buf + buflen - 1) NUL, buflen - c.bufsize)

/-- `CMyApplication::formatOneSerializedTID`. -/
def formatOneSerializedTID (pTID : ImpinjSerializedTID) (m : Mem) (buf : Int)
    (buflen : Int) (startStr : List Char) : Mem × Int :=
  let c : Cursor := { mem := m, p := buf, bufsize := buflen }
  let c := c.emit startStr
  let c := forLoop pTID.tid.length
    (hexLoopBody (fun i => fmt02X (pTID.tid.getD i 0))) c
  (c.mem.write (buf + buflen - 1) NUL, buflen - c.bufsize)

end Docsample5

/-- Memory with the given initial contents and nothing written yet. -/
def Mem.fresh (init : Int → Char) : Mem := { cell := init, touched := [] }

/-! ## Messages, commands and the reader -/

/-- The LLRPStatus parameter: status code and error description. -/
structure LLRPStatus where
  statusCode : Nat
  errorDescription : String
  deriving DecidableEq

/-- Status code `StatusCode_M_Success`. -/
def StatusCode_M_Success : Nat := 0

/-- The GeneralDeviceCapabilities parameter, as far as the samples read it. -/
structure GeneralDeviceCapabilities where
  deviceManufacturerName : Nat
  readerFirmwareVersion : List Char
  deriving DecidableEq

/-- The ConnectionAttemptEvent parameter. -/
structure ConnectionAttemptEvent where
  status : Nat
  deriving DecidableEq

/-- Status `ConnectionAttemptStatusType_Success`. -/
def ConnectionAttemptStatusType_Success : Nat := 0

/-- The AntennaEvent parameter. -/
structure AntennaEvent where
  eventType : Nat
  antennaID : Nat
  deriving DecidableEq

/-- Event type `AntennaEventType_Antenna_Disconnected`. -/
def AntennaEventType_Antenna_Disconnected : Nat := 0

/-- Event type `AntennaEventType_Antenna_Connected`. -/
def AntennaEventType_Antenna_Connected : Nat := 1

/-- The ReaderExceptionEvent parameter: its message (`none` when the value
pointer is null). -/
structure ReaderExceptionEvent where
  message : Option String
  deriving DecidableEq

/-- The ReaderEventNotificationData parameter. -/
structure ReaderEventNotificationData where
  connectionAttemptEvent : Option ConnectionAttemptEvent
  antennaEvent : Option AntennaEvent
  readerExceptionEvent : Option ReaderExceptionEvent
  deriving DecidableEq

/-- Type descriptor of a received message. -/
inductive MsgType where
  | ERROR_MESSAGE
  | READER_EVENT_NOTIFICATION
  | RO_ACCESS_REPORT
  | other (name : String)
  deriving DecidableEq

/-- The name `m_pName` of a message type. -/
def MsgType.m_pName : MsgType → String
  | .ERROR_MESSAGE => "ERROR_MESSAGE"
  | .READER_EVENT_NOTIFICATION => "READER_EVENT_NOTIFICATION"
  | .RO_ACCESS_REPORT => "RO_ACCESS_REPORT"
  | .other name => name

/-- A decoded message: its type descriptor and the parameters the samples
read through the typed accessors. -/
structure Message where
  m_pType : MsgType
  llrpStatus : Option LLRPStatus
  generalDeviceCapabilities : Option GeneralDeviceCapabilities
  readerEventNotificationData : Option ReaderEventNotificationData
  tagReportData : List TagReportData

/-- Type descriptor of a command message composed by the samples. -/
inductive CmdType where
  | IMPINJ_ENABLE_EXTENSIONS
  | SET_READER_CONFIG
  | GET_READER_CAPABILITIES
  | ADD_ROSPEC
  | ADD_ACCESSSPEC
  | ENABLE_ACCESSSPEC
  | ENABLE_ROSPEC
  | START_ROSPEC
  | STOP_ROSPEC
  | GET_REPORT
  deriving DecidableEq

/-- The name `m_pName` of a command type. -/
def CmdType.m_pName : CmdType → String
  | .IMPINJ_ENABLE_EXTENSIONS => "IMPINJ_ENABLE_EXTENSIONS"
  | .SET_READER_CONFIG => "SET_READER_CONFIG"
  | .GET_READER_CAPABILITIES => "GET_READER_CAPABILITIES"
  | .ADD_ROSPEC => "ADD_ROSPEC"
  | .ADD_ACCESSSPEC => "ADD_ACCESSSPEC"
  | .ENABLE_ACCESSSPEC => "ENABLE_ACCESSSPEC"
  | .ENABLE_ROSPEC => "ENABLE_ROSPEC"
  | .START_ROSPEC => "START_ROSPEC"
  | .STOP_ROSPEC => "STOP_ROSPEC"
  | .GET_REPORT => "GET_REPORT"

/-- A command message: type, message identifier and the
ResetToFactoryDefault field (false unless set). -/
structure Command where
  m_pType : CmdType
  messageID : Nat
  resetToFactoryDefault : Bool
  deriving DecidableEq

/-- Result codes of the connection primitives, as far as the samples
distinguish them. -/
inductive ResultCode where
  | RC_RecvTimeout
  | RC_other (code : Nat)
  deriving DecidableEq

/-- The CErrorDetails record of a failed connection primitive. -/
structure ErrorDetails where
  m_eResultCode : ResultCode
  m_pWhatStr : Option String
  m_pRefType : Option String
  m_pRefField : Option String

/-- Everything the application does that is visible outside it. -/
inductive Event where
  | openConnection (host : String)
  | recvMessage (nMaxMS : Int)
  | transact (cmd : Command) (timeoutMS : Int)
  | sendMessage (cmd : Command)
  | closeConnection
  | printf (text : String)
  | printXMLCommand (cmd : Command)
  | printXMLMessage (typeName : String)
  deriving DecidableEq

/-- The outside world: the LTK library and connection, the reader behind
it, the clock, and the contents of uninitialised storage.  The connection
primitives are indexed by the number of earlier calls on the connection. -/
structure Reader where
  typeRegistry : Bool
  connection : Bool
  openConnectionToReader : Int
  connectError : String
  transact : Nat → Command → Int → Except ErrorDetails Message
  recvMessage : Nat → Int → Except ErrorDetails Message
  sendMessage : Nat → Command → Option ErrorDetails
  time : Nat → Int
  stack : Int → Char
  wild : Nat → List Char
  uninitMajor : Nat
  uninitMinor : Nat
  pastFirmware : List Char

/-- The application object `CMyApplication`, with the trace of events and
the counters indexing the oracles. -/
structure Session where
  m_messageID : Nat
  m_Verbose : Int
  m_password : Nat
  m_qtmode : Nat
  m_tid : Nat
  m_shortRange : Nat
  m_newPassword : Nat
  ioCount : Nat
  clockReads : Nat
  trace : List Event

/-- Value `ImpinjQTAccessRange_Normal_Range`. -/
def ImpinjQTAccessRange_Normal_Range : Nat := 1

/-- The constructor `CMyApplication::CMyApplication`, followed by the
command line setting the verbosity. -/
def Session.new (verbose : Int) : Session :=
  { m_messageID := 0, m_Verbose := verbose, m_password := 0, m_qtmode := 0,
    m_tid := 0, m_shortRange := ImpinjQTAccessRange_Normal_Range,
    m_newPassword := 0, ioCount := 0, clockReads := 0, trace := [] }

/-- Append events to the trace. -/
def Session.logs (s : Session) (es : List Event) : Session :=
  { s with trace := s.trace ++ es }

/-- A call of a connection primitive: count it and record it. -/
def Session.io (s : Session) (e : Event) : Session :=
  { s with ioCount := s.ioCount + 1, trace := s.trace ++ [e] }

/-- The post-increment `m_messageID++` on the unsigned counter. -/
def Session.nextID (s : Session) : Session :=
  { s with m_messageID := (s.m_messageID + 1) % 2 ^ 32 }

/-- A call of `time(NULL)`. -/
def Session.tick (s : Session) : Session :=
  { s with clockReads := s.clockReads + 1 }

/-- The two optional lines naming the reference type and field of an
error. -/
def errorRefLines (pError : ErrorDetails) : List Event :=
  (match pError.m_pRefType with
    | some n => [Event.printf ("ERROR: ... reference type " ++ n ++ "\n")]
    | none => []) ++
  (match pError.m_pRefField with
    | some n => [Event.printf ("ERROR: ... reference field " ++ n ++ "\n")]
    | none => [])

/-- The name of the response type of a command (`m_pResponseType`). -/
def CmdType.responseName (t : CmdType) : String := t.m_pName ++ "_RESPONSE"

/-! ## Status checker and transaction layer -/

/-- The lines printed inside `if(1 < m_Verbose)`. -/
def whenVerbose2 (verbose : Int) (es : List Event) : List Event :=
  if 1 < verbose then es else []

/-- The lines printed inside `if(m_Verbose)`. -/
def whenVerbose (verbose : Int) (es : List Event) : List Event :=
  if verbose ≠ 0 then es else []

/-- `CMyApplication::checkLLRPStatus`: the value returned and the line
printed, if any. -/
def checkLLRPStatusResult (pLLRPStatus : Option LLRPStatus) (pWhatStr : String) :
    Int × List Event :=
  match pLLRPStatus with
  | none => (-1, [.printf ("ERROR: " ++ pWhatStr ++ " missing LLRP status\n")])
  | some st =>
    if StatusCode_M_Success ≠ st.statusCode then
      if st.errorDescription.length = 0 then
        (-2, [.printf ("ERROR: " ++ pWhatStr ++
          " failed, no error description given\n")])
      else
        (-2, [.printf ("ERROR: " ++ pWhatStr ++ " failed, " ++
          st.errorDescription ++ "\n")])
    else (0, [])

/-- `CMyApplication::checkLLRPStatus`. -/
def checkLLRPStatus (pLLRPStatus : Option LLRPStatus) (pWhatStr : String)
    (s : Session) : Int × Session :=
  let r := checkLLRPStatusResult pLLRPStatus pWhatStr
  (r.1, s.logs r.2)

/-- `CMyApplication::transact` after the call of the connection's transact
primitive: the value returned (`none` is the null pointer) and the lines
printed. -/
def transactResult (verbose : Int) (pSendMsg : Command)
    (reply : Except ErrorDetails Message) : Option Message × List Event :=
  match reply with
  | .error pError =>
    (none, [.printf ("ERROR: " ++ pSendMsg.m_pType.m_pName ++
        " transact failed, " ++ pError.m_pWhatStr.getD "no reason given" ++ "\n")]
      ++ errorRefLines pError)
  | .ok pRspMsg =>
    let received := whenVerbose2 verbose
      [.printf "\n- - - - - - - - - - - - - - - - - -\n",
        .printf "INFO: Transact received response\n",
        .printXMLMessage pRspMsg.m_pType.m_pName]
    if pRspMsg.m_pType = .ERROR_MESSAGE then
      (none, received ++ [.printf ("ERROR: Received ERROR_MESSAGE instead of " ++
        pSendMsg.m_pType.responseName ++ "\n")])
    else (some pRspMsg, received)

/-- `CMyApplication::transact`: trace the outbound message, call the
connection's transact primitive once with a 5000 ms limit, report. -/
def transact (R : Reader) (pSendMsg : Command) (s : Session) :
    Option Message × Session :=
  let sending := whenVerbose2 s.m_Verbose
    [.printf "\n===================================\n",
      .printf "INFO: Transact sending\n", .printXMLCommand pSendMsg]
  let r := transactResult s.m_Verbose pSendMsg (R.transact s.ioCount pSendMsg 5000)
  (r.1, (((s.logs sending).io (.transact pSendMsg 5000)).logs r.2))

/-- `CMyApplication::recvMessage` after the call of the connection's
recvMessage primitive: the value returned and the lines printed. -/
def recvResult (verbose : Int) (reply : Except ErrorDetails Message) :
    Option Message × List Event :=
  match reply with
  | .error pError =>
    (none,
      (if pError.m_eResultCode ≠ .RC_RecvTimeout then
          [Event.printf ("ERROR: recvMessage failed, " ++
            pError.m_pWhatStr.getD "no reason given" ++ "\n")]
        else []) ++ errorRefLines pError)
  | .ok pMessage =>
    (some pMessage, whenVerbose2 verbose
      [.printf "\n===================================\n",
        .printf "INFO: Message received\n",
        .printXMLMessage pMessage.m_pType.m_pName])

/-- `CMyApplication::recvMessage`. -/
def recvMessage (R : Reader) (nMaxMS : Int) (s : Session) :
    Option Message × Session :=
  let r := recvResult s.m_Verbose (R.recvMessage s.ioCount nMaxMS)
  (r.1, (s.io (.recvMessage nMaxMS)).logs r.2)

/-- `CMyApplication::sendMessage` after the call of the connection's
sendMessage primitive: the value returned and the lines printed. -/
def sendResult (pSendMsg : Command) (reply : Option ErrorDetails) :
    Int × List Event :=
  match reply with
  | some pError =>
    (-1, [.printf ("ERROR: " ++ pSendMsg.m_pType.m_pName ++
        " sendMessage failed, " ++ pError.m_pWhatStr.getD "no reason given" ++ "\n")]
      ++ errorRefLines pError)
  | none => (0, [])

/-- `CMyApplication::sendMessage`. -/
def sendMessage (R : Reader) (pSendMsg : Command) (s : Session) :
    Int × Session :=
  let sending := whenVerbose2 s.m_Verbose
    [.printf "\n===================================\n",
      .printf "INFO: Sending\n", .printXMLCommand pSendMsg]
  let r := sendResult pSendMsg (R.sendMessage s.ioCount pSendMsg)
  (r.1, ((s.logs sending).io (.sendMessage pSendMsg)).logs r.2)

/-! ## Printing one tag report entry -/

/-- `CMyApplication::printOneTagReportData` of docsample3, with its two
64-byte automatic arrays `aBuf` and `bBuf` at the given offsets of the
stack memory, whose cells hold arbitrary values at entry: the line handed
to printf.  Both arrays lie in the one memory, so that what
formatOneReadResult writes past the end of `bBuf` changes the cells that
lie there.  printf reads each string up to its first NUL; here at most
4096 characters are read. -/
def Docsample3.printOneTagReportDataAt (aBuf bBuf : Int) (stack : Int → Char)
    (t : TagReportData) : String :=
  let m := Docsample3.formatOneEPC t.epcParameter (Mem.fresh stack) aBuf 64
  let m := m.write bBuf NUL
  let m := t.opSpecResults.foldl
    (fun m r =>
      match r with
      | .read rr => Docsample3.formatOneReadResult rr m bBuf 64
      | _ => m) m
  String.mk ("EPC: ".toList ++ cstr m.cell 4096 aBuf ++ "  ".toList ++
    cstr m.cell 4096 bBuf ++ "\n".toList)

/-- `CMyApplication::printOneTagReportData` of docsample3.  The arrays
`char aBuf[64]; char bBuf[64];` are adjacent in the frame: `bBuf` lies at
offset 0 and `aBuf` directly behind it at offset 64, the layout of a
compiler that allocates automatic variables downwards in the order of
their declarations. -/
def Docsample3.printOneTagReportData (R : Reader) (t : TagReportData) : String :=
  Docsample3.printOneTagReportDataAt 64 0 R.stack t

/-- Local variables of docsample5's printOneTagReportData. -/
structure LineState where
  mem : Mem
  ptr : Int
  bufLimit : Int

/-- The statement group `written = f(..., ptr, bufLimit, ...); ptr += written;
bufLimit -= written;`. -/
def LineState.advance (l : LineState) (r : Mem × Int) : LineState :=
  { mem := r.1, ptr := l.ptr + r.2, bufLimit := l.bufLimit - r.2 }

/-- `CMyApplication::printOneTagReportData` of docsample5: the state of the
1024-byte line buffer when it is handed to printf. -/
def Docsample5.lineBuffer (R : Reader) (t : TagReportData) : LineState :=
  let l0 : LineState := { mem := Mem.fresh R.stack, ptr := 0, bufLimit := 1024 }
  let l1 := l0.advance (Docsample5.formatOneEPC t.epcParameter l0.mem l0.ptr
    l0.bufLimit "epc=".toList)
  let l2 : LineState := { l1 with mem := l1.mem.write 1023 NUL }
  let l3 := t.opSpecResults.foldl
    (fun l r =>
      match r with
      | .read rr => l.advance (Docsample5.formatOneReadResult rr l.mem l.ptr
          l.bufLimit "\n    READ ".toList)
      | .write rr => l.advance (Docsample5.formatOneWriteResult rr l.mem l.ptr
          l.bufLimit "\n    WRITE ".toList)
      | .setQT rr => l.advance (Docsample5.formatOneSetQTConfigResult rr l.mem
          l.ptr l.bufLimit "\n    SETQT ".toList)
      | .getQT rr => l.advance (Docsample5.formatOneGetQTConfigResult rr l.mem
          l.ptr l.bufLimit "\n    GETQT ".toList R.wild)
      | .other _ => l) l2
  t.custom.foldl
    (fun l c =>
      match c with
      | .serializedTID tid => l.advance (Docsample5.formatOneSerializedTID tid
          l.mem l.ptr l.bufLimit "\n    SERIAL-TID ".toList)
      | .other _ => l) l3

/-- The line docsample5's printOneTagReportData hands to printf. -/
def Docsample5.printOneTagReportData (R : Reader) (t : TagReportData) : String :=
  String.mk (cstr (Docsample5.lineBuffer R t).mem.cell 1024 0 ++ "\n".toList)

/-- The two sample applications. -/
inductive Sample where
  | docsample3
  | docsample5
  deriving DecidableEq

/-- `CMyApplication::printTagReportData`: the output for one
RO_ACCESS_REPORT, one line per entry in list order. -/
def printTagReportData (v : Sample) (R : Reader) (verbose : Int)
    (entries : List TagReportData) : List Event :=
  (if verbose ≠ 0 then
    [Event.printf ("INFO: " ++ String.mk (fmtUnsigned 10 false entries.length) ++
      " tag report entries\n")]
   else []) ++
  entries.map (fun t =>
    match v with
    | .docsample3 => Event.printf (Docsample3.printOneTagReportData R t)
    | .docsample5 => Event.printf (Docsample5.printOneTagReportData R t))

/-- `CMyApplication::handleAntennaEvent`. -/
def handleAntennaEvent (e : AntennaEvent) : List Event :=
  let pStateStr :=
    if e.eventType = AntennaEventType_Antenna_Disconnected then "disconnected"
    else if e.eventType = AntennaEventType_Antenna_Connected then "connected"
    else "?unknown-event?"
  [.printf ("NOTICE: Antenna " ++ String.mk (fmtD e.antennaID) ++ " is " ++
    pStateStr ++ "\n")]

/-- `CMyApplication::handleReaderExceptionEvent`. -/
def handleReaderExceptionEvent (e : ReaderExceptionEvent) : List Event :=
  match e.message with
  | some msg =>
    if 0 < msg.length then [.printf ("NOTICE: ReaderException '" ++ msg ++ "'\n")]
    else [.printf "NOTICE: ReaderException but no message\n"]
  | none => [.printf "NOTICE: ReaderException but no message\n"]

/-- `CMyApplication::handleReaderEventNotification`. -/
def handleReaderEventNotification (d : ReaderEventNotificationData) : List Event :=
  let a := match d.antennaEvent with
    | some e => handleAntennaEvent e
    | none => []
  let x := match d.readerExceptionEvent with
    | some e => handleReaderExceptionEvent e
    | none => []
  let nReported := (if d.antennaEvent.isSome then 1 else 0) +
    (if d.readerExceptionEvent.isSome then 1 else 0)
  a ++ x ++
    (if nReported = 0 then [Event.printf "NOTICE: Unexpected (unhandled) ReaderEvent\n"]
     else [])

/-- What the monitor loop does with one received message: decided by the
type descriptor. -/
def monitorOutput (v : Sample) (R : Reader) (verbose : Int) (m : Message) :
    List Event :=
  match m.m_pType with
  | .RO_ACCESS_REPORT => printTagReportData v R verbose m.tagReportData
  | .READER_EVENT_NOTIFICATION =>
    match m.readerEventNotificationData with
    | some d => handleReaderEventNotification d
    | none => [.printf "WARNING: READER_EVENT_NOTIFICATION without data\n"]
  | t => [.printf ("WARNING: Ignored unexpected message during monitor: " ++
      t.m_pName ++ "\n")]

/-! ## The steps of the session -/

/-- `CMyApplication::checkConnectionStatus` after the message was
received: the value returned and the line printed. -/
def connectionStatusResult (verbose : Int) (pMessage : Option Message) :
    Int × List Event :=
  let fail : Int × List Event :=
    (-1, [.printf "ERROR: checkConnectionStatus failed\n"])
  match pMessage with
  | none => fail
  | some pMessage =>
    if MsgType.READER_EVENT_NOTIFICATION ≠ pMessage.m_pType then fail
    else
      match pMessage.readerEventNotificationData with
      | none => fail
      | some pNtfData =>
        match pNtfData.connectionAttemptEvent with
        | none => fail
        | some pEvent =>
          if ConnectionAttemptStatusType_Success ≠ pEvent.status then fail
          else (0, whenVerbose verbose [.printf "INFO: Connection status OK\n"])

/-- `CMyApplication::checkConnectionStatus`. -/
def checkConnectionStatus (R : Reader) (s : Session) : Int × Session :=
  let r := recvMessage R 10000 s
  let c := connectionStatusResult s.m_Verbose r.1
  (c.1, r.2.logs c.2)

/-- The part shared by the command steps after the transaction: a null
response fails, otherwise the LLRPStatus of the response decides, and
progress is reported. -/
def responseResult (verbose : Int) (what : String) (info : String)
    (pRspMsg : Option Message) : Int × List Event :=
  match pRspMsg with
  | none => (-1, [])
  | some pRsp =>
    let c := checkLLRPStatusResult pRsp.llrpStatus what
    if 0 ≠ c.1 then (-1, c.2)
    else (0, c.2 ++ whenVerbose verbose [.printf info])

/-- The skeleton shared by the command steps: compose the command with the
next message identifier, transact, check the LLRPStatus of the response,
report progress. -/
def commandStep (R : Reader) (ty : CmdType) (reset : Bool) (what : String)
    (info : String) (s : Session) : Int × Session :=
  let pCmd : Command :=
    { m_pType := ty, messageID := s.m_messageID, resetToFactoryDefault := reset }
  let r := transact R pCmd s.nextID
  let c := responseResult s.m_Verbose what info r.1
  (c.1, r.2.logs c.2)

/-- `CMyApplication::enableImpinjExtensions`. -/
def enableImpinjExtensions (R : Reader) (s : Session) : Int × Session :=
  commandStep R .IMPINJ_ENABLE_EXTENSIONS false "enableImpinjExtensions"
    "INFO: Impinj Extensions are enabled\n" s

/-- `CMyApplication::resetConfigurationToFactoryDefaults`. -/
def resetConfigurationToFactoryDefaults (R : Reader) (s : Session) :
    Int × Session :=
  commandStep R .SET_READER_CONFIG true "resetConfigurationToFactoryDefaults"
    "INFO: Configuration reset to factory defaults\n" s

/-- `CMyApplication::setImpinjReaderConfig`. -/
def setImpinjReaderConfig (R : Reader) (s : Session) : Int × Session :=
  commandStep R .SET_READER_CONFIG false "setImpinjReaderConfig"
    "INFO: Set Impinj Reader Configuration \n" s

/-- `CMyApplication::addROSpec`. -/
def addROSpec (R : Reader) (s : Session) : Int × Session :=
  commandStep R .ADD_ROSPEC false "addROSpec" "INFO: ROSpec added\n" s

/-- `CMyApplication::addAccessSpec`. -/
def addAccessSpec (R : Reader) (s : Session) : Int × Session :=
  commandStep R .ADD_ACCESSSPEC false "addAccessSpec" "INFO: AccessSpec added\n" s

/-- `CMyApplication::enableAccessSpec`. -/
def enableAccessSpec (R : Reader) (s : Session) : Int × Session :=
  commandStep R .ENABLE_ACCESSSPEC false "enableAccessSpec"
    "INFO: AccessSpec enabled\n" s

/-- `CMyApplication::enableROSpec`. -/
def enableROSpec (R : Reader) (s : Session) : Int × Session :=
  commandStep R .ENABLE_ROSPEC false "enableROSpec" "INFO: ROSpec enabled\n" s

/-- `CMyApplication::startROSpec`. -/
def startROSpec (R : Reader) (s : Session) : Int × Session :=
  commandStep R .START_ROSPEC false "startROSpec" "INFO: ROSpec started\n" s

/-- `CMyApplication::stopROSpec`. -/
def stopROSpec (R : Reader) (s : Session) : Int × Session :=
  commandStep R .STOP_ROSPEC false "stopROSpec" "INFO: ROSpec stopped\n" s

/-- White space as the scanf family skips it. -/
def isSpaceC (c : Char) : Bool :=
  c = ' ' || (9 ≤ c.toNat && c.toNat ≤ 13)

/-- Value of a run of decimal digits. -/
def decimalValue (ds : List Char) : Nat :=
  ds.foldl (fun acc d => 10 * acc + (d.toNat - 48)) 0

/-- The conversion `%u` of sscanf: skip white space, accept a sign, read a
non-empty run of digits; the value is stored in a 32-bit unsigned.  Returns
the value and the rest of the input, or `none` on a matching failure. -/
def scanUnsigned (text : List Char) : Option (Nat × List Char) :=
  let t := text.dropWhile isSpaceC
  let neg := t.head? = some '-'
  let t1 := if t.head? = some '-' ∨ t.head? = some '+' then t.tail else t
  let ds := t1.takeWhile Char.isDigit
  if ds = [] then none
  else
    let raw := min (decimalValue ds) (2 ^ 64 - 1)
    let val := if neg then (2 ^ 64 - raw) % 2 ^ 64 else raw
    some (val % 2 ^ 32, t1.dropWhile Char.isDigit)

/-- The call `sscanf(text, "%u.%u.%u.%u", &major, &minor, ...)` as far as
the first two variables are concerned; a variable that is not assigned
keeps its uninitialised value. -/
def sscanfVersion (text : List Char) (major0 minor0 : Nat) : Nat × Nat :=
  match scanUnsigned (text.takeWhile (fun c => c ≠ NUL)) with
  | none => (major0, minor0)
  | some (major, rest) =>
    match rest with
    | '.' :: rest1 =>
      match scanUnsigned rest1 with
      | none => (major, minor0)
      | some (minor, _) => (major, minor)
    | _ => (major, minor0)

/-- `CMyApplication::getReaderCapabilities` after the transaction: the
value returned and the lines printed.  Docsample5 adds the firmware version
check. -/
def capabilitiesResult (v : Sample) (R : Reader) (verbose : Int)
    (pRspMsg : Option Message) : Int × List Event :=
  match pRspMsg with
  | none => (-1, [])
  | some pRsp =>
    let c := checkLLRPStatusResult pRsp.llrpStatus "getReaderCapabilities"
    if 0 ≠ c.1 then (-1, c.2)
    else
      match pRsp.generalDeviceCapabilities with
      | none => (-1, c.2)
      | some pDevCap =>
        if 25882 ≠ pDevCap.deviceManufacturerName then (-1, c.2)
        else
          let victory : Int × List Event :=
            (0, c.2 ++ whenVerbose verbose [.printf "INFO: Found LLRP Capabilities \n"])
          let tooOld : Int × List Event :=
            (-1, c.2 ++ [.printf
              "ERROR: Must have Firmware 4.4 or later for low level data example \n"])
          match v with
          | .docsample3 => victory
          | .docsample5 =>
            if pDevCap.readerFirmwareVersion.length < 3 then tooOld
            else
              let ver := sscanfVersion
                (pDevCap.readerFirmwareVersion ++ R.pastFirmware)
                R.uninitMajor R.uninitMinor
              if ver.1 < 4 ∧ ver.2 < 4 then tooOld else victory

/-- `CMyApplication::getReaderCapabilities`. -/
def getReaderCapabilities (v : Sample) (R : Reader) (s : Session) : Int × Session :=
  let pCmd : Command :=
    { m_pType := .GET_READER_CAPABILITIES, messageID := s.m_messageID,
      resetToFactoryDefault := false }
  let r := transact R pCmd s.nextID
  let c := capabilitiesResult v R s.m_Verbose r.1
  (c.1, r.2.logs c.2)

/-! ## The report monitor loop -/

/-- The poll of docsample3's monitor loop: when more than ten seconds
have passed since the reference time, send a GET_REPORT and move the
reference time.  Docsample5 has no poll. -/
def pollReader (v : Sample) (R : Reader) (tempTime : Int) (pollTime : Int)
    (s : Session) : Int × Session :=
  match v with
  | .docsample3 =>
    if tempTime - pollTime > 10 then
      (tempTime, (sendMessage R
        { m_pType := .GET_REPORT, messageID := 0, resetToFactoryDefault := false }
        s).2)
    else (pollTime, s)
  | .docsample5 => (pollTime, s)

/-- What the loop does after the poll with what recvMessage returned. -/
def dispatch (v : Sample) (R : Reader) (verbose : Int) (pMessage : Option Message) :
    List Event :=
  match pMessage with
  | none => []
  | some m => monitorOutput v R verbose m

/-- One pass through the body of the loop of awaitAndPrintReport, up to the
point where the loop condition is tested again: the new poll reference
time, whether the deadline was detected, and the session. -/
def monitorIteration (v : Sample) (R : Reader) (timeout : Int) (startTime : Int)
    (pollTime : Int) (s : Session) : Int × Bool × Session :=
  let r := recvMessage R 1000 s
  let tempTime := R.time r.2.clockReads
  let bDone := decide (tempTime - startTime > timeout)
  let polled := pollReader v R tempTime pollTime r.2.tick
  (polled.1, bDone, polled.2.logs (dispatch v R s.m_Verbose r.1))

/-- The loop `while(!bDone)` of awaitAndPrintReport; `none` when the fuel
runs out before the deadline is detected. -/
def monitorLoop (v : Sample) (R : Reader) (timeout : Int) (startTime : Int) :
    Nat → Int → Session → Option Session
  | 0, _, _ => none
  | fuel + 1, pollTime, s =>
    let it := monitorIteration v R timeout startTime pollTime s
    if it.2.1 then some it.2.2
    else monitorLoop v R timeout startTime fuel it.1 it.2.2

/-- `CMyApplication::awaitAndPrintReport`: docsample3 reads the clock a
second time for the poll reference. -/
def awaitAndPrintReport (v : Sample) (R : Reader) (fuel : Nat) (timeout : Int)
    (s : Session) : Option (Int × Session) :=
  let retVal : Int := 0
  let startTime := R.time s.clockReads
  let s1 := s.tick
  let start : Int × Session :=
    match v with
    | .docsample3 => (R.time s1.clockReads, s1.tick)
    | .docsample5 => (startTime, s1)
  match monitorLoop v R timeout startTime fuel start.1 start.2 with
  | none => none
  | some s2 => some (retVal, s2)

/-- The argument of awaitAndPrintReport in run. -/
def monitorSeconds : Sample → Int
  | .docsample3 => 60
  | .docsample5 => 1

/-! ## The orchestrator -/

/-- The nested conditionals of `CMyApplication::run` from
`rc = 4; if(0 == getReaderCapabilities())` inwards. -/
def runInner (v : Sample) (R : Reader) (fuel : Nat) (s : Session) :
    Option (Int × Session) :=
  let rc : Int := 4
  let r4 := getReaderCapabilities v R s
  if 0 = r4.1 then
    let rc : Int := 5
    let r5 := setImpinjReaderConfig R r4.2
    if 0 = r5.1 then
      let rc : Int := 6
      let r6 := addROSpec R r5.2
      if 0 = r6.1 then
        let rc : Int := 7
        let r7 := addAccessSpec R r6.2
        if 0 = r7.1 then
          let rc : Int := 8
          let r8 := enableAccessSpec R r7.2
          if 0 = r8.1 then
            let rc : Int := 9
            let r9 := enableROSpec R r8.2
            if 0 = r9.1 then
              let rc : Int := 10
              let r10 := startROSpec R r9.2
              if 0 = r10.1 then
                let rc : Int := 11
                match awaitAndPrintReport v R fuel (monitorSeconds v) r10.2 with
                | none => none
                | some r11 =>
                  if 0 = r11.1 then
                    let rc : Int := 12
                    let r12 := stopROSpec R r11.2
                    if 0 = r12.1 then some (0, r12.2) else some (rc, r12.2)
                  else some (rc, r11.2)
              else some (rc, r10.2)
            else some (rc, r9.2)
          else some (rc, r8.2)
        else some (rc, r7.2)
      else some (rc, r6.2)
    else some (rc, r5.2)
  else some (rc, r4.2)

/-- The block after the nested conditionals, inside the second one: the
best-effort clean-up, whose result is not looked at. -/
def bestEffortCleanup (R : Reader) (s : Session) : Session :=
  (resetConfigurationToFactoryDefaults R
    (s.logs (whenVerbose s.m_Verbose
      [.printf "INFO: Clean up reader configuration...\n"]))).2

/-- The sequence of `CMyApplication::run` once the connection is open, up
to the point where the connection is closed: the outer three conditionals
and the best-effort clean-up that sits inside the second. -/
def runSequence (v : Sample) (R : Reader) (fuel : Nat) (s : Session) :
    Option (Int × Session) :=
  let rc : Int := 1
  let r1 := checkConnectionStatus R s
  if 0 = r1.1 then
    let rc : Int := 2
    let r2 := enableImpinjExtensions R r1.2
    if 0 = r2.1 then
      let rc : Int := 3
      let r3 := resetConfigurationToFactoryDefaults R r2.2
      let inner : Option (Int × Session) :=
        if 0 = r3.1 then runInner v R fuel r3.2 else some (rc, r3.2)
      match inner with
      | none => none
      | some r => some (r.1, bestEffortCleanup R r.2)
    else some (rc, r2.2)
  else some (rc, r1.2)

/-- The state in which `run` starts the sequence, once the connection is
open. -/
def connected (pReaderHostName : String) (s : Session) : Session :=
  ((s.logs (whenVerbose s.m_Verbose
      [.printf ("INFO: Connecting to " ++ pReaderHostName ++ "....\n")])).logs
    [.openConnection pReaderHostName]).logs
    (whenVerbose s.m_Verbose [.printf "INFO: Connected, checking status....\n"])

/-- The end of `run`: the closing line and closing the connection. -/
def teardown (s : Session) : Session :=
  (s.logs (whenVerbose s.m_Verbose [.printf "INFO: Finished\n"])).logs
    [.closeConnection]

/-- `CMyApplication::run`: the returned code and the final state, or
`none` when the monitor loop runs out of fuel. -/
def run (v : Sample) (R : Reader) (fuel : Nat) (pReaderHostName : String)
    (s : Session) : Option (Int × Session) :=
  if R.typeRegistry = false then
    some (-1, s.logs [.printf "ERROR: getTheTypeRegistry failed\n"])
  else if R.connection = false then
    some (-2, s.logs [.printf "ERROR: new CConnection failed\n"])
  else if 0 ≠ R.openConnectionToReader then
    let s1 := s.logs (whenVerbose s.m_Verbose
      [.printf ("INFO: Connecting to " ++ pReaderHostName ++ "....\n")])
    some (-3, (s1.logs [.openConnection pReaderHostName]).logs
      [.printf ("ERROR: connect: " ++ R.connectError ++ " (" ++
        String.mk (fmtD R.openConnectionToReader) ++ ")\n")])
  else
    match runSequence v R fuel (connected pReaderHostName s) with
    | none => none
    | some r => some (r.1, teardown r.2)

/-! ## The ordered list of forward steps -/

/-- The twelve forward steps in the order `run` takes them. -/
def forwardSteps (v : Sample) (R : Reader) (fuel : Nat) :
    List (Session → Option (Int × Session)) :=
  [ fun s => some (checkConnectionStatus R s),
    fun s => some (enableImpinjExtensions R s),
    fun s => some (resetConfigurationToFactoryDefaults R s),
    fun s => some (getReaderCapabilities v R s),
    fun s => some (setImpinjReaderConfig R s),
    fun s => some (addROSpec R s),
    fun s => some (addAccessSpec R s),
    fun s => some (enableAccessSpec R s),
    fun s => some (enableROSpec R s),
    fun s => some (startROSpec R s),
    awaitAndPrintReport v R fuel (monitorSeconds v),
    fun s => some (stopROSpec R s) ]

/-- How an ordered list of steps ends when each is tried in turn and the
first failure stops the sequence. -/
inductive Outcome where
  /-- Steps before number `k` returned 0 and step `k` returned nonzero,
  leaving the session in state `s`. -/
  | failed (k : Nat) (s : Session)
  /-- Every step returned 0. -/
  | completed (s : Session)
  /-- A step did not return. -/
  | stuck

/-- Try the steps in order, numbering them from `k`. -/
def firstFailure : List (Session → Option (Int × Session)) → Nat → Session → Outcome
  | [], _, s => .completed s
  | step :: rest, k, s =>
    match step s with
    | none => .stuck
    | some r => if r.1 = 0 then firstFailure rest (k + 1) r.2 else .failed k r.2

/-- The outcome of the forward steps of `run`, numbered from 1. -/
def forwardOutcome (v : Sample) (R : Reader) (fuel : Nat) (s : Session) : Outcome :=
  firstFailure (forwardSteps v R fuel) 1 s

/-- The commands handed to the connection (transact or sendMessage), in
order. -/
def commandsSent (tr : List Event) : List Command :=
  tr.filterMap (fun e =>
    match e with
    | .transact c _ => some c
    | .sendMessage c => some c
    | _ => none)

/-- Diagnostic output, as opposed to an action on the connection. -/
def Event.isOutput : Event → Bool
  | .printf _ => true
  | .printXMLCommand _ => true
  | .printXMLMessage _ => true
  | _ => false

/-- The command composed by resetConfigurationToFactoryDefaults. -/
def Command.isFactoryReset (c : Command) : Bool :=
  c.m_pType = .SET_READER_CONFIG && c.resetToFactoryDefault

/-- The forward step that composes a command of this kind. -/
def forwardStepOf (c : Command) : Nat :=
  match c.m_pType with
  | .IMPINJ_ENABLE_EXTENSIONS => 2
  | .SET_READER_CONFIG => if c.resetToFactoryDefault then 3 else 5
  | .GET_READER_CAPABILITIES => 4
  | .ADD_ROSPEC => 6
  | .ADD_ACCESSSPEC => 7
  | .ENABLE_ACCESSSPEC => 8
  | .ENABLE_ROSPEC => 9
  | .START_ROSPEC => 10
  | .GET_REPORT => 11
  | .STOP_ROSPEC => 12

/-- Number of clock readings awaitAndPrintReport takes before the loop. -/
def clockBase : Sample → Nat
  | .docsample3 => 2
  | .docsample5 => 1

/-- The clock passes the deadline of the monitor loop within `fuel`
one-second slices, for a session that has read the clock `c0` times. -/
def deadlinePasses (v : Sample) (R : Reader) (fuel : Nat) (c0 : Nat) : Prop :=
  ∃ j, j < fuel ∧ R.time (c0 + clockBase v + j) - R.time c0 > monitorSeconds v

/-! ## Concrete readers used in the examples -/

/-- A response or notification with nothing but a type and a status. -/
def plainMessage (t : MsgType) (st : Option LLRPStatus) : Message :=
  { m_pType := t, llrpStatus := st, generalDeviceCapabilities := none,
    readerEventNotificationData := none, tagReportData := [] }

/-- A successful LLRPStatus. -/
def okStatus : LLRPStatus := { statusCode := 0, errorDescription := "" }

/-- The notification a reader sends on a successful connection attempt. -/
def connectionOkMessage : Message :=
  { m_pType := .READER_EVENT_NOTIFICATION, llrpStatus := none,
    generalDeviceCapabilities := none,
    readerEventNotificationData := some
      { connectionAttemptEvent := some { status := 0 }, antennaEvent := none,
        readerExceptionEvent := none },
    tagReportData := [] }

/-- The response of a well-behaved Impinj reader to a command. -/
def goodResponse (c : Command) : Message :=
  { m_pType := .other c.m_pType.responseName, llrpStatus := some okStatus,
    generalDeviceCapabilities := some
      { deviceManufacturerName := 25882, readerFirmwareVersion := "5.2.0.240".toList },
    readerEventNotificationData := none, tagReportData := [] }

/-- A receive timeout. -/
def recvTimeout : ErrorDetails :=
  { m_eResultCode := .RC_RecvTimeout, m_pWhatStr := some "timeout",
    m_pRefType := none, m_pRefField := none }

/-- A transport error. -/
def transportError : ErrorDetails :=
  { m_eResultCode := .RC_other 1, m_pWhatStr := some "recv IO error",
    m_pRefType := none, m_pRefField := none }

/-- A reader for which everything works: it announces the connection,
answers every command with success, sends no reports, and its clock
advances by 100 seconds per reading. -/
def goodReader : Reader :=
  { typeRegistry := true, connection := true, openConnectionToReader := 0,
    connectError := "",
    transact := fun _ c _ => .ok (goodResponse c),
    recvMessage := fun n _ => if n = 0 then .ok connectionOkMessage else .error recvTimeout,
    sendMessage := fun _ _ => none,
    time := fun n => 100 * n,
    stack := fun _ => 'z', wild := fun _ => [], uninitMajor := 0, uninitMinor := 0,
    pastFirmware := [] }

/-- A reader like `goodReader` whose answer to every command of type `t` is
a failure status. -/
def rejectingReader (t : CmdType) : Reader :=
  { goodReader with
    transact := fun _ c _ =>
      if c.m_pType = t then
        .ok (plainMessage (.other c.m_pType.responseName)
          (some { statusCode := 100, errorDescription := "rejected" }))
      else .ok (goodResponse c) }

/-! ## Notions used to state the properties -/

/-- The trace of `t` extends the trace of `s` by events satisfying `P`. -/
def Extends (P : Event → Prop) (s t : Session) : Prop :=
  ∃ evs, t.trace = s.trace ++ evs ∧ ∀ e ∈ evs, P e

/-- What one step that makes a single call on the connection does to the
session: the clock position is kept and the trace grows by output, the
call, and output. -/
structure SingleCall (call : Event) (s t : Session) : Prop where
  clock : t.clockReads = s.clockReads
  shape : ∃ pre post, t.trace = s.trace ++ (pre ++ call :: post) ∧
    (∀ e ∈ pre, e.isOutput = true) ∧ (∀ e ∈ post, e.isOutput = true)

/-- The command docsample3's monitor loop sends when it polls. -/
def getReportCommand : Command :=
  { m_pType := .GET_REPORT, messageID := 0, resetToFactoryDefault := false }

/-- The code and state a fail-fast outcome stands for. -/
def Outcome.code : Outcome → Option (Int × Session)
  | .failed k s => some ((k : Int), s)
  | .completed s => some (0, s)
  | .stuck => none

/-- The state `run` reaches before tearing down, from the outcome of the
forward steps: the clean-up is carried out unless the first or second step
failed. -/
def afterOutcome (R : Reader) : Outcome → Option (Int × Session)
  | .failed k s => some ((k : Int), if k ≤ 2 then s else bestEffortCleanup R s)
  | .completed s => some (0, bestEffortCleanup R s)
  | .stuck => none

/-- An event a forward step numbered `j` may add to the trace: output, a
receive, or a command of the kind step `j` composes. -/
def stepEvent (j : Nat) (e : Event) : Prop :=
  e.isOutput = true ∨ (∃ n, e = .recvMessage n) ∨
    ∃ c, (e = .transact c 5000 ∨ e = .sendMessage c) ∧ forwardStepOf c = j

/-- The command the best-effort clean-up sends from state `s`. -/
def cleanupCommand (s : Session) : Command :=
  { m_pType := .SET_READER_CONFIG, messageID := s.m_messageID,
    resetToFactoryDefault := true }

/-- The number of the failed step, if one failed. -/
def Outcome.failedAt : Outcome → Option Nat
  | .failed k _ => some k
  | _ => none

/-- Whether every step returned 0. -/
def Outcome.isCompleted : Outcome → Bool
  | .completed _ => true
  | _ => false

/-- The session in which the steps ended. -/
def Outcome.finalState : Outcome → Session
  | .failed _ s => s
  | .completed s => s
  | .stuck => Session.new 0

/-- The code a fail-fast outcome stands for: the number of the failed step,
or 0. -/
def Outcome.verdict (o : Outcome) : Option Int := o.code.map Prod.fst

/-- A reader like `goodReader` that lets every call on the connection from
the fourteenth on fail: in a run of docsample3 with the clock of
`goodReader` that is the trailing reset. -/
def lateFailingReader : Reader :=
  { goodReader with
    transact := fun n c _ =>
      if 13 ≤ n then .error transportError else .ok (goodResponse c) }

/-- What may follow a failed forward step: output, the best-effort factory
reset, and closing the connection. -/
def afterFailureEvent (e : Event) : Prop :=
  e.isOutput = true ∨ e = .closeConnection ∨
    ∃ c, e = .transact c 5000 ∧ c.isFactoryReset = true

/-- The command a command step composes in state `s`. -/
def commandOf (ty : CmdType) (reset : Bool) (s : Session) : Command :=
  { m_pType := ty, messageID := s.m_messageID, resetToFactoryDefault := reset }

/-- The ten command steps of `run`, each with the command it composes. -/
def commandSteps (v : Sample) (R : Reader) :
    List ((Session → Command) × (Session → Int × Session)) :=
  [ (commandOf .IMPINJ_ENABLE_EXTENSIONS false, enableImpinjExtensions R),
    (commandOf .SET_READER_CONFIG true, resetConfigurationToFactoryDefaults R),
    (commandOf .GET_READER_CAPABILITIES false, getReaderCapabilities v R),
    (commandOf .SET_READER_CONFIG false, setImpinjReaderConfig R),
    (commandOf .ADD_ROSPEC false, addROSpec R),
    (commandOf .ADD_ACCESSSPEC false, addAccessSpec R),
    (commandOf .ENABLE_ACCESSSPEC false, enableAccessSpec R),
    (commandOf .ENABLE_ROSPEC false, enableROSpec R),
    (commandOf .START_ROSPEC false, startROSpec R),
    (commandOf .STOP_ROSPEC false, stopROSpec R) ]

/-- A reader whose connection times out on every transaction. -/
def timeoutReader : Reader :=
  { goodReader with
    transact := fun _ _ _ => .error
      { m_eResultCode := .RC_RecvTimeout, m_pWhatStr := some "timeout",
        m_pRefType := none, m_pRefField := none } }

/-! ## Notions used to state the properties of the formatters -/

/-- Two upper-case hexadecimal digits of a byte. -/
def hexPair (b : Nat) : List Char := [hexDigit true (b / 16), hexDigit true (b % 16)]

/-- The separator before the value of index `i`: a '-' before every even
index after the first. -/
def sepAt (i : Nat) : List Char := if 0 < i ∧ i % 2 = 0 then ['-'] else []

/-- The rendering of identifier bytes the specification describes: two
hexadecimal digits per byte, with a '-' before every even-indexed byte
after the first.  The first byte of the list has index `i`. -/
def renderFrom : Nat → List Nat → List Char
  | _, [] => []
  | i, b :: bs =>
    sepAt i ++ hexPair b ++ renderFrom (i + 1) bs

/-- The rendering of identifier bytes, from index 0. -/
def renderBytes (bytes : List Nat) : List Char := renderFrom 0 bytes

/-- Four lower-case hexadecimal digits of a 16-bit word. -/
def hexWord (w : Nat) : List Char :=
  [hexDigit false (w / 4096 % 16), hexDigit false (w / 256 % 16),
    hexDigit false (w / 16 % 16), hexDigit false (w % 16)]

/-- Words as four digits each, joined by a single '-'. -/
def joinWords : List Nat → List Char
  | [] => []
  | [w] => hexWord w
  | w :: ws => hexWord w ++ '-' :: joinWords ws

/-- The cursor of a formatter that has so far put the text `T` into the
buffer at offset `buf` of capacity `buflen`, without running out of room. -/
structure Filled (buf buflen : Int) (T : List Char) (c : Cursor) : Prop where
  p_eq : c.p = buf + T.length
  size_eq : c.bufsize = buflen - T.length
  cells : ∀ i : Nat, i < T.length → c.mem.cell (buf + i) = T.getD i NUL
  inside : ∀ q ∈ c.mem.touched, buf ≤ q ∧ q < buf + buflen

/-- The text in the buffer is terminated right behind `T`. -/
def Terminated (buf : Int) (T : List Char) (c : Cursor) : Prop :=
  c.mem.cell (buf + T.length) = NUL

/-- The example identifier AA BB CC DD EE FF 00 11 22 33 44 55. -/
def exampleEPC : List Nat :=
  [0xAA, 0xBB, 0xCC, 0xDD, 0xEE, 0xFF, 0x00, 0x11, 0x22, 0x33, 0x44, 0x55]

/-- The text the identifier loop produces in `n` passes when it never runs
out of room. -/
def loopText (value : Nat → List Char) : Nat → List Char
  | 0 => []
  | n + 1 => loopText value n ++ sepAt n ++ value n

/-- The text a loop of unguarded `emit` statements produces in `n` passes
when it never runs out of room. -/
def emitText (f : Nat → List Char) : Nat → List Char
  | 0 => []
  | n + 1 => emitText f n ++ f n

/-- Words as four digits each, every one followed by a '-'. -/
def dashAll : List Nat → List Char
  | [] => []
  | w :: ws => hexWord w ++ '-' :: dashAll ws

/-- The text docsample3's formatOneReadResult is to leave: the labelled
result code, and for a successful result the data label and the words. -/
def readText3 (r : C1G2ReadOpSpecResult) : List Char :=
  "ReadResult ".toList ++ fmtD r.result ++
    (if r.result = C1G2ReadResultType_Success then
      ": Data  ".toList ++ joinWords r.readData
     else [])

/-- The text docsample5's formatOneReadResult is to leave behind the start
string. -/
def readText5 (startStr : List Char) (r : C1G2ReadOpSpecResult) : List Char :=
  startStr ++ ("result=".toList ++ fmtD r.result) ++
    (if r.result = C1G2ReadResultType_Success then
      " Data=".toList ++ joinWords r.readData
     else [])

/-- A successful Read result with ten data words. -/
def tenWordRead : C1G2ReadOpSpecResult :=
  { result := 0, readData := List.replicate 10 0x1234 }

/-! ## Notions and examples for the return values, identifiers and monitor loop -/

/-- The commands handed to the connection's transact primitive, in order. -/
def commandsTransacted (tr : List Event) : List Command :=
  tr.filterMap (fun e =>
    match e with
    | .transact c _ => some c
    | _ => none)

/-- The capabilities response of an Impinj reader with the given firmware
version string. -/
def firmwareResponse (fw : String) : Message :=
  { m_pType := .other "GET_READER_CAPABILITIES_RESPONSE", llrpStatus := some okStatus,
    generalDeviceCapabilities := some
      { deviceManufacturerName := 25882, readerFirmwareVersion := fw.toList },
    readerEventNotificationData := none, tagReportData := [] }

/-- A reader like `goodReader` reporting the given firmware version. -/
def firmwareReader (fw : String) : Reader :=
  { goodReader with transact := fun _ _ _ => .ok (firmwareResponse fw) }

/-- Number of one-second receive slices recorded in a trace. -/
def recvSlices (tr : List Event) : Nat := tr.count (.recvMessage 1000)

/-- A reader without traffic whose clock advances by one second per
receive slice of the monitor loop: the two readings before the loop give
second 0, the reading after slice `j` gives second `j + 1`. -/
def idleReader (v : Sample) : Reader :=
  { goodReader with
    recvMessage := fun _ _ => .error recvTimeout
    time := fun n => (n : Int) - ((clockBase v : Nat) : Int) + 1 |>.toNat }


/-- A reader like `goodReader` on whose connection every sendMessage
fails. -/
def failingSendReader : Reader :=
  { goodReader with sendMessage := fun _ _ => some transportError }

/-- What the call of printOneTagReportData for one entry prints. -/
def reportLine (v : Sample) (R : Reader) (t : TagReportData) : Event :=
  match v with
  | .docsample3 => .printf (Docsample3.printOneTagReportData R t)
  | .docsample5 => .printf (Docsample5.printOneTagReportData R t)

/-- An RO_ACCESS_REPORT with the given entries. -/
def reportMessage (entries : List TagReportData) : Message :=
  { m_pType := .RO_ACCESS_REPORT, llrpStatus := none, generalDeviceCapabilities := none,
    readerEventNotificationData := none, tagReportData := entries }

/-- Two tag report entries: one EPC_96 without results, one EPCData with a
read result. -/
def twoEntries : List TagReportData :=
  [ { epcParameter := some (.EPC_96 [1, 2, 3, 4, 5, 6, 7, 8, 9, 10, 11, 12]),
      opSpecResults := [], custom := [] },
    { epcParameter := some (.EPCData 16 (some [0xAB, 0xCD])),
      opSpecResults := [.read { result := 0, readData := [0x1234] }], custom := [] } ]

/-- A reader like `goodReader` that delivers a report with two entries on
every receive. -/
def reportingReader : Reader :=
  { goodReader with recvMessage := fun _ _ => .ok (reportMessage twoEntries) }

/-- A reader like `goodReader` from which no message ever arrives: every
receive times out. -/
def silentReader : Reader :=
  { goodReader with recvMessage := fun _ _ => .error recvTimeout }

/-- A reader like `goodReader` on whose connection every receive fails with
a transport error. -/
def brokenReader : Reader :=
  { goodReader with recvMessage := fun _ _ => .error transportError }

/-- A reader like `goodReader` of another manufacturer: its responses
carry the manufacturer number 1234. -/
def foreignReader : Reader :=
  { goodReader with
    transact := fun _ c _ => .ok
      { goodResponse c with
        generalDeviceCapabilities := some
          { deviceManufacturerName := 1234,
            readerFirmwareVersion := "5.2.0.240".toList } } }

/-- The ten forward commands of a run in which every step succeeds, with
the identifiers they carry. -/
def forwardCommands : List Command :=
  [ ⟨.IMPINJ_ENABLE_EXTENSIONS, 0, false⟩, ⟨.SET_READER_CONFIG, 1, true⟩,
    ⟨.GET_READER_CAPABILITIES, 2, false⟩, ⟨.SET_READER_CONFIG, 3, false⟩,
    ⟨.ADD_ROSPEC, 4, false⟩, ⟨.ADD_ACCESSSPEC, 5, false⟩,
    ⟨.ENABLE_ACCESSSPEC, 6, false⟩, ⟨.ENABLE_ROSPEC, 7, false⟩,
    ⟨.START_ROSPEC, 8, false⟩, ⟨.STOP_ROSPEC, 9, false⟩ ]

/-- The session has composed and transacted the first `n` forward
commands and its counter stands at `n`. -/
def Counted (n : Nat) (s : Session) : Prop :=
  s.m_messageID = n ∧ commandsTransacted s.trace = forwardCommands.take n

/-- Number of commands composed before forward step `k` starts: steps 1
(the connection check) and 11 (the monitor loop) compose none. -/
def idsBefore (k : Nat) : Nat :=
  if k ≤ 1 then 0 else if k ≤ 11 then k - 2 else k - 3

/-! ## Notions and examples for the connection check and the diagnostics -/

/-- A reader like `goodReader` whose responses carry a successful status
and nothing else: no general device capabilities. -/
def bareReader : Reader :=
  { goodReader with
    transact := fun _ c _ =>
      .ok (plainMessage (.other c.m_pType.responseName) (some okStatus)) }

/-- The lines an event list prints, in order. -/
def printedLines (tr : List Event) : List String :=
  tr.filterMap (fun e =>
    match e with
    | .printf text => some text
    | _ => none)

/-! ## The access command of docsample5 -/

/-- The data profiles docsample5 sets (enumeration `EImpinjQTDataProfile`). -/
inductive ImpinjQTDataProfile where
  | Private
  | Public
  deriving DecidableEq

/-- The persistence values docsample5 sets (enumeration
`EImpinjQTPersistence`). -/
inductive ImpinjQTPersistence where
  | Temporary
  | Permanent
  deriving DecidableEq

/-- An operation docsample5 adds to the access command, with the fields
it sets. -/
inductive AccessCommandOpSpec where
  | C1G2Read (opSpecID accessPassword mb wordPointer wordCount : Nat)
  | C1G2Write (opSpecID accessPassword mb wordPointer : Nat) (writeData : List Nat)
  | ImpinjGetQTConfig (opSpecID accessPassword : Nat)
  | ImpinjSetQTConfig (opSpecID accessPassword accessRange : Nat)
      (dataProfile : ImpinjQTDataProfile) (persistence : ImpinjQTPersistence)
  deriving DecidableEq

/-- The OpSpecID of an operation. -/
def AccessCommandOpSpec.opSpecID : AccessCommandOpSpec → Nat
  | .C1G2Read id _ _ _ _ => id
  | .C1G2Write id _ _ _ _ => id
  | .ImpinjGetQTConfig id _ => id
  | .ImpinjSetQTConfig id _ _ _ _ => id

namespace Docsample5

/-- The `switch(m_qtmode)` of `CMyApplication::addAccessSpec` of docsample5:
the operations added to the access command, in order.  `rand i` is the
value of the call number `i` of `rand()`, stored into a 16-bit word. -/
def accessCommandOpSpecs (s : Session) (rand : Nat → Nat) : List AccessCommandOpSpec :=
  match s.m_qtmode with
  | 0 => [.C1G2Read 1 0 2 0 2]
  | 1 =>
    let Data : List Nat :=
      [(s.m_newPassword >>> 16) &&& 0x0000ffff, s.m_newPassword &&& 0x0000ffff]
    [.C1G2Write 10 s.m_password 0 2 Data]
  | 2 => [.C1G2Read 2 0 2 0 6, .C1G2Read 2 0 2 6 6, .C1G2Read 3 0 3 0 32]
  | 4 => [.ImpinjSetQTConfig 5 s.m_password s.m_shortRange .Private .Permanent]
  | 5 => [.ImpinjSetQTConfig 6 s.m_password s.m_shortRange .Public .Permanent]
  | 6 =>
    [.ImpinjSetQTConfig 6 s.m_password ImpinjQTAccessRange_Normal_Range .Private
        .Temporary,
      .C1G2Read 7 0 1 2 8, .C1G2Read 8 0 2 0 6, .C1G2Read 9 0 3 0 32]
  | 7 => [.C1G2Write 10 s.m_password 3 0 ((List.range 32).map (fun x => rand x % 65536))]
  | 8 => [.C1G2Write 11 s.m_password 2 6 ((List.range 6).map (fun x => rand x % 65536))]
  | 9 => [.C1G2Read 12 0 0 0 4]
  | _ => [.ImpinjGetQTConfig 4 s.m_password]

end Docsample5

/-- A session started with the given scenario and passwords. -/
def scenarioSession (qtmode password newPassword : Nat) : Session :=
  { Session.new 0 with
    m_qtmode := qtmode, m_password := password, m_newPassword := newPassword }

/-! ## Texts of the docsample5 formatters -/

/-- What indexing a string table with a raw ordinal yields: the entry, or
for an ordinal outside the table whatever `wild` supplies. -/
def lookupName (table : List String) (wild : Nat → List Char) (i : Nat) : List Char :=
  match table.get? i with
  | some t => t.toList
  | none => wild i

/-- The text formatOneGetQTConfigResult is to leave: the start string, the
result code, and for a successful result the two names. -/
def getQTText (startStr : List Char) (wild : Nat → List Char)
    (r : ImpinjGetQTConfigOpSpecResult) : List Char :=
  startStr ++ ("result=".toList ++ fmtD r.result ++ [' ']) ++
    (if ImpinjGetQTConfigResultType_Success = r.result then
      "data=".toList ++ lookupName Docsample5.dataStrings wild r.dataProfile ++
        " range=".toList ++ lookupName Docsample5.rangeStrings wild r.accessRange ++ ['\n']
     else [])

/-- The conversion `%02X` of a 16-bit word, digit by digit: two digits
below 0x100, three below 0x1000, four from there on. -/
def hexUpper (w : Nat) : List Char :=
  if w < 256 then hexPair w
  else if w < 4096 then
    [hexDigit true (w / 256), hexDigit true (w / 16 % 16), hexDigit true (w % 16)]
  else
    [hexDigit true (w / 4096), hexDigit true (w / 256 % 16),
      hexDigit true (w / 16 % 16), hexDigit true (w % 16)]

/-- The text formatOneSerializedTID is to leave: the start string and the
words, each rendered by `%02X`, with a '-' before every even-indexed word
after the first. -/
def tidText (startStr : List Char) (pTID : ImpinjSerializedTID) : List Char :=
  startStr ++ loopText (fun i => fmt02X (pTID.tid.getD i 0)) pTID.tid.length

/-- The text formatOneWriteResult and formatOneSetQTConfigResult are to
leave: the start string and the result code. -/
def resultText (startStr : List Char) (result : Int) : List Char :=
  startStr ++ ("result=".toList ++ fmtD result)

/-- The text formatOneEPC is to put behind the start string. -/
def epcBody (pEPCParameter : Option EPCParameter) : List Char :=
  match pEPCParameter with
  | some param =>
    match epcValue param with
    | (some pValue, n) => loopText (fun i => fmt02X (pValue.getD i 0)) n
    | (none, _) => "---unknown-epc-data-type---".toList
  | none => "--null epc---".toList

/-! ## The line of docsample5 -/

/-- The texts of the items of a list, one after the other in list order. -/
def segments {α : Type} (f : α → List Char) : List α → List Char
  | [] => []
  | x :: xs => f x ++ segments f xs

/-- The labelled segment of the line for one OpSpec result; nothing for a
result of another type. -/
def resultSegment (wild : Nat → List Char) : OpSpecResult → List Char
  | .read r => readText5 "\n    READ ".toList r
  | .write r => resultText "\n    WRITE ".toList r.result
  | .setQT r => resultText "\n    SETQT ".toList r.result
  | .getQT r => getQTText "\n    GETQT ".toList wild r
  | .other _ => []

/-- The segment of the line for one custom parameter; nothing for one
that is not a serialized TID. -/
def customSegment : CustomParameter → List Char
  | .serializedTID t => tidText "\n    SERIAL-TID ".toList t
  | .other _ => []

/-- The text of the line for a tag report entry: the EPC segment, the
result segments, the SERIAL-TID segments. -/
def lineText5 (wild : Nat → List Char) (t : TagReportData) : List Char :=
  ("epc=".toList ++ epcBody t.epcParameter) ++
    segments (resultSegment wild) t.opSpecResults ++
    segments customSegment t.custom

/-- The line buffer holds the text `T`, terminated, and `ptr` and
`bufLimit` stand behind it. -/
def LineOK (T : List Char) (l : LineState) : Prop :=
  Filled 0 1024 T { mem := l.mem, p := l.ptr, bufsize := l.bufLimit } ∧
  Terminated 0 T { mem := l.mem, p := l.ptr, bufsize := l.bufLimit }

/-- A tag report entry with an EPC, a read, a write and a GetQT result and
a serialized TID. -/
def fullEntry : TagReportData :=
  { epcParameter := some (.EPCData 16 (some [0xAB, 0xCD])),
    opSpecResults := [.read { result := 0, readData := [0x1234] }, .other "x",
      .write { result := 0 }, .getQT { result := 0, dataProfile := 1, accessRange := 2 }],
    custom := [.other "y", .serializedTID { tid := [0xE280, 0x1105] }] }

/-- The characters a hexadecimal rendering of an identifier is made of. -/
def hexAlphabet : List Char := "0123456789ABCDEF-".toList

/-! ## Bounds of docsample3's formatOneEPC -/

/-- The cursor of the identifier loop stays in the buffer: pointer and
space counter add up to the end of the buffer, the counter is at least 1
and at most the capacity, and every cell written so far lies in the
buffer. -/
structure InBuffer (buf buflen : Int) (c : Cursor) : Prop where
  sum : c.p + c.bufsize = buf + buflen
  pos : 1 ≤ c.bufsize
  le : c.bufsize ≤ buflen
  inside : ∀ q ∈ c.mem.touched, buf ≤ q ∧ q < buf + buflen

/-! ## The line of docsample3 -/

/-- The contents of a buffer that was used before: from offset 0 on it
holds the text ---unknown-epc-data-type--- and its terminator. -/
def staleBuffer (q : Int) : Char :=
  ("---unknown-epc-data-type---".toList ++ [NUL]).getD q.toNat 'z'

/-- An entry whose first Read result does not fit in the result buffer:
ten data words, followed by a short Read result. -/
def overrunEntry : TagReportData :=
  { epcParameter := some (.EPC_96 exampleEPC),
    opSpecResults := [.read tenWordRead, .read { result := 3, readData := [] }],
    custom := [] }
/-! ## Basic facts about the session primitives -/

@[simp] theorem logs_trace (s : Session) (es : List Event) :
    (s.logs es).trace = s.trace ++ es := rfl
@[simp] theorem logs_ioCount (s : Session) (es : List Event) :
    (s.logs es).ioCount = s.ioCount := rfl
@[simp] theorem logs_clockReads (s : Session) (es : List Event) :
    (s.logs es).clockReads = s.clockReads := rfl
@[simp] theorem logs_verbose (s : Session) (es : List Event) :
    (s.logs es).m_Verbose = s.m_Verbose := rfl
@[simp] theorem logs_messageID (s : Session) (es : List Event) :
    (s.logs es).m_messageID = s.m_messageID := rfl
@[simp] theorem io_trace (s : Session) (e : Event) :
    (s.io e).trace = s.trace ++ [e] := rfl
@[simp] theorem io_ioCount (s : Session) (e : Event) :
    (s.io e).ioCount = s.ioCount + 1 := rfl
@[simp] theorem io_clockReads (s : Session) (e : Event) :
    (s.io e).clockReads = s.clockReads := rfl
@[simp] theorem io_verbose (s : Session) (e : Event) :
    (s.io e).m_Verbose = s.m_Verbose := rfl
@[simp] theorem io_messageID (s : Session) (e : Event) :
    (s.io e).m_messageID = s.m_messageID := rfl
@[simp] theorem nextID_trace (s : Session) : s.nextID.trace = s.trace := rfl
@[simp] theorem nextID_ioCount (s : Session) : s.nextID.ioCount = s.ioCount := rfl
@[simp] theorem nextID_clockReads (s : Session) :
    s.nextID.clockReads = s.clockReads := rfl
@[simp] theorem nextID_verbose (s : Session) : s.nextID.m_Verbose = s.m_Verbose := rfl
@[simp] theorem tick_trace (s : Session) : s.tick.trace = s.trace := rfl
@[simp] theorem tick_ioCount (s : Session) : s.tick.ioCount = s.ioCount := rfl
@[simp] theorem tick_clockReads (s : Session) :
    s.tick.clockReads = s.clockReads + 1 := rfl
@[simp] theorem tick_verbose (s : Session) : s.tick.m_Verbose = s.m_Verbose := rfl

theorem Extends.refl (P : Event → Prop) (s : Session) : Extends P s s :=
  ⟨[], by simp, by simp⟩

theorem Extends.trans {P : Event → Prop} {s t u : Session}
    (h1 : Extends P s t) (h2 : Extends P t u) : Extends P s u := by
  obtain ⟨e1, t1, p1⟩ := h1
  obtain ⟨e2, t2, p2⟩ := h2
  refine ⟨e1 ++ e2, by rw [t2, t1, List.append_assoc], ?_⟩
  intro e he
  rcases List.mem_append.1 he with h | h
  · exact p1 e h
  · exact p2 e h

theorem Extends.logs {P : Event → Prop} (s : Session) (es : List Event)
    (h : ∀ e ∈ es, P e) : Extends P s (s.logs es) :=
  ⟨es, rfl, h⟩

theorem Extends.io {P : Event → Prop} (s : Session) (e : Event) (h : P e) :
    Extends P s (s.io e) :=
  ⟨[e], rfl, by simpa using h⟩

theorem Extends.of_trace_eq {P : Event → Prop} {s t u : Session}
    (h : Extends P s t) (hu : u.trace = t.trace) : Extends P s u := by
  obtain ⟨evs, ht, hp⟩ := h
  exact ⟨evs, by rw [hu, ht], hp⟩

theorem errorRefLines_output (pError : ErrorDetails) :
    ∀ e ∈ errorRefLines pError, e.isOutput = true := by
  intro e he
  unfold errorRefLines at he
  cases h1 : pError.m_pRefType <;> cases h2 : pError.m_pRefField <;>
    simp [h1, h2] at he <;> rcases he with rfl | rfl <;> rfl

theorem whenVerbose2_output (verbose : Int) (es : List Event)
    (h : ∀ e ∈ es, e.isOutput = true) :
    ∀ e ∈ whenVerbose2 verbose es, e.isOutput = true := by
  unfold whenVerbose2
  split
  · exact h
  · simp

theorem whenVerbose_output (verbose : Int) (es : List Event)
    (h : ∀ e ∈ es, e.isOutput = true) :
    ∀ e ∈ whenVerbose verbose es, e.isOutput = true := by
  unfold whenVerbose
  split
  · exact h
  · simp

theorem checkLLRPStatusResult_output (st : Option LLRPStatus) (what : String) :
    ∀ e ∈ (checkLLRPStatusResult st what).2, e.isOutput = true := by
  unfold checkLLRPStatusResult
  intro e he
  split at he
  · simp at he; subst he; rfl
  · split at he
    · split at he <;> (simp at he; subst he; rfl)
    · simp at he

theorem transactResult_output (verbose : Int) (c : Command)
    (reply : Except ErrorDetails Message) :
    ∀ e ∈ (transactResult verbose c reply).2, e.isOutput = true := by
  intro e he
  unfold transactResult at he
  have hrec : ∀ (m : Message), ∀ e ∈ whenVerbose2 verbose
      [.printf "\n- - - - - - - - - - - - - - - - - -\n",
        .printf "INFO: Transact received response\n",
        .printXMLMessage m.m_pType.m_pName], e.isOutput = true :=
    fun m => whenVerbose2_output _ _ (by simp [Event.isOutput])
  cases reply with
  | error pError =>
    simp only [] at he
    rcases List.mem_append.1 he with h | h
    · simp at h; subst h; rfl
    · exact errorRefLines_output pError e h
  | ok m =>
    simp only [] at he
    split at he
    · rcases List.mem_append.1 he with h | h
      · exact hrec m e h
      · simp at h; subst h; rfl
    · exact hrec m e he

theorem recvResult_output (verbose : Int) (reply : Except ErrorDetails Message) :
    ∀ e ∈ (recvResult verbose reply).2, e.isOutput = true := by
  intro e he
  unfold recvResult at he
  cases reply with
  | error pError =>
    simp only [] at he
    rcases List.mem_append.1 he with h | h
    · split at h
      · simp at h; subst h; rfl
      · simp at h
    · exact errorRefLines_output pError e h
  | ok m =>
    exact whenVerbose2_output _ _ (by simp [Event.isOutput]) e he

theorem sendResult_output (c : Command) (reply : Option ErrorDetails) :
    ∀ e ∈ (sendResult c reply).2, e.isOutput = true := by
  intro e he
  unfold sendResult at he
  cases reply with
  | some pError =>
    simp only [] at he
    rcases List.mem_append.1 he with h | h
    · simp at h; subst h; rfl
    · exact errorRefLines_output pError e h
  | none => simp at he

theorem responseResult_output (verbose : Int) (what info : String)
    (rsp : Option Message) :
    ∀ e ∈ (responseResult verbose what info rsp).2, e.isOutput = true := by
  intro e he
  unfold responseResult at he
  cases rsp with
  | none => simp at he
  | some m =>
    simp only [] at he
    split at he
    · exact checkLLRPStatusResult_output _ _ e he
    · rcases List.mem_append.1 he with h | h
      · exact checkLLRPStatusResult_output _ _ e h
      · exact whenVerbose_output _ _ (by simp [Event.isOutput]) e h

theorem capabilitiesResult_output (v : Sample) (R : Reader) (verbose : Int)
    (rsp : Option Message) :
    ∀ e ∈ (capabilitiesResult v R verbose rsp).2, e.isOutput = true := by
  intro e he
  have hc := checkLLRPStatusResult_output
  have hv : ∀ m : Message, ∀ e ∈ (checkLLRPStatusResult m.llrpStatus
      "getReaderCapabilities").2 ++ whenVerbose verbose
        [.printf "INFO: Found LLRP Capabilities \n"], e.isOutput = true := by
    intro m e he
    rcases List.mem_append.1 he with h | h
    · exact hc _ _ e h
    · exact whenVerbose_output _ _ (by simp [Event.isOutput]) e h
  have ho : ∀ m : Message, ∀ e ∈ (checkLLRPStatusResult m.llrpStatus
      "getReaderCapabilities").2 ++ [.printf
        "ERROR: Must have Firmware 4.4 or later for low level data example \n"],
      e.isOutput = true := by
    intro m e he
    rcases List.mem_append.1 he with h | h
    · exact hc _ _ e h
    · simp at h; subst h; rfl
  unfold capabilitiesResult at he
  cases rsp with
  | none => simp at he
  | some m =>
    simp only [] at he
    split at he
    · exact hc _ _ e he
    · split at he
      · exact hc _ _ e he
      · split at he
        · exact hc _ _ e he
        · cases v with
          | docsample3 => exact hv m e he
          | docsample5 =>
            simp only [] at he
            split at he
            · exact ho m e he
            · split at he
              · exact ho m e he
              · exact hv m e he

theorem connectionStatusResult_output (verbose : Int) (m : Option Message) :
    ∀ e ∈ (connectionStatusResult verbose m).2, e.isOutput = true := by
  intro e he
  unfold connectionStatusResult at he
  have hf : ∀ e ∈ ((-1 : Int), [Event.printf "ERROR: checkConnectionStatus failed\n"]).2,
      e.isOutput = true := by simp [Event.isOutput]
  repeat' (first | exact hf e he | split at he)
  exact whenVerbose_output _ _ (by simp [Event.isOutput]) e he

theorem SingleCall.extends {P : Event → Prop} {call : Event} {s t : Session}
    (h : SingleCall call s t) (hout : ∀ e, e.isOutput = true → P e)
    (hcall : P call) : Extends P s t := by
  obtain ⟨pre, post, ht, hpre, hpost⟩ := h.shape
  refine ⟨pre ++ call :: post, ht, ?_⟩
  intro e he
  rcases List.mem_append.1 he with h | h
  · exact hout e (hpre e h)
  · rcases List.mem_cons.1 h with h | h
    · exact h ▸ hcall
    · exact hout e (hpost e h)

theorem transact_single (R : Reader) (c : Command) (s : Session) :
    SingleCall (.transact c 5000) s (transact R c s).2 := by
  refine ⟨by simp [transact], _, _, by simp [transact]; rfl, ?_, ?_⟩
  · exact whenVerbose2_output _ _ (by simp [Event.isOutput])
  · exact transactResult_output _ _ _

theorem recvMessage_single (R : Reader) (n : Int) (s : Session) :
    SingleCall (.recvMessage n) s (recvMessage R n s).2 := by
  refine ⟨by simp [recvMessage], [], _, by simp [recvMessage]; rfl, by simp, ?_⟩
  exact recvResult_output _ _

theorem sendMessage_single (R : Reader) (c : Command) (s : Session) :
    SingleCall (.sendMessage c) s (sendMessage R c s).2 := by
  refine ⟨by simp [sendMessage], _, _, by simp [sendMessage]; rfl, ?_, ?_⟩
  · exact whenVerbose2_output _ _ (by simp [Event.isOutput])
  · exact sendResult_output _ _

theorem SingleCall.withOutput {call : Event} {s t : Session} (h : SingleCall call s t)
    (es : List Event) (hes : ∀ e ∈ es, e.isOutput = true) :
    SingleCall call s (t.logs es) := by
  obtain ⟨pre, post, ht, hpre, hpost⟩ := h.shape
  refine ⟨by simpa using h.clock, pre, post ++ es, by simp [ht], hpre, ?_⟩
  intro e he
  rcases List.mem_append.1 he with h | h
  · exact hpost e h
  · exact hes e h

theorem SingleCall.of_eq {call : Event} {s s0 t : Session} (h : SingleCall call s0 t)
    (hc : s0.clockReads = s.clockReads) (ht : s0.trace = s.trace) :
    SingleCall call s t := by
  obtain ⟨pre, post, h1, hpre, hpost⟩ := h.shape
  exact ⟨by rw [h.clock, hc], pre, post, by rw [h1, ht], hpre, hpost⟩

theorem commandStep_single (R : Reader) (ty : CmdType) (reset : Bool)
    (what info : String) (s : Session) :
    SingleCall (.transact ⟨ty, s.m_messageID, reset⟩ 5000) s
      (commandStep R ty reset what info s).2 := by
  unfold commandStep
  exact ((transact_single R _ s.nextID).withOutput _ (responseResult_output _ _ _ _)).of_eq
    rfl rfl

theorem getReaderCapabilities_single (v : Sample) (R : Reader) (s : Session) :
    SingleCall (.transact ⟨.GET_READER_CAPABILITIES, s.m_messageID, false⟩ 5000) s
      (getReaderCapabilities v R s).2 := by
  unfold getReaderCapabilities
  exact ((transact_single R _ s.nextID).withOutput _
    (capabilitiesResult_output _ _ _ _)).of_eq rfl rfl

theorem checkConnectionStatus_single (R : Reader) (s : Session) :
    SingleCall (.recvMessage 10000) s (checkConnectionStatus R s).2 := by
  unfold checkConnectionStatus
  exact (recvMessage_single R _ s).withOutput _ (connectionStatusResult_output _ _)

/-! ### The monitor loop -/

theorem handleReaderEventNotification_output (d : ReaderEventNotificationData) :
    ∀ e ∈ handleReaderEventNotification d, e.isOutput = true := by
  intro e he
  unfold handleReaderEventNotification at he
  simp only [List.mem_append] at he
  rcases he with (h | h) | h
  · cases ha : d.antennaEvent with
    | none => simp [ha] at h
    | some a => simp [ha, handleAntennaEvent] at h; subst h; rfl
  · cases hx : d.readerExceptionEvent with
    | none => simp [hx] at h
    | some x =>
      simp only [hx, handleReaderExceptionEvent] at h
      repeat' split at h
      all_goals (simp at h; subst h; rfl)
  · have key : ∀ (c : Prop) [Decidable c] (x : Event),
        e ∈ (if c then [x] else []) → e = x := by
      intro c _ x hx
      split at hx
      · simpa using hx
      · simp at hx
    have h2 := key _ _ h
    subst h2; rfl

theorem printTagReportData_output (v : Sample) (R : Reader) (verbose : Int)
    (entries : List TagReportData) :
    ∀ e ∈ printTagReportData v R verbose entries, e.isOutput = true := by
  intro e he
  unfold printTagReportData at he
  rcases List.mem_append.1 he with h | h
  · split at h
    · simp at h; subst h; rfl
    · simp at h
  · obtain ⟨t, _, rfl⟩ := List.mem_map.1 h
    cases v <;> rfl

theorem monitorOutput_output (v : Sample) (R : Reader) (verbose : Int) (m : Message) :
    ∀ e ∈ monitorOutput v R verbose m, e.isOutput = true := by
  intro e he
  unfold monitorOutput at he
  split at he
  · exact printTagReportData_output _ _ _ _ e he
  · split at he
    · exact handleReaderEventNotification_output _ e he
    · simp at he; subst he; rfl
  · simp at he; subst he; rfl

theorem dispatch_output (v : Sample) (R : Reader) (verbose : Int)
    (m : Option Message) : ∀ e ∈ dispatch v R verbose m, e.isOutput = true := by
  intro e he
  unfold dispatch at he
  cases m with
  | none => simp at he
  | some m => exact monitorOutput_output _ _ _ _ e he

theorem pollReader_extends {P : Event → Prop} (v : Sample) (R : Reader)
    (tempTime pollTime : Int) (s : Session)
    (hout : ∀ e, e.isOutput = true → P e) (hsend : P (.sendMessage getReportCommand)) :
    Extends P s (pollReader v R tempTime pollTime s).2 := by
  unfold pollReader
  cases v with
  | docsample3 =>
    simp only []
    split
    · exact (sendMessage_single R _ s).extends hout hsend
    · exact Extends.refl P s
  | docsample5 => exact Extends.refl P s

theorem pollReader_clockReads (v : Sample) (R : Reader) (tempTime pollTime : Int)
    (s : Session) : (pollReader v R tempTime pollTime s).2.clockReads = s.clockReads := by
  unfold pollReader
  cases v with
  | docsample3 =>
    simp only []
    split
    · exact (sendMessage_single R _ s).clock
    · rfl
  | docsample5 => rfl

theorem monitorIteration_extends {P : Event → Prop} (v : Sample) (R : Reader)
    (timeout startTime pollTime : Int) (s : Session)
    (hout : ∀ e, e.isOutput = true → P e) (hrecv : P (.recvMessage 1000))
    (hsend : P (.sendMessage getReportCommand)) :
    Extends P s (monitorIteration v R timeout startTime pollTime s).2.2 := by
  unfold monitorIteration
  have h1 : Extends P s (recvMessage R 1000 s).2 :=
    (recvMessage_single R 1000 s).extends hout hrecv
  have h2 : Extends P s (recvMessage R 1000 s).2.tick := h1.of_trace_eq rfl
  have h3 := h2.trans (pollReader_extends v R
    (R.time (recvMessage R 1000 s).2.clockReads) pollTime
    (recvMessage R 1000 s).2.tick hout hsend)
  exact h3.trans (Extends.logs _ _ (fun e he => hout e (dispatch_output _ _ _ _ e he)))

theorem monitorIteration_clockReads (v : Sample) (R : Reader)
    (timeout startTime pollTime : Int) (s : Session) :
    (monitorIteration v R timeout startTime pollTime s).2.2.clockReads
      = s.clockReads + 1 := by
  unfold monitorIteration
  simp [pollReader_clockReads, (recvMessage_single R 1000 s).clock]

theorem monitorIteration_done (v : Sample) (R : Reader)
    (timeout startTime pollTime : Int) (s : Session) :
    (monitorIteration v R timeout startTime pollTime s).2.1
      = decide (R.time s.clockReads - startTime > timeout) := by
  unfold monitorIteration
  simp [(recvMessage_single R 1000 s).clock]

theorem monitorLoop_extends {P : Event → Prop} (v : Sample) (R : Reader)
    (timeout startTime : Int)
    (hout : ∀ e, e.isOutput = true → P e) (hrecv : P (.recvMessage 1000))
    (hsend : P (.sendMessage getReportCommand)) :
    ∀ (fuel : Nat) (pollTime : Int) (s t : Session),
      monitorLoop v R timeout startTime fuel pollTime s = some t → Extends P s t := by
  intro fuel
  induction fuel with
  | zero => intro pollTime s t h; simp [monitorLoop] at h
  | succ n ih =>
    intro pollTime s t h
    have hit := monitorIteration_extends v R timeout startTime pollTime s hout hrecv hsend
    simp only [monitorLoop] at h
    split at h
    · cases h; exact hit
    · exact hit.trans (ih _ _ _ h)

theorem monitorLoop_terminates (v : Sample) (R : Reader) (timeout startTime : Int) :
    ∀ (fuel : Nat) (pollTime : Int) (s : Session),
      (∃ j, j < fuel ∧ R.time (s.clockReads + j) - startTime > timeout) →
      ∃ t, monitorLoop v R timeout startTime fuel pollTime s = some t := by
  intro fuel
  induction fuel with
  | zero => intro pollTime s ⟨j, hj, _⟩; omega
  | succ n ih =>
    intro pollTime s ⟨j, hj, hlate⟩
    simp only [monitorLoop]
    by_cases hd : (monitorIteration v R timeout startTime pollTime s).2.1 = true
    · simp [hd]
    · simp only [hd, Bool.false_eq_true, if_false]
      apply ih
      rw [monitorIteration_done] at hd
      have hj0 : j ≠ 0 := by
        rintro rfl
        simp at hd
        simp at hlate
        omega
      refine ⟨j - 1, by omega, ?_⟩
      rw [monitorIteration_clockReads]
      have : s.clockReads + 1 + (j - 1) = s.clockReads + j := by omega
      rw [this]; exact hlate

theorem awaitAndPrintReport_terminates (v : Sample) (R : Reader) (fuel : Nat)
    (s : Session) (h : deadlinePasses v R fuel s.clockReads) :
    ∃ t, awaitAndPrintReport v R fuel (monitorSeconds v) s = some (0, t) := by
  obtain ⟨j, hj, hlate⟩ := h
  unfold awaitAndPrintReport
  cases v with
  | docsample3 =>
    obtain ⟨t, ht⟩ := monitorLoop_terminates .docsample3 R (monitorSeconds .docsample3)
      (R.time s.clockReads) fuel (R.time s.tick.clockReads) s.tick.tick
      ⟨j, hj, by simpa [clockBase, Nat.add_assoc] using hlate⟩
    exact ⟨t, by simp only [ht]⟩
  | docsample5 =>
    obtain ⟨t, ht⟩ := monitorLoop_terminates .docsample5 R (monitorSeconds .docsample5)
      (R.time s.clockReads) fuel (R.time s.clockReads) s.tick
      ⟨j, hj, by simpa [clockBase] using hlate⟩
    exact ⟨t, by simp only [ht]⟩

theorem awaitAndPrintReport_extends {P : Event → Prop} (v : Sample) (R : Reader)
    (fuel : Nat) (timeout : Int) (s : Session) (r : Int × Session)
    (hout : ∀ e, e.isOutput = true → P e) (hrecv : P (.recvMessage 1000))
    (hsend : P (.sendMessage getReportCommand))
    (h : awaitAndPrintReport v R fuel timeout s = some r) :
    r.1 = 0 ∧ Extends P s r.2 := by
  unfold awaitAndPrintReport at h
  cases v with
  | docsample3 =>
    simp only [] at h
    split at h
    · cases h
    · rename_i t ht
      cases h
      refine ⟨rfl, ?_⟩
      have := monitorLoop_extends .docsample3 R timeout _ hout hrecv hsend _ _ _ _ ht
      obtain ⟨evs, h1, h2⟩ := this
      exact ⟨evs, by simpa using h1, h2⟩
  | docsample5 =>
    simp only [] at h
    split at h
    · cases h
    · rename_i t ht
      cases h
      refine ⟨rfl, ?_⟩
      have := monitorLoop_extends .docsample5 R timeout _ hout hrecv hsend _ _ _ _ ht
      obtain ⟨evs, h1, h2⟩ := this
      exact ⟨evs, by simpa using h1, h2⟩

/-! ## The orchestrator against the ordered list of steps -/

theorem runInner_eq (v : Sample) (R : Reader) (fuel : Nat) (s : Session) :
    runInner v R fuel s
      = (firstFailure ((forwardSteps v R fuel).drop 3) 4 s).code := by
  simp only [runInner, forwardSteps, List.drop, firstFailure]
  generalize getReaderCapabilities v R s = r4
  by_cases h4 : r4.1 = 0
  swap
  · simp [h4, Outcome.code, eq_comm]
  simp only [h4, if_true]
  generalize setImpinjReaderConfig R r4.2 = r5
  by_cases h5 : r5.1 = 0
  swap
  · simp [h5, Outcome.code, eq_comm]
  simp only [h5, if_true]
  generalize addROSpec R r5.2 = r6
  by_cases h6 : r6.1 = 0
  swap
  · simp [h6, Outcome.code, eq_comm]
  simp only [h6, if_true]
  generalize addAccessSpec R r6.2 = r7
  by_cases h7 : r7.1 = 0
  swap
  · simp [h7, Outcome.code, eq_comm]
  simp only [h7, if_true]
  generalize enableAccessSpec R r7.2 = r8
  by_cases h8 : r8.1 = 0
  swap
  · simp [h8, Outcome.code, eq_comm]
  simp only [h8, if_true]
  generalize enableROSpec R r8.2 = r9
  by_cases h9 : r9.1 = 0
  swap
  · simp [h9, Outcome.code, eq_comm]
  simp only [h9, if_true]
  generalize startROSpec R r9.2 = r10
  by_cases h10 : r10.1 = 0
  swap
  · simp [h10, Outcome.code, eq_comm]
  simp only [h10, if_true]
  cases h11 : awaitAndPrintReport v R fuel (monitorSeconds v) r10.2 with
  | none => simp [Outcome.code]
  | some r11 =>
    simp only []
    by_cases h11 : r11.1 = 0
    swap
    · simp [h11, Outcome.code, eq_comm]
    simp only [h11, if_true]
    generalize stopROSpec R r11.2 = r12
    by_cases h12 : r12.1 = 0
    · simp [h12, Outcome.code]
    · simp [h12, Outcome.code, eq_comm]

theorem firstFailure_from (steps : List (Session → Option (Int × Session))) :
    ∀ (k : Nat) (s : Session),
      match firstFailure steps k s with
      | .failed j _ => k ≤ j ∧ j < k + steps.length
      | _ => True := by
  induction steps with
  | nil => intro k s; simp [firstFailure]
  | cons st rest ih =>
    intro k s
    simp only [firstFailure]
    cases h : st s with
    | none => simp
    | some r =>
      simp only []
      by_cases h0 : r.1 = 0
      · simp only [h0, if_true]
        have := ih (k + 1) r.2
        revert this
        cases firstFailure rest (k + 1) r.2 <;> simp
        omega
      · simp [h0]

theorem firstFailure_cons_total (f : Session → Int × Session)
    (rest : List (Session → Option (Int × Session))) (k : Nat) (s : Session) :
    firstFailure ((fun s => some (f s)) :: rest) k s
      = if (f s).1 = 0 then firstFailure rest (k + 1) (f s).2 else .failed k (f s).2 :=
  rfl

theorem runSequence_eq (v : Sample) (R : Reader) (fuel : Nat) (s : Session) :
    runSequence v R fuel s = afterOutcome R (forwardOutcome v R fuel s) := by
  have hsteps : forwardSteps v R fuel
      = (fun s => some (checkConnectionStatus R s)) ::
        (fun s => some (enableImpinjExtensions R s)) ::
        (fun s => some (resetConfigurationToFactoryDefaults R s)) ::
        (forwardSteps v R fuel).drop 3 := rfl
  unfold runSequence forwardOutcome
  rw [hsteps, firstFailure_cons_total]
  simp only []
  generalize checkConnectionStatus R s = r1
  by_cases h1 : r1.1 = 0
  swap
  · simp [h1, afterOutcome, eq_comm]
  simp only [h1, if_true]
  rw [firstFailure_cons_total]
  generalize enableImpinjExtensions R r1.2 = r2
  by_cases h2 : r2.1 = 0
  swap
  · simp [h2, afterOutcome, eq_comm]
  simp only [h2, if_true]
  rw [firstFailure_cons_total]
  generalize resetConfigurationToFactoryDefaults R r2.2 = r3
  by_cases h3 : r3.1 = 0
  swap
  · simp [h3, afterOutcome, eq_comm]
  simp only [h3, if_true]
  rw [runInner_eq v R fuel r3.2]
  have hk := firstFailure_from ((forwardSteps v R fuel).drop 3) 4 r3.2
  revert hk
  cases firstFailure ((forwardSteps v R fuel).drop 3) 4 r3.2 with
  | failed k sk =>
    intro hk
    have : ¬ k ≤ 2 := by simp at hk; omega
    simp [Outcome.code, afterOutcome, this]
  | completed sk => simp [Outcome.code, afterOutcome]
  | stuck => simp [Outcome.code, afterOutcome]

theorem forwardOutcome_range (v : Sample) (R : Reader) (fuel : Nat) (s : Session)
    (k : Nat) (sk : Session) (h : forwardOutcome v R fuel s = .failed k sk) :
    1 ≤ k ∧ k ≤ 12 := by
  have := firstFailure_from (forwardSteps v R fuel) 1 s
  unfold forwardOutcome at h
  rw [h] at this
  simp [forwardSteps] at this
  omega

theorem Extends.mono {P Q : Event → Prop} {s t : Session} (h : Extends P s t)
    (hpq : ∀ e, P e → Q e) : Extends Q s t := by
  obtain ⟨evs, ht, hp⟩ := h
  exact ⟨evs, ht, fun e he => hpq e (hp e he)⟩

theorem firstFailure_extends {Q : Nat → Event → Prop} :
    ∀ (steps : List (Session → Option (Int × Session))) (k0 : Nat) (s : Session),
      (∀ i st, steps.get? i = some st → ∀ s r, st s = some r →
        Extends (Q (k0 + i)) s r.2) →
      match firstFailure steps k0 s with
      | .failed k sk => Extends (fun e => ∃ j, j ≤ k ∧ Q j e) s sk
      | .completed sk => Extends (fun e => ∃ j, Q j e) s sk
      | .stuck => True := by
  intro steps
  induction steps with
  | nil => intro k0 s _; simp only [firstFailure]; exact Extends.refl _ s
  | cons st rest ih =>
    intro k0 s hsteps
    simp only [firstFailure]
    cases h : st s with
    | none => simp
    | some r =>
      simp only []
      have h0 : Extends (Q k0) s r.2 := by
        simpa using hsteps 0 st rfl s r h
      have hrest := ih (k0 + 1) r.2 (fun i st' hi s' r' hr' => by
        have := hsteps (i + 1) st' (by simpa using hi) s' r' hr'
        have e : k0 + 1 + i = k0 + (i + 1) := by omega
        rw [e]; exact this)
      have hk := firstFailure_from rest (k0 + 1) r.2
      by_cases hz : r.1 = 0
      · simp only [hz, if_true]
        revert hrest hk
        cases firstFailure rest (k0 + 1) r.2 with
        | failed k sk =>
          intro hrest hk
          simp only [] at hrest hk ⊢
          exact (h0.mono (fun e he => ⟨k0, by omega, he⟩)).trans hrest
        | completed sk =>
          intro hrest _
          exact (h0.mono (fun e he => ⟨k0, he⟩)).trans hrest
        | stuck => simp
      · simp only [hz, if_false]
        exact h0.mono (fun e he => ⟨k0, le_refl _, he⟩)

theorem commandStep_stepEvent (R : Reader) (ty : CmdType) (reset : Bool)
    (what info : String) (s : Session) (j : Nat)
    (hj : forwardStepOf ⟨ty, s.m_messageID, reset⟩ = j) :
    Extends (stepEvent j) s (commandStep R ty reset what info s).2 :=
  (commandStep_single R ty reset what info s).extends (fun _ h => Or.inl h)
    (Or.inr (Or.inr ⟨_, Or.inl rfl, hj⟩))

theorem forwardSteps_stepEvent (v : Sample) (R : Reader) (fuel : Nat) :
    ∀ i st, (forwardSteps v R fuel).get? i = some st → ∀ s r, st s = some r →
      Extends (stepEvent (1 + i)) s r.2 := by
  intro i st hst s r hr
  unfold forwardSteps at hst
  match i, hst with
  | 0, hst =>
    simp at hst; subst hst; simp at hr; subst hr
    exact (checkConnectionStatus_single R s).extends (fun _ h => Or.inl h)
      (Or.inr (Or.inl ⟨_, rfl⟩))
  | 1, hst =>
    simp at hst; subst hst; simp at hr; subst hr
    exact commandStep_stepEvent _ _ _ _ _ _ _ rfl
  | 2, hst =>
    simp at hst; subst hst; simp at hr; subst hr
    exact commandStep_stepEvent _ _ _ _ _ _ _ rfl
  | 3, hst =>
    simp at hst; subst hst; simp at hr; subst hr
    exact (getReaderCapabilities_single v R s).extends (fun _ h => Or.inl h)
      (Or.inr (Or.inr ⟨_, Or.inl rfl, rfl⟩))
  | 4, hst =>
    simp at hst; subst hst; simp at hr; subst hr
    exact commandStep_stepEvent _ _ _ _ _ _ _ rfl
  | 5, hst =>
    simp at hst; subst hst; simp at hr; subst hr
    exact commandStep_stepEvent _ _ _ _ _ _ _ rfl
  | 6, hst =>
    simp at hst; subst hst; simp at hr; subst hr
    exact commandStep_stepEvent _ _ _ _ _ _ _ rfl
  | 7, hst =>
    simp at hst; subst hst; simp at hr; subst hr
    exact commandStep_stepEvent _ _ _ _ _ _ _ rfl
  | 8, hst =>
    simp at hst; subst hst; simp at hr; subst hr
    exact commandStep_stepEvent _ _ _ _ _ _ _ rfl
  | 9, hst =>
    simp at hst; subst hst; simp at hr; subst hr
    exact commandStep_stepEvent _ _ _ _ _ _ _ rfl
  | 10, hst =>
    simp at hst; subst hst
    have hrecv : stepEvent 11 (.recvMessage 1000) := Or.inr (Or.inl ⟨_, rfl⟩)
    have hsend : stepEvent 11 (.sendMessage getReportCommand) :=
      Or.inr (Or.inr ⟨_, Or.inr rfl, rfl⟩)
    exact (awaitAndPrintReport_extends (P := stepEvent 11) v R fuel _ s r
      (fun _ h => Or.inl h) hrecv hsend hr).2
  | 11, hst =>
    simp at hst; subst hst; simp at hr; subst hr
    exact commandStep_stepEvent _ _ _ _ _ _ _ rfl
  | n + 12, hst => simp at hst

theorem not_stuck_cons (f : Session → Int × Session)
    (rest : List (Session → Option (Int × Session))) (k c0 : Nat)
    (hf : ∀ s, (f s).2.clockReads = s.clockReads)
    (hrest : ∀ s, s.clockReads = c0 → firstFailure rest (k + 1) s ≠ .stuck)
    (s : Session) (hs : s.clockReads = c0) :
    firstFailure ((fun s => some (f s)) :: rest) k s ≠ .stuck := by
  rw [firstFailure_cons_total]
  split
  · exact hrest _ (by rw [hf, hs])
  · simp

theorem forwardOutcome_not_stuck (v : Sample) (R : Reader) (fuel : Nat)
    (s : Session) (h : deadlinePasses v R fuel s.clockReads) :
    forwardOutcome v R fuel s ≠ .stuck := by
  unfold forwardOutcome forwardSteps
  refine not_stuck_cons _ _ _ s.clockReads
    (fun s => (checkConnectionStatus_single R s).clock) ?_ s rfl
  refine not_stuck_cons _ _ _ _ (fun s => (commandStep_single R _ _ _ _ s).clock) ?_
  refine not_stuck_cons _ _ _ _ (fun s => (commandStep_single R _ _ _ _ s).clock) ?_
  refine not_stuck_cons _ _ _ _ (fun s => (getReaderCapabilities_single v R s).clock) ?_
  refine not_stuck_cons _ _ _ _ (fun s => (commandStep_single R _ _ _ _ s).clock) ?_
  refine not_stuck_cons _ _ _ _ (fun s => (commandStep_single R _ _ _ _ s).clock) ?_
  refine not_stuck_cons _ _ _ _ (fun s => (commandStep_single R _ _ _ _ s).clock) ?_
  refine not_stuck_cons _ _ _ _ (fun s => (commandStep_single R _ _ _ _ s).clock) ?_
  refine not_stuck_cons _ _ _ _ (fun s => (commandStep_single R _ _ _ _ s).clock) ?_
  refine not_stuck_cons _ _ _ _ (fun s => (commandStep_single R _ _ _ _ s).clock) ?_
  intro s10 h10
  simp only [firstFailure]
  obtain ⟨t, ht⟩ := awaitAndPrintReport_terminates v R fuel s10 (by rw [h10]; exact h)
  rw [ht]
  simp only []
  repeat' split
  all_goals simp

theorem connected_clockReads (host : String) (s : Session) :
    (connected host s).clockReads = s.clockReads := rfl

theorem run_eq (v : Sample) (R : Reader) (fuel : Nat) (host : String) (s : Session)
    (hreg : R.typeRegistry = true) (hconn : R.connection = true)
    (hopen : R.openConnectionToReader = 0) :
    run v R fuel host s
      = (afterOutcome R (forwardOutcome v R fuel (connected host s))).map
          (fun r => (r.1, teardown r.2)) := by
  unfold run
  simp only [hreg, hconn, hopen, runSequence_eq]
  cases afterOutcome R (forwardOutcome v R fuel (connected host s)) <;> simp

theorem mem_commandsSent {c : Command} {tr : List Event} (h : c ∈ commandsSent tr) :
    ∃ e ∈ tr, (∃ t, e = .transact c t) ∨ e = .sendMessage c := by
  unfold commandsSent at h
  obtain ⟨e, he, hc⟩ := List.mem_filterMap.1 h
  refine ⟨e, he, ?_⟩
  cases e <;> simp at hc
  · left; exact ⟨_, by rw [hc]⟩
  · right; rw [hc]

theorem bestEffortCleanup_single (R : Reader) (s : Session) :
    SingleCall (.transact (cleanupCommand s) 5000) s (bestEffortCleanup R s) := by
  unfold bestEffortCleanup resetConfigurationToFactoryDefaults
  have h := commandStep_single R .SET_READER_CONFIG true
    "resetConfigurationToFactoryDefaults"
    "INFO: Configuration reset to factory defaults\n"
    (s.logs (whenVerbose s.m_Verbose
      [.printf "INFO: Clean up reader configuration...\n"]))
  obtain ⟨pre, post, ht, hpre, hpost⟩ := h.shape
  refine ⟨by simpa using h.clock, whenVerbose s.m_Verbose
      [.printf "INFO: Clean up reader configuration...\n"] ++ pre, post, ?_, ?_, hpost⟩
  · rw [ht]; simp [cleanupCommand]
  · intro e he
    rcases List.mem_append.1 he with h1 | h1
    · exact whenVerbose_output _ _ (by simp [Event.isOutput]) e h1
    · exact hpre e h1

theorem teardown_trace (s : Session) :
    ∃ out, (teardown s).trace = s.trace ++ (out ++ [.closeConnection]) ∧
      ∀ e ∈ out, e.isOutput = true :=
  ⟨whenVerbose s.m_Verbose [.printf "INFO: Finished\n"], by simp [teardown],
    whenVerbose_output _ _ (by simp [Event.isOutput])⟩

theorem stepEvent_ne_close (j : Nat) (e : Event) (h : stepEvent j e) :
    e ≠ .closeConnection := by
  rintro rfl
  rcases h with h | ⟨n, h⟩ | ⟨c, h | h, _⟩
  · simp [Event.isOutput] at h
  · cases h
  · cases h
  · cases h

theorem stepEvent_command (j : Nat) (e : Event) (c : Command) (h : stepEvent j e)
    (hc : (∃ t, e = .transact c t) ∨ e = .sendMessage c) : forwardStepOf c = j := by
  rcases h with h | ⟨n, h⟩ | ⟨c', h | h, hj⟩
  · rcases hc with ⟨t, rfl⟩ | rfl <;> simp [Event.isOutput] at h
  · rcases hc with ⟨t, rfl⟩ | rfl <;> cases h
  · rcases hc with ⟨t, rfl⟩ | rfl
    · cases h; exact hj
    · cases h
  · rcases hc with ⟨t, rfl⟩ | rfl
    · cases h
    · cases h; exact hj

theorem output_not_command (e : Event) (c : Command) (h : e.isOutput = true)
    (hc : (∃ t, e = .transact c t) ∨ e = .sendMessage c) : False := by
  rcases hc with ⟨t, rfl⟩ | rfl <;> simp [Event.isOutput] at h

/-- The trace up to the first failure holds, beyond what was there at the
start, only events of steps numbered at most `k`. -/
theorem forwardOutcome_failed_extends (v : Sample) (R : Reader) (fuel : Nat)
    (s : Session) (k : Nat) (sk : Session)
    (h : forwardOutcome v R fuel s = .failed k sk) :
    Extends (fun e => ∃ j, j ≤ k ∧ stepEvent j e) s sk := by
  have := firstFailure_extends (Q := stepEvent) (forwardSteps v R fuel) 1 s
    (forwardSteps_stepEvent v R fuel)
  unfold forwardOutcome at h
  rw [h] at this
  exact this

theorem forwardOutcome_completed_extends (v : Sample) (R : Reader) (fuel : Nat)
    (s : Session) (sk : Session)
    (h : forwardOutcome v R fuel s = .completed sk) :
    Extends (fun e => ∃ j, stepEvent j e) s sk := by
  have := firstFailure_extends (Q := stepEvent) (forwardSteps v R fuel) 1 s
    (forwardSteps_stepEvent v R fuel)
  unfold forwardOutcome at h
  rw [h] at this
  exact this

/-! ## Claims about the orchestrator -/

theorem Outcome.eq_failed (o : Outcome) (k : Nat) (h : o.failedAt = some k) :
    o = .failed k o.finalState := by
  cases o <;> simp [Outcome.failedAt] at h
  subst h; rfl

theorem Outcome.eq_completed (o : Outcome) (h : o.isCompleted = true) :
    o = .completed o.finalState := by
  cases o <;> simp [Outcome.isCompleted] at h
  rfl

theorem afterOutcome_verdict (R : Reader) (o : Outcome) :
    Option.map Prod.fst
        (Option.map (fun r => (r.1, teardown r.2)) (afterOutcome R o))
      = o.verdict := by
  cases o <;> rfl

/-- C1. Once the connection is open and the clock lets the monitor loop
end, `run` returns; the value returned is `k` (1 ≤ k ≤ 12) exactly when
forward steps 1..k-1 returned 0 and step `k` returned nonzero, and it is 0
exactly when all twelve returned 0.  A failure code is positive, two runs
whose first failing steps differ return different codes, and a reader that
behaves the same during the forward steps yields the same code however it
answers the trailing best-effort reset. -/
theorem run_returns_first_failed_step (v : Sample) (R : Reader) (fuel : Nat)
    (host : String) (s : Session)
    (hreg : R.typeRegistry = true) (hconn : R.connection = true)
    (hopen : R.openConnectionToReader = 0)
    (hfuel : deadlinePasses v R fuel s.clockReads) :
    ∃ rc sEnd, run v R fuel host s = some (rc, sEnd) ∧
      (∀ k : Nat, 1 ≤ k → k ≤ 12 →
        (rc = (k : Int) ↔
          ∃ sk, forwardOutcome v R fuel (connected host s) = .failed k sk)) ∧
      (rc = 0 ↔ ∃ sk, forwardOutcome v R fuel (connected host s) = .completed sk) ∧
      (∀ k sk, forwardOutcome v R fuel (connected host s) = .failed k sk →
        0 < rc ∧ 1 ≤ k ∧ k ≤ 12) ∧
      (∀ (R2 : Reader) (fuel2 : Nat) (host2 : String) (s2 : Session) (k k2 : Nat)
          (sk sk2 : Session),
        R2.typeRegistry = true → R2.connection = true →
        R2.openConnectionToReader = 0 →
        forwardOutcome v R fuel (connected host s) = .failed k sk →
        forwardOutcome v R2 fuel2 (connected host2 s2) = .failed k2 sk2 →
        k ≠ k2 → (run v R2 fuel2 host2 s2).map Prod.fst ≠ some rc) ∧
      (∀ R2 : Reader, R2.typeRegistry = true → R2.connection = true →
        R2.openConnectionToReader = 0 →
        (forwardOutcome v R2 fuel (connected host s)).verdict
          = (forwardOutcome v R fuel (connected host s)).verdict →
        (run v R2 fuel host s).map Prod.fst = some rc) := by
  have hrun := run_eq v R fuel host s hreg hconn hopen
  have hns := forwardOutcome_not_stuck v R fuel (connected host s) hfuel
  have hrange := forwardOutcome_range v R fuel (connected host s)
  cases hout : forwardOutcome v R fuel (connected host s) with
  | stuck => exact absurd hout hns
  | failed k sk =>
    obtain ⟨h1, h12⟩ := hrange k sk hout
    refine ⟨(k : Int), teardown (if k ≤ 2 then sk else bestEffortCleanup R sk),
      ?_, ?_, ?_, ?_, ?_, ?_⟩
    · rw [hrun, hout]; rfl
    · intro j _ _
      constructor
      · intro h
        have : k = j := by exact_mod_cast h
        subst this
        exact ⟨sk, rfl⟩
      · rintro ⟨sj, hj⟩
        cases hj; rfl
    · constructor
      · intro h
        have : k = 0 := by exact_mod_cast h
        omega
      · rintro ⟨_, h⟩
        cases h
    · intro k' sk' h
      cases h
      exact ⟨by exact_mod_cast h1, h1, h12⟩
    · intro R2 fuel2 host2 s2 k1 k2 sk1 sk2 hr1 hr2 hr3 hk1 hk2 hne
      cases hk1
      rw [run_eq v R2 fuel2 host2 s2 hr1 hr2 hr3, hk2]
      simp only [afterOutcome, Option.map_some', ne_eq, Option.some.injEq]
      intro h
      exact hne (by exact_mod_cast h.symm)
    · intro R2 hr1 hr2 hr3 hsame
      rw [run_eq v R2 fuel host s hr1 hr2 hr3, afterOutcome_verdict, hsame]
      rfl
  | completed sk =>
    refine ⟨0, teardown (bestEffortCleanup R sk), ?_, ?_, ?_, ?_, ?_, ?_⟩
    · rw [hrun, hout]; rfl
    · intro j hj _
      constructor
      · intro h
        have : j = 0 := by exact_mod_cast h.symm
        omega
      · rintro ⟨_, h⟩
        cases h
    · exact ⟨fun _ => ⟨sk, rfl⟩, fun _ => rfl⟩
    · intro k' sk' h
      cases h
    · intro R2 fuel2 host2 s2 k1 k2 sk1 sk2 _ _ _ hk1
      cases hk1
    · intro R2 hr1 hr2 hr3 hsame
      rw [run_eq v R2 fuel host s hr1 hr2 hr3, afterOutcome_verdict, hsame]
      rfl

set_option maxRecDepth 100000 in
/-- C1 at a concrete run: with a reader for which every forward step
works, docsample3 returns 0, and it returns 0 as well when the trailing
reset fails. -/
theorem run_returns_first_failed_step_witness :
    (∃ rc sEnd, run .docsample3 goodReader 5 "reader" (Session.new 0)
        = some (rc, sEnd) ∧ rc = 0) ∧
      (run .docsample3 lateFailingReader 5 "reader" (Session.new 0)).map Prod.fst
        = some 0 := by
  obtain ⟨rc, sEnd, hrun, _, h0, _, _, hsame⟩ :=
    run_returns_first_failed_step .docsample3 goodReader 5 "reader" (Session.new 0)
      rfl rfl rfl ⟨0, by decide, by decide!⟩
  have hz : rc = 0 := h0.2 ⟨_, Outcome.eq_completed _ (by decide!)⟩
  refine ⟨⟨rc, sEnd, hrun, hz⟩, ?_⟩
  have h2 := hsame lateFailingReader rfl rfl rfl (by decide!)
  rw [hz] at h2
  exact h2

/-- The state `run` tears down after forward step `k` failed in state
`sk`, and the events that lie between the failure and the teardown. -/
theorem afterFailure_shape (R : Reader) (k : Nat) (sk : Session) :
    (k ≤ 2 → (if k ≤ 2 then sk else bestEffortCleanup R sk) = sk) ∧
    (3 ≤ k → SingleCall (.transact (cleanupCommand sk) 5000) sk
      (if k ≤ 2 then sk else bestEffortCleanup R sk)) := by
  constructor
  · intro h; simp [h]
  · intro h
    have : ¬ k ≤ 2 := by omega
    simp only [this, if_false]
    exact bestEffortCleanup_single R sk

/-- C2. Fail-fast: when forward step `k` fails, `run` returns, and no
command of a forward step after `k` is sent at any time of the run; what
follows the failure is only diagnostic output, the best-effort factory
reset, and closing the connection. -/
theorem run_fail_fast (v : Sample) (R : Reader) (fuel : Nat) (host : String)
    (s : Session) (k : Nat) (sk : Session)
    (hreg : R.typeRegistry = true) (hconn : R.connection = true)
    (hopen : R.openConnectionToReader = 0)
    (hfail : forwardOutcome v R fuel (connected host s) = .failed k sk) :
    ∃ rc sEnd added tail, run v R fuel host s = some (rc, sEnd) ∧
      sEnd.trace = (connected host s).trace ++ added ∧
      (∀ c ∈ commandsSent added, forwardStepOf c ≤ k) ∧
      sEnd.trace = sk.trace ++ tail ∧
      (∀ e ∈ tail, afterFailureEvent e) ∧
      (∀ c ∈ commandsSent tail, c.isFactoryReset = true ∧ forwardStepOf c ≤ k) := by
  have hrun := run_eq v R fuel host s hreg hconn hopen
  rw [hfail] at hrun
  simp only [afterOutcome, Option.map_some'] at hrun
  have hfwd := forwardOutcome_failed_extends v R fuel _ k sk hfail
  obtain ⟨hle, hge⟩ := afterFailure_shape R k sk
  generalize (if k ≤ 2 then sk else bestEffortCleanup R sk) = t at hrun hle hge
  -- from the failure to the state that is torn down
  have htail1 : Extends (fun e => afterFailureEvent e ∧
      ∀ c, ((∃ n, e = .transact c n) ∨ e = .sendMessage c) →
        c.isFactoryReset = true ∧ forwardStepOf c ≤ k) sk t := by
    by_cases hk : k ≤ 2
    · rw [hle hk]; exact Extends.refl _ _
    · have h3 : 3 ≤ k := by omega
      refine (hge h3).extends ?_ ?_
      · intro e he
        exact ⟨Or.inl he, fun c hc => (output_not_command e c he hc).elim⟩
      · refine ⟨Or.inr (Or.inr ⟨_, rfl, rfl⟩), ?_⟩
        intro c hc
        have hc' : c = cleanupCommand sk := by
          rcases hc with ⟨n, h⟩ | h
          · cases h; rfl
          · cases h
        subst hc'
        exact ⟨rfl, h3⟩
  obtain ⟨out, hout, hoo⟩ := teardown_trace t
  have htail2 : Extends (fun e => afterFailureEvent e ∧
      ∀ c, ((∃ n, e = .transact c n) ∨ e = .sendMessage c) →
        c.isFactoryReset = true ∧ forwardStepOf c ≤ k) t (teardown t) := by
    refine ⟨_, hout, ?_⟩
    intro e he
    rcases List.mem_append.1 he with h | h
    · exact ⟨Or.inl (hoo e h), fun c hc => (output_not_command e c (hoo e h) hc).elim⟩
    · simp at h
      subst h
      refine ⟨Or.inr (Or.inl rfl), ?_⟩
      rintro c (⟨n, h⟩ | h) <;> cases h
  have htail := htail1.trans htail2
  have hall : Extends (fun e => ∀ c,
      ((∃ n, e = .transact c n) ∨ e = .sendMessage c) → forwardStepOf c ≤ k)
      (connected host s) (teardown t) := by
    refine (hfwd.mono ?_).trans (htail.mono ?_)
    · rintro e ⟨j, hj, hs⟩ c hc
      rw [stepEvent_command j e c hs hc]; exact hj
    · rintro e ⟨_, h⟩ c hc
      exact (h c hc).2
  obtain ⟨added, hadd, hpadd⟩ := hall
  obtain ⟨tail, htl, hptl⟩ := htail
  refine ⟨(k : Int), teardown t, added, tail, ?_, hadd, ?_, htl, ?_, ?_⟩
  · rw [hrun]
  · intro c hc
    obtain ⟨e, he, hce⟩ := mem_commandsSent hc
    exact hpadd e he c hce
  · intro e he
    exact (hptl e he).1
  · intro c hc
    obtain ⟨e, he, hce⟩ := mem_commandsSent hc
    exact (hptl e he).2 c hce

set_option maxRecDepth 100000 in
/-- C2 at a concrete run: a reader that rejects ADD_ROSPEC makes step 6
fail. -/
theorem run_fail_fast_witness :
    ∃ sk rc sEnd added tail,
      forwardOutcome .docsample3 (rejectingReader .ADD_ROSPEC) 5
        (connected "reader" (Session.new 0)) = .failed 6 sk ∧
      run .docsample3 (rejectingReader .ADD_ROSPEC) 5 "reader" (Session.new 0)
        = some (rc, sEnd) ∧
      sEnd.trace = (connected "reader" (Session.new 0)).trace ++ added ∧
      (∀ c ∈ commandsSent added, forwardStepOf c ≤ 6) ∧
      sEnd.trace = sk.trace ++ tail ∧
      (∀ e ∈ tail, afterFailureEvent e) ∧
      (∀ c ∈ commandsSent tail, c.isFactoryReset = true ∧ forwardStepOf c ≤ 6) := by
  have hf := Outcome.eq_failed (forwardOutcome .docsample3 (rejectingReader .ADD_ROSPEC) 5
    (connected "reader" (Session.new 0))) 6 (by decide!)
  obtain ⟨rc, sEnd, added, tail, h⟩ :=
    run_fail_fast .docsample3 (rejectingReader .ADD_ROSPEC) 5 "reader" (Session.new 0)
      6 _ rfl rfl rfl hf
  exact ⟨_, rc, sEnd, added, tail, hf, h⟩

set_option maxRecDepth 100000 in
/-- C3, as stated, fails: when the reader rejects IMPINJ_ENABLE_EXTENSIONS
(the status check of step 2 fails), docsample3 returns 2 and the only
command it ever sends is that one; no factory reset follows. -/
theorem run_no_reset_after_extensions_fail :
    (enableImpinjExtensions (rejectingReader .IMPINJ_ENABLE_EXTENSIONS)
      (checkConnectionStatus (rejectingReader .IMPINJ_ENABLE_EXTENSIONS)
        (connected "reader" (Session.new 0))).2).1 = -1 ∧
    (forwardOutcome .docsample3 (rejectingReader .IMPINJ_ENABLE_EXTENSIONS) 5
      (connected "reader" (Session.new 0))).failedAt = some 2 ∧
    (run .docsample3 (rejectingReader .IMPINJ_ENABLE_EXTENSIONS) 5 "reader"
        (Session.new 0)).map (fun r => (r.1, commandsSent r.2.trace))
      = some (2, [⟨.IMPINJ_ENABLE_EXTENSIONS, 0, false⟩]) ∧
    (run .docsample3 (rejectingReader .IMPINJ_ENABLE_EXTENSIONS) 5 "reader"
        (Session.new 0)).map (fun r => r.2.trace.getLast?)
      = some (some .closeConnection) := by
  decide!

/-- C3, amended. When a forward step from the factory reset on (steps 3 to
12) fails, `run` sends the best-effort factory reset after the failure and
then closes the connection; when the connection check or enable extensions
(steps 1 and 2) fails, it sends nothing more and closes the connection. -/
theorem run_reset_after_failure (v : Sample) (R : Reader) (fuel : Nat)
    (host : String) (s : Session) (k : Nat) (sk : Session)
    (hreg : R.typeRegistry = true) (hconn : R.connection = true)
    (hopen : R.openConnectionToReader = 0)
    (hfail : forwardOutcome v R fuel (connected host s) = .failed k sk) :
    ∃ rc sEnd, run v R fuel host s = some (rc, sEnd) ∧
      (3 ≤ k → ∃ a b, sEnd.trace = sk.trace ++
          (a ++ Event.transact (cleanupCommand sk) 5000 :: (b ++ [.closeConnection])) ∧
        (cleanupCommand sk).isFactoryReset = true ∧
        (∀ e ∈ a, e.isOutput = true) ∧ (∀ e ∈ b, e.isOutput = true)) ∧
      (k ≤ 2 → ∃ a, sEnd.trace = sk.trace ++ (a ++ [.closeConnection]) ∧
        (∀ e ∈ a, e.isOutput = true)) := by
  have hrun := run_eq v R fuel host s hreg hconn hopen
  rw [hfail] at hrun
  simp only [afterOutcome, Option.map_some'] at hrun
  obtain ⟨hle, hge⟩ := afterFailure_shape R k sk
  generalize (if k ≤ 2 then sk else bestEffortCleanup R sk) = t at hrun hle hge
  obtain ⟨out, hout, hoo⟩ := teardown_trace t
  refine ⟨(k : Int), teardown t, hrun, ?_, ?_⟩
  · intro h3
    obtain ⟨pre, post, ht, hpre, hpost⟩ := (hge h3).shape
    refine ⟨pre, post ++ out, ?_, rfl, hpre, ?_⟩
    · rw [hout, ht]; simp
    · intro e he
      rcases List.mem_append.1 he with h | h
      · exact hpost e h
      · exact hoo e h
  · intro h2
    refine ⟨out, ?_, hoo⟩
    rw [hout, hle h2]

set_option maxRecDepth 100000 in
/-- C3, amended, at a concrete run: a reader that rejects ADD_ACCESSSPEC
makes step 7 fail, and the factory reset follows. -/
theorem run_reset_after_failure_witness :
    ∃ sk rc sEnd,
      forwardOutcome .docsample5 (rejectingReader .ADD_ACCESSSPEC) 5
        (connected "reader" (Session.new 1)) = .failed 7 sk ∧
      run .docsample5 (rejectingReader .ADD_ACCESSSPEC) 5 "reader" (Session.new 1)
        = some (rc, sEnd) ∧
      ∃ a b, sEnd.trace = sk.trace ++
          (a ++ Event.transact (cleanupCommand sk) 5000 :: (b ++ [.closeConnection])) ∧
        (∀ e ∈ a, e.isOutput = true) ∧ (∀ e ∈ b, e.isOutput = true) := by
  have hf := Outcome.eq_failed (forwardOutcome .docsample5
    (rejectingReader .ADD_ACCESSSPEC) 5 (connected "reader" (Session.new 1))) 7
    (by decide!)
  obtain ⟨rc, sEnd, hrun, h3, _⟩ :=
    run_reset_after_failure .docsample5 (rejectingReader .ADD_ACCESSSPEC) 5 "reader"
      (Session.new 1) 7 _ rfl rfl rfl hf
  obtain ⟨a, b, ht, _, ha, hb⟩ := h3 (by decide)
  exact ⟨_, rc, sEnd, hf, hrun, a, b, ht, ha, hb⟩

theorem afterOutcome_extends (v : Sample) (R : Reader) (fuel : Nat) (s : Session)
    (r : Int × Session) (h : afterOutcome R (forwardOutcome v R fuel s) = some r) :
    Extends (fun e => e ≠ .closeConnection) s r.2 := by
  have hout : ∀ e : Event, e.isOutput = true → e ≠ .closeConnection := by
    rintro e he rfl
    simp [Event.isOutput] at he
  have hclean : ∀ t, Extends (fun e => e ≠ .closeConnection) t (bestEffortCleanup R t) :=
    fun t => (bestEffortCleanup_single R t).extends hout (by simp)
  cases ho : forwardOutcome v R fuel s with
  | stuck => rw [ho] at h; simp [afterOutcome] at h
  | failed k sk =>
    rw [ho] at h
    simp only [afterOutcome, Option.some.injEq] at h
    subst h
    have h1 := (forwardOutcome_failed_extends v R fuel s k sk ho).mono
      (fun e ⟨j, _, hj⟩ => stepEvent_ne_close j e hj)
    simp only []
    split
    · exact h1
    · exact h1.trans (hclean sk)
  | completed sk =>
    rw [ho] at h
    simp only [afterOutcome, Option.some.injEq] at h
    subst h
    exact ((forwardOutcome_completed_extends v R fuel s sk ho).mono
      (fun e ⟨j, hj⟩ => stepEvent_ne_close j e hj)).trans (hclean sk)

/-- C4. Whenever the connection was opened and the clock lets the monitor
loop end, `run` returns, and the trace of the whole run holds exactly one
closing of the connection, as its last event: after every message
exchanged with the reader, whichever step failed or none. -/
theorem run_closes_connection_once (v : Sample) (R : Reader) (fuel : Nat)
    (host : String) (s : Session)
    (hreg : R.typeRegistry = true) (hconn : R.connection = true)
    (hopen : R.openConnectionToReader = 0)
    (hfuel : deadlinePasses v R fuel s.clockReads)
    (hfresh : Event.closeConnection ∉ s.trace) :
    ∃ rc sEnd, run v R fuel host s = some (rc, sEnd) ∧
      sEnd.trace.count .closeConnection = 1 ∧
      sEnd.trace.getLast? = some .closeConnection ∧
      ∃ before, sEnd.trace = before ++ [.closeConnection] ∧
        .closeConnection ∉ before := by
  have hrun := run_eq v R fuel host s hreg hconn hopen
  have hns := forwardOutcome_not_stuck v R fuel (connected host s) hfuel
  cases ha : afterOutcome R (forwardOutcome v R fuel (connected host s)) with
  | none =>
    exfalso
    revert ha hns
    cases forwardOutcome v R fuel (connected host s) <;> simp [afterOutcome]
  | some r =>
    rw [ha] at hrun
    obtain ⟨evs, hevs, hne⟩ := afterOutcome_extends v R fuel _ r ha
    obtain ⟨out, hout, hoo⟩ := teardown_trace r.2
    have hbefore : Event.closeConnection ∉ r.2.trace ++ out := by
      rw [hevs]
      simp only [connected, logs_trace, List.mem_append, not_or]
      refine ⟨⟨⟨⟨⟨hfresh, ?_⟩, by simp⟩, ?_⟩, ?_⟩, ?_⟩
      · intro h
        have := whenVerbose_output _ _ (by simp [Event.isOutput]) _ h
        simp [Event.isOutput] at this
      · intro h
        have := whenVerbose_output _ _ (by simp [Event.isOutput]) _ h
        simp [Event.isOutput] at this
      · intro h; exact hne _ h rfl
      · intro h
        have := hoo _ h
        simp [Event.isOutput] at this
    have htr : (teardown r.2).trace = (r.2.trace ++ out) ++ [.closeConnection] := by
      rw [hout, List.append_assoc]
    refine ⟨r.1, teardown r.2, by rw [hrun]; rfl, ?_, ?_, _, htr, hbefore⟩
    · rw [htr, List.count_append, List.count_eq_zero.2 hbefore]
      simp
    · rw [htr]
      simp

set_option maxRecDepth 100000 in
/-- C4 at concrete runs: a run in which every step works and a run in
which the connection check fails. -/
theorem run_closes_connection_once_witness :
    (∃ rc sEnd, run .docsample3 goodReader 5 "reader" (Session.new 2)
        = some (rc, sEnd) ∧ sEnd.trace.count .closeConnection = 1 ∧
        sEnd.trace.getLast? = some .closeConnection) ∧
    (run .docsample3 goodReader 5 "reader" (Session.new 2)).map
        (fun r => r.2.trace.count .closeConnection) = some 1 := by
  obtain ⟨rc, sEnd, hrun, hc, hl, _⟩ :=
    run_closes_connection_once .docsample3 goodReader 5 "reader" (Session.new 2)
      rfl rfl rfl ⟨0, by decide, by decide!⟩ (by decide)
  exact ⟨⟨rc, sEnd, hrun, hc, hl⟩, by rw [hrun]; exact congrArg some hc⟩

/-- C5. checkLLRPStatus returns 0 exactly when the status is present and
its code is M_Success; an absent status gives -1, a present status with
another code gives -2. -/
theorem checkLLRPStatus_zero_iff_success (pLLRPStatus : Option LLRPStatus)
    (pWhatStr : String) (s : Session) :
    ((checkLLRPStatus pLLRPStatus pWhatStr s).1 = 0 ↔
      ∃ st, pLLRPStatus = some st ∧ st.statusCode = StatusCode_M_Success) ∧
    (pLLRPStatus = none → (checkLLRPStatus pLLRPStatus pWhatStr s).1 = -1) ∧
    (∀ st, pLLRPStatus = some st → st.statusCode ≠ StatusCode_M_Success →
      (checkLLRPStatus pLLRPStatus pWhatStr s).1 = -2) := by
  cases pLLRPStatus with
  | none => simp [checkLLRPStatus, checkLLRPStatusResult]
  | some st =>
    by_cases h : st.statusCode = StatusCode_M_Success
    · simp [checkLLRPStatus, checkLLRPStatusResult, h]
    · have h' : ¬ StatusCode_M_Success = st.statusCode := fun e => h e.symm
      by_cases hd : st.errorDescription.length = 0 <;>
        simp [checkLLRPStatus, checkLLRPStatusResult, h, h', hd]

/-- C6. transact calls the connection's transact primitive exactly once,
with a limit of 5000 ms, and everything else it does is output.  It
returns the null pointer exactly when that call fails or the response is
an ERROR_MESSAGE, and the response itself otherwise; each of the ten
command steps returns -1 when its transaction fails. -/
theorem transact_single_attempt (v : Sample) (R : Reader) (cmd : Command)
    (s : Session) :
    (∃ pre post, (transact R cmd s).2.trace
        = s.trace ++ (pre ++ Event.transact cmd 5000 :: post) ∧
      (∀ e ∈ pre, e.isOutput = true) ∧ (∀ e ∈ post, e.isOutput = true)) ∧
    (transact R cmd s).2.ioCount = s.ioCount + 1 ∧
    ((transact R cmd s).1 = none ↔
      (∃ err, R.transact s.ioCount cmd 5000 = .error err) ∨
      (∃ m, R.transact s.ioCount cmd 5000 = .ok m ∧ m.m_pType = .ERROR_MESSAGE)) ∧
    (∀ m, R.transact s.ioCount cmd 5000 = .ok m → m.m_pType ≠ .ERROR_MESSAGE →
      (transact R cmd s).1 = some m) ∧
    (∀ p ∈ commandSteps v R, ∀ s0 : Session,
      (transact R (p.1 s0) s0.nextID).1 = none → (p.2 s0).1 = -1) := by
  refine ⟨(transact_single R cmd s).shape, by simp [transact], ?_, ?_, ?_⟩
  · cases h : R.transact s.ioCount cmd 5000 with
    | error err => simp [transact, transactResult, h]
    | ok m =>
      by_cases ht : m.m_pType = .ERROR_MESSAGE <;>
        simp [transact, transactResult, h, ht]
  · intro m h ht
    simp [transact, transactResult, h, ht]
  · intro p hp s0 hnone
    simp only [commandSteps, List.mem_cons, List.mem_singleton, List.not_mem_nil,
      or_false] at hp
    rcases hp with rfl | rfl | rfl | rfl | rfl | rfl | rfl | rfl | rfl | rfl <;>
      simp only [commandOf] at hnone <;>
      simp [enableImpinjExtensions, resetConfigurationToFactoryDefaults,
        setImpinjReaderConfig, addROSpec, addAccessSpec, enableAccessSpec,
        enableROSpec, startROSpec, stopROSpec, getReaderCapabilities, commandStep,
        responseResult, capabilitiesResult, hnone]

set_option maxRecDepth 100000 in
/-- With a connection that times out on every transaction, docsample3
makes a single attempt on the first command, returns the code of that
step, and closes the connection. -/
theorem run_on_transact_timeout :
    (run .docsample3 timeoutReader 5 "reader" (Session.new 0)).map
        (fun r => (r.1, commandsSent r.2.trace, r.2.trace.getLast?))
      = some (2, [⟨.IMPINJ_ENABLE_EXTENSIONS, 0, false⟩], some .closeConnection) := by
  decide!

/-! ## The formatters -/

theorem hexDigit_ne_NUL (upper : Bool) : ∀ d, d < 16 → hexDigit upper d ≠ NUL := by
  cases upper <;> decide

theorem fmt02X_byte : ∀ b, b < 256 → fmt02X b = hexPair b := by
  decide!

theorem writeList_cell (cs : List Char) :
    ∀ (m : Mem) (pos q : Int),
      (m.writeList pos cs).cell q
        = if pos ≤ q ∧ q < pos + cs.length then cs.getD (q - pos).toNat NUL
          else m.cell q := by
  induction cs with
  | nil =>
    intro m pos q
    have : ¬ (pos ≤ q ∧ q < pos + ((([] : List Char).length : Nat) : Int)) := by
      simp
    simp only [Mem.writeList, this, if_false]
  | cons c cs ih =>
    intro m pos q
    simp only [Mem.writeList, ih, List.length_cons]
    push_cast
    by_cases h1 : pos + 1 ≤ q ∧ q < pos + 1 + (cs.length : Int)
    · have h2 : pos ≤ q ∧ q < pos + ((cs.length : Int) + 1) := by omega
      have h3 : (q - pos).toNat = (q - (pos + 1)).toNat + 1 := by omega
      simp only [h1, h2, and_self, if_true, h3, List.getD_cons_succ]
    · simp only [h1, if_false]
      by_cases h0 : q = pos
      · subst h0
        have h2 : q ≤ q ∧ q < q + ((cs.length : Int) + 1) := by omega
        simp [Mem.write, h2]
      · have h2 : ¬ (pos ≤ q ∧ q < pos + ((cs.length : Int) + 1)) := by omega
        simp [Mem.write, h0, h2]

theorem writeList_touched (cs : List Char) :
    ∀ (m : Mem) (pos : Int) (q : Int), q ∈ (m.writeList pos cs).touched →
      q ∈ m.touched ∨ (pos ≤ q ∧ q < pos + cs.length) := by
  induction cs with
  | nil => intro m pos q h; exact Or.inl h
  | cons c cs ih =>
    intro m pos q h
    simp only [Mem.writeList] at h
    rcases ih _ _ _ h with h1 | h1
    · simp only [Mem.write, List.mem_append, List.mem_singleton] at h1
      rcases h1 with h1 | h1
      · exact Or.inl h1
      · right; subst h1; simp only [List.length_cons]; push_cast; omega
    · right; simp only [List.length_cons]; push_cast; omega

theorem cstr_eq (cell : Int → Char) (T : List Char) :
    ∀ (fuel : Nat) (pos : Int),
      (∀ i : Nat, i < T.length → cell (pos + i) = T.getD i NUL) →
      cell (pos + T.length) = NUL → (∀ ch ∈ T, ch ≠ NUL) → T.length < fuel →
      cstr cell fuel pos = T := by
  induction T with
  | nil =>
    intro fuel pos _ hterm _ hfuel
    cases fuel with
    | zero => simp at hfuel
    | succ n => simpa [cstr] using hterm
  | cons ch T ih =>
    intro fuel pos hcells hterm hnn hfuel
    cases fuel with
    | zero => simp at hfuel
    | succ n =>
      have h0 : cell pos = ch := by simpa using hcells 0 (by simp)
      have hch : ch ≠ NUL := hnn ch (by simp)
      simp only [cstr, h0, hch, if_false, List.cons.injEq, true_and]
      apply ih n (pos + 1)
      · intro i hi
        have := hcells (i + 1) (by simpa using hi)
        simp only [List.getD_cons_succ] at this
        rw [← this]; congr 1; push_cast; omega
      · rw [← hterm]; congr 1; simp only [List.length_cons]; push_cast; omega
      · exact fun c hc => hnn c (by simp [hc])
      · simpa using hfuel

theorem sizeT_of_nonneg (n : Int) (h0 : 0 ≤ n) (h1 : n < 2 ^ 31) :
    sizeT n = n.toNat := by
  unfold sizeT
  rw [Int.emod_eq_of_lt h0 (by omega)]

theorem emit_filled (buf buflen : Int) (T text : List Char) (c : Cursor)
    (hint : buflen < 2 ^ 31) (h : Filled buf buflen T c)
    (hroom : (T.length : Int) + text.length + 1 ≤ buflen) :
    Filled buf buflen (T ++ text) (c.emit text) ∧
      Terminated buf (T ++ text) (c.emit text) := by
  have hsz : sizeT c.bufsize = (buflen - T.length).toNat := by
    rw [h.size_eq]; exact sizeT_of_nonneg _ (by omega) (by omega)
  have hne : sizeT c.bufsize ≠ 0 := by rw [hsz]; omega
  have htake : text.take (sizeT c.bufsize - 1) = text := by
    apply List.take_of_length_le; rw [hsz]; omega
  have hmem : (c.emit text).mem = c.mem.writeList c.p (text ++ [NUL]) := by
    simp [Cursor.emit, snprintf, hne, htake]
  have hlen : ((text ++ [NUL]).length : Int) = text.length + 1 := by simp
  have hret : (snprintf c.mem c.p c.bufsize text).2 = text.length := by
    unfold snprintf; split <;> rfl
  refine ⟨⟨?_, ?_, ?_, ?_⟩, ?_⟩
  · show c.p + (snprintf c.mem c.p c.bufsize text).2 = _
    rw [hret, h.p_eq]; simp only [List.length_append]; push_cast; omega
  · show c.bufsize - (snprintf c.mem c.p c.bufsize text).2 = _
    rw [hret, h.size_eq]; simp only [List.length_append]; push_cast; omega
  · intro i hi
    rw [hmem, writeList_cell, h.p_eq, hlen]
    by_cases hlt : i < T.length
    · have : ¬ (buf + (T.length : Int) ≤ buf + i ∧
          buf + (i : Int) < buf + T.length + (text.length + 1)) := by omega
      simp only [this, if_false, h.cells i hlt]
      simp [List.getD_eq_getElem?_getD, List.getElem?_append_left, hlt]
    · have hi' : i < T.length + text.length := by simpa using hi
      have : buf + (T.length : Int) ≤ buf + i ∧
          buf + (i : Int) < buf + T.length + (text.length + 1) := by omega
      have hidx : (buf + (i : Int) - (buf + T.length)).toNat = i - T.length := by omega
      simp only [this, and_self, if_true, hidx]
      have h1 : i - T.length < text.length := by omega
      simp only [List.getD_eq_getElem?_getD]
      rw [List.getElem?_append_left (by simpa using h1),
        List.getElem?_append_right (by omega)]
  · intro q hq
    rw [hmem] at hq
    rcases writeList_touched _ _ _ _ hq with h1 | h1
    · exact h.inside q h1
    · rw [h.p_eq, hlen] at h1; omega
  · unfold Terminated
    rw [hmem, writeList_cell, h.p_eq, hlen]
    have : buf + (T.length : Int) ≤ buf + ((T ++ text).length : Nat) ∧
        buf + (((T ++ text).length : Nat) : Int) < buf + T.length + (text.length + 1) := by
      simp only [List.length_append]; push_cast; omega
    have hidx : (buf + (((T ++ text).length : Nat) : Int) - (buf + T.length)).toNat
        = text.length := by
      simp only [List.length_append]; push_cast; omega
    simp only [this, and_self, if_true, hidx]
    simp [List.getD_eq_getElem?_getD]

theorem forLoop_succ {σ : Type} (n : Nat) (body : Nat → σ → σ) (s : σ) :
    forLoop (n + 1) body s = body n (forLoop n body s) := by
  simp [forLoop, List.range_succ, List.foldl_append]

theorem dash_filled (buf buflen : Int) (T : List Char) (c : Cursor)
    (h : Filled buf buflen T c) (hroom : (T.length : Int) + 1 ≤ buflen) :
    Filled buf buflen (T ++ ['-'])
      { mem := c.mem.write c.p '-', p := c.p + 1, bufsize := c.bufsize - 1 } := by
  refine ⟨?_, ?_, ?_, ?_⟩
  · simp only [h.p_eq, List.length_append, List.length_singleton]; push_cast; omega
  · simp only [h.size_eq, List.length_append, List.length_singleton]; push_cast; omega
  · intro i hi
    have hi' : i < T.length + 1 := by simpa using hi
    simp only [Mem.write, h.p_eq]
    by_cases hlt : i < T.length
    · have : ¬ (buf + (i : Int) = buf + T.length) := by omega
      simp only [this, if_false, h.cells i hlt]
      simp [List.getD_eq_getElem?_getD, List.getElem?_append_left, hlt]
    · have hie : i = T.length := by omega
      subst hie
      simp [List.getD_eq_getElem?_getD]
  · intro q hq
    simp only [Mem.write, List.mem_append, List.mem_singleton] at hq
    rcases hq with h1 | h1
    · exact h.inside q h1
    · rw [h1, h.p_eq]; omega

theorem hexLoopBody_filled (buf buflen : Int) (value : Nat → List Char) (i : Nat)
    (T : List Char) (c : Cursor) (hint : buflen < 2 ^ 31)
    (h : Filled buf buflen T c) (hval : 2 ≤ (value i).length)
    (hroom : (T.length : Int) + (sepAt i).length + (value i).length + 1 ≤ buflen) :
    Filled buf buflen (T ++ sepAt i ++ value i) (hexLoopBody value i c) ∧
      Terminated buf (T ++ sepAt i ++ value i) (hexLoopBody value i c) := by
  unfold hexLoopBody
  by_cases hs : 0 < i ∧ i % 2 = 0
  · have hsep : sepAt i = ['-'] := by simp [sepAt, hs]
    rw [hsep] at hroom ⊢
    simp only [List.length_singleton] at hroom
    have hb : 1 < c.bufsize := by rw [h.size_eq]; omega
    have hcond : 0 < i ∧ i % 2 = 0 ∧ 1 < c.bufsize := ⟨hs.1, hs.2, hb⟩
    simp only [hcond, and_self, if_true]
    have hd := dash_filled buf buflen T c h (by omega)
    have hb2 : c.bufsize - 1 > 2 := by rw [h.size_eq]; omega
    simp only [hb2, if_true]
    exact emit_filled buf buflen _ _ _ hint hd (by
      simp only [List.length_append, List.length_singleton]; push_cast; omega)
  · have hsep : sepAt i = [] := by simp [sepAt, hs]
    rw [hsep] at hroom ⊢
    simp only [List.length_nil] at hroom
    have hcond : ¬ (0 < i ∧ i % 2 = 0 ∧ 1 < c.bufsize) := fun hc => hs ⟨hc.1, hc.2.1⟩
    simp only [hcond, if_false, List.append_nil]
    have hb2 : c.bufsize > 2 := by rw [h.size_eq]; omega
    simp only [hb2, if_true]
    exact emit_filled buf buflen _ _ _ hint h (by omega)

theorem loopText_length_le (value : Nat → List Char) (n : Nat) :
    (loopText value n).length ≤ (loopText value (n + 1)).length := by
  simp [loopText]

theorem hexLoop_filled (buf buflen : Int) (value : Nat → List Char)
    (T0 : List Char) (c : Cursor) (hint : buflen < 2 ^ 31)
    (h : Filled buf buflen T0 c) :
    ∀ n, (∀ i, i < n → 2 ≤ (value i).length) →
      (T0.length : Int) + (loopText value n).length + 1 ≤ buflen →
      Filled buf buflen (T0 ++ loopText value n) (forLoop n (hexLoopBody value) c) ∧
      (0 < n → Terminated buf (T0 ++ loopText value n)
        (forLoop n (hexLoopBody value) c)) := by
  intro n
  induction n with
  | zero =>
    intro _ _
    simp only [loopText, List.append_nil, forLoop, List.range_zero, List.foldl_nil]
    exact ⟨h, fun h0 => absurd h0 (by omega)⟩
  | succ n ih =>
    intro hval hroom
    have hle := loopText_length_le value n
    obtain ⟨hf, _⟩ := ih (fun i hi => hval i (by omega)) (by omega)
    rw [forLoop_succ]
    have hroom' : ((T0 ++ loopText value n).length : Int) + (sepAt n).length
        + (value n).length + 1 ≤ buflen := by
      simp only [loopText, List.length_append] at hroom ⊢
      push_cast at hroom ⊢
      omega
    have := hexLoopBody_filled buf buflen value n _ _ hint hf (hval n (by omega)) hroom'
    simp only [loopText, ← List.append_assoc]
    exact ⟨this.1, fun _ => this.2⟩

/-- The text a formatter leaves: after the final `buf[buflen-1] = 0`, the
string in the buffer is the text put there. -/
theorem final_text (buf buflen : Int) (T : List Char) (c : Cursor)
    (h : Filled buf buflen T c) (hterm : Terminated buf T c)
    (hroom : (T.length : Int) + 1 ≤ buflen) (hnn : ∀ ch ∈ T, ch ≠ NUL) :
    cstr (c.mem.write (buf + buflen - 1) NUL).cell buflen.toNat buf = T := by
  apply cstr_eq
  · intro i hi
    have : ¬ (buf + (i : Int) = buf + buflen - 1) := by omega
    simp only [Mem.write, this, if_false]
    exact h.cells i hi
  · simp only [Mem.write]
    split
    · rfl
    · exact hterm
  · exact hnn
  · omega

theorem filled_start (init : Int → Char) (buf buflen : Int) :
    Filled buf buflen [] { mem := Mem.fresh init, p := buf, bufsize := buflen } :=
  ⟨by simp, by simp, by simp, by simp [Mem.fresh]⟩

theorem sepAt_length (n : Nat) :
    (sepAt n).length = n / 2 - (n - 1) / 2 := by
  unfold sepAt
  split
  · simp; omega
  · simp; omega

theorem loopText_length (value : Nat → List Char) (n : Nat)
    (hval : ∀ i, i < n → (value i).length = 2) :
    (loopText value n).length = 2 * n + (n - 1) / 2 := by
  induction n with
  | zero => simp [loopText]
  | succ n ih =>
    simp only [loopText, List.length_append, ih (fun i hi => hval i (by omega)),
      hval n (by omega), sepAt_length]
    omega

theorem renderFrom_snoc (bs : List Nat) :
    ∀ (j b : Nat), renderFrom j (bs ++ [b])
      = renderFrom j bs ++ sepAt (j + bs.length) ++ hexPair b := by
  induction bs with
  | nil => intro j b; simp [renderFrom, sepAt]
  | cons x xs ih =>
    intro j b
    show renderFrom j (x :: (xs ++ [b])) = _
    simp only [renderFrom, ih, List.length_cons, List.append_assoc]
    rw [show j + 1 + xs.length = j + (xs.length + 1) by omega]

theorem loopText_eq_render (pValue : List Nat) (hb : ∀ b ∈ pValue, b < 256) :
    ∀ n, n ≤ pValue.length →
      loopText (fun i => fmt02X (pValue.getD i 0)) n = renderBytes (pValue.take n) := by
  intro n
  induction n with
  | zero => intro _; simp [loopText, renderBytes, renderFrom]
  | succ n ih =>
    intro hn
    have hlt : n < pValue.length := by omega
    have hget : pValue.getD n 0 = pValue[n] := by
      simp [List.getD_eq_getElem?_getD, List.getElem?_eq_getElem hlt]
    have htake : pValue.take (n + 1) = pValue.take n ++ [pValue[n]] := by
      rw [List.take_succ, List.getElem?_eq_getElem hlt]; rfl
    have hbyte : pValue[n] < 256 := hb _ (List.getElem_mem hlt)
    simp only [loopText, ih (by omega), htake, renderBytes, renderFrom_snoc, hget,
      fmt02X_byte _ hbyte, List.length_take, Nat.zero_add]
    rw [Nat.min_eq_left (by omega)]

theorem hexPair_ne_NUL (b : Nat) (hb : b < 256) : ∀ ch ∈ hexPair b, ch ≠ NUL := by
  intro ch hch
  simp only [hexPair, List.mem_cons, List.mem_singleton, List.not_mem_nil, or_false] at hch
  rcases hch with rfl | rfl
  · exact hexDigit_ne_NUL true _ (by omega)
  · exact hexDigit_ne_NUL true _ (by omega)

theorem sepAt_ne_NUL (i : Nat) : ∀ ch ∈ sepAt i, ch ≠ NUL := by
  intro ch hch
  unfold sepAt at hch
  split at hch
  · simp at hch; subst hch; decide
  · simp at hch

theorem renderFrom_ne_NUL (bs : List Nat) :
    ∀ j, (∀ b ∈ bs, b < 256) → ∀ ch ∈ renderFrom j bs, ch ≠ NUL := by
  induction bs with
  | nil => intro j _ ch hch; simp [renderFrom] at hch
  | cons x xs ih =>
    intro j hb ch hch
    simp only [renderFrom, List.mem_append] at hch
    rcases hch with (h | h) | h
    · exact sepAt_ne_NUL j ch h
    · exact hexPair_ne_NUL x (hb x (by simp)) ch h
    · exact ih (j + 1) (fun b hbm => hb b (by simp [hbm])) ch h

theorem getD_lt_256 (pValue : List Nat) (hb : ∀ b ∈ pValue, b < 256) (i : Nat) :
    pValue.getD i 0 < 256 := by
  rw [List.getD_eq_getElem?_getD]
  cases h : pValue[i]? with
  | none => simp
  | some b => exact hb b (List.getElem?_mem h)

theorem renderBytes_length (bytes : List Nat) (hb : ∀ b ∈ bytes, b < 256) :
    (renderBytes bytes).length = 2 * bytes.length + (bytes.length - 1) / 2 := by
  have h := loopText_eq_render bytes hb bytes.length (le_refl _)
  rw [List.take_length] at h
  rw [← h]
  exact loopText_length _ _ (fun i _ => by
    show (fmt02X (bytes.getD i 0)).length = 2
    rw [fmt02X_byte _ (getD_lt_256 bytes hb i)]; rfl)

/-- The hexadecimal path of formatOneEPC from a cursor that has put `T0`
into the buffer: the final text and the final value of `bufsize`. -/
theorem hexPath_text (buf buflen : Int) (pValue : List Nat) (T0 : List Char)
    (c : Cursor) (hint : buflen < 2 ^ 31) (hb : ∀ b ∈ pValue, b < 256)
    (h : Filled buf buflen T0 c)
    (hterm : pValue.length = 0 → Terminated buf T0 c)
    (hnn : ∀ ch ∈ T0, ch ≠ NUL)
    (hroom : (T0.length : Int) + (renderBytes pValue).length + 1 ≤ buflen) :
    cstr ((forLoop pValue.length
        (hexLoopBody (fun i => fmt02X (pValue.getD i 0))) c).mem.write
          (buf + buflen - 1) NUL).cell buflen.toNat buf = T0 ++ renderBytes pValue ∧
    (forLoop pValue.length (hexLoopBody (fun i => fmt02X (pValue.getD i 0))) c).bufsize
      = buflen - (T0 ++ renderBytes pValue).length := by
  have htxt := loopText_eq_render pValue hb pValue.length (le_refl _)
  rw [List.take_length] at htxt
  obtain ⟨hf, ht⟩ := hexLoop_filled buf buflen (fun i => fmt02X (pValue.getD i 0)) T0 c
    hint h pValue.length
    (fun i _ => by
      show 2 ≤ (fmt02X (pValue.getD i 0)).length
      rw [fmt02X_byte _ (getD_lt_256 pValue hb i)]; exact le_refl 2)
    (by rw [htxt]; exact hroom)
  rw [htxt] at hf ht
  refine ⟨final_text buf buflen _ _ hf ?_ ?_ ?_, hf.size_eq⟩
  · by_cases h0 : pValue.length = 0
    · have hnil : pValue = [] := List.length_eq_zero.1 h0
      subst hnil
      have := hterm rfl
      simpa [Terminated, renderBytes, renderFrom, forLoop] using this
    · exact ht (by omega)
  · simp only [List.length_append]; push_cast; omega
  · intro ch hch
    rcases List.mem_append.1 hch with h1 | h1
    · exact hnn ch h1
    · exact renderFrom_ne_NUL pValue 0 hb ch h1

/-- C8. With a buffer that is large enough, formatOneEPC leaves the
identifier bytes as two upper-case hexadecimal digits per byte, in order,
with one '-' before every even-indexed byte after the first and nowhere
else (docsample5: behind the start string): twelve bytes for EPC_96,
ceil(bitLength / 8) bytes for EPCData.  The text has 2n + (n-1)/2
characters, and the bytes AA BB CC DD EE FF 00 11 22 33 44 55 give
AABB-CCDD-EEFF-0011-2233-4455. -/
theorem formatOneEPC_renders_bytes (param : EPCParameter) (pValue : List Nat)
    (init : Int → Char) (buf buflen : Int) (startStr : List Char)
    (hparam : (param = .EPC_96 pValue ∧ pValue.length = 12) ∨
      ∃ nBit, param = .EPCData nBit (some pValue) ∧ pValue.length = (nBit + 7) / 8)
    (hn : 1 ≤ pValue.length)
    (hbytes : ∀ b ∈ pValue, b < 256) (hint : buflen < 2 ^ 31)
    (hstart : ∀ ch ∈ startStr, ch ≠ NUL) :
    ((2 * pValue.length + (pValue.length - 1) / 2 + 1 : Nat) ≤ buflen →
      cstr (Docsample3.formatOneEPC (some param) (Mem.fresh init) buf buflen).cell
        buflen.toNat buf = renderBytes pValue) ∧
    ((startStr.length + 2 * pValue.length + (pValue.length - 1) / 2 + 1 : Nat) ≤ buflen →
      cstr (Docsample5.formatOneEPC (some param) (Mem.fresh init) buf buflen
        startStr).1.cell buflen.toNat buf = startStr ++ renderBytes pValue ∧
      (Docsample5.formatOneEPC (some param) (Mem.fresh init) buf buflen startStr).2
        = (startStr ++ renderBytes pValue).length) ∧
    (renderBytes pValue).length = 2 * pValue.length + (pValue.length - 1) / 2 ∧
    renderBytes exampleEPC = "AABB-CCDD-EEFF-0011-2233-4455".toList := by
  have hv : epcValue param = (some pValue, pValue.length) := by
    rcases hparam with ⟨rfl, h12⟩ | ⟨nBit, rfl, hlen⟩
    · simp [epcValue, h12]
    · simp [epcValue, hlen]
  have hlen := renderBytes_length pValue hbytes
  refine ⟨?_, ?_, hlen, by decide!⟩
  · intro hroom
    simp only [Docsample3.formatOneEPC, hv]
    have := hexPath_text buf buflen pValue [] _ hint hbytes (filled_start init buf buflen)
      (fun h0 => absurd h0 (by omega)) (by simp)
      (by rw [hlen]; simp only [List.length_nil]; push_cast at hroom ⊢; omega)
    simpa using this.1
  · intro hroom
    simp only [Docsample5.formatOneEPC, hv]
    obtain ⟨hf, ht⟩ := emit_filled buf buflen [] startStr _ hint
      (filled_start init buf buflen)
      (by simp only [List.length_nil]; push_cast at hroom ⊢; omega)
    simp only [List.nil_append] at hf ht
    have := hexPath_text buf buflen pValue startStr _ hint hbytes hf (fun _ => ht) hstart
      (by rw [hlen]; push_cast at hroom ⊢; omega)
    refine ⟨this.1, ?_⟩
    rw [this.2]; omega

set_option maxRecDepth 100000 in
/-- C8 at the example identifier, as EPC_96 in a 64-byte buffer (the call
in docsample3) and behind "epc=" in a 1024-byte buffer (docsample5). -/
theorem formatOneEPC_renders_bytes_witness :
    cstr (Docsample3.formatOneEPC (some (.EPC_96 exampleEPC))
        (Mem.fresh (fun _ => 'z')) 0 64).cell 64 0
      = "AABB-CCDD-EEFF-0011-2233-4455".toList ∧
    cstr (Docsample5.formatOneEPC (some (.EPC_96 exampleEPC))
        (Mem.fresh (fun _ => 'z')) 0 1024 "epc=".toList).1.cell 1024 0
      = "epc=AABB-CCDD-EEFF-0011-2233-4455".toList := by
  obtain ⟨h3, h5, _, hex⟩ :=
    formatOneEPC_renders_bytes (.EPC_96 exampleEPC) exampleEPC (fun _ => 'z') 0 1024
      "epc=".toList (Or.inl ⟨rfl, rfl⟩) (by decide) (by decide) (by decide) (by decide)
  obtain ⟨h3b, _, _, _⟩ :=
    formatOneEPC_renders_bytes (.EPC_96 exampleEPC) exampleEPC (fun _ => 'z') 0 64
      "epc=".toList (Or.inl ⟨rfl, rfl⟩) (by decide) (by decide) (by decide) (by decide)
  refine ⟨?_, ?_⟩
  · have := h3b (by decide)
    rw [hex] at this
    exact this
  · have := (h5 (by decide)).1
    rw [hex] at this
    exact this

/-- C9. For every byte pattern and every buffer, formatOneEPC does the same
on the EPC_96 encoding of the bytes and on the EPCData encoding of the
same bytes with bit length 96: the same memory, hence the same text, and
in docsample5 the same value returned. -/
theorem formatOneEPC_encodings_agree (bytes : List Nat) (m : Mem) (buf buflen : Int)
    (startStr : List Char) :
    Docsample3.formatOneEPC (some (.EPC_96 bytes)) m buf buflen
      = Docsample3.formatOneEPC (some (.EPCData 96 (some bytes))) m buf buflen ∧
    Docsample5.formatOneEPC (some (.EPC_96 bytes)) m buf buflen startStr
      = Docsample5.formatOneEPC (some (.EPCData 96 (some bytes))) m buf buflen startStr ∧
    cstr (Docsample3.formatOneEPC (some (.EPC_96 bytes)) m buf buflen).cell
        buflen.toNat buf
      = cstr (Docsample3.formatOneEPC (some (.EPCData 96 (some bytes))) m buf
        buflen).cell buflen.toNat buf ∧
    cstr (Docsample5.formatOneEPC (some (.EPC_96 bytes)) m buf buflen startStr).1.cell
        buflen.toNat buf
      = cstr (Docsample5.formatOneEPC (some (.EPCData 96 (some bytes))) m buf buflen
        startStr).1.cell buflen.toNat buf := by
  have h3 : Docsample3.formatOneEPC (some (.EPC_96 bytes)) m buf buflen
      = Docsample3.formatOneEPC (some (.EPCData 96 (some bytes))) m buf buflen := rfl
  have h5 : Docsample5.formatOneEPC (some (.EPC_96 bytes)) m buf buflen startStr
      = Docsample5.formatOneEPC (some (.EPCData 96 (some bytes))) m buf buflen startStr :=
    rfl
  exact ⟨h3, h5, by rw [h3], by rw [h5]⟩

set_option maxRecDepth 100000 in
/-- The two encodings of the example identifier in a buffer that is too
small: the same truncated text. -/
theorem formatOneEPC_encodings_agree_truncated :
    cstr (Docsample3.formatOneEPC (some (.EPC_96 exampleEPC))
        (Mem.fresh (fun _ => 'z')) 0 10).cell 10 0 = "AABB-CCDD".toList ∧
    cstr (Docsample3.formatOneEPC (some (.EPCData 96 (some exampleEPC)))
        (Mem.fresh (fun _ => 'z')) 0 10).cell 10 0 = "AABB-CCDD".toList := by
  decide!

theorem fmt04x_word (w : Nat) (h : w < 65536) : fmt04x w = hexWord w := by
  have h0 : hexDigit false 0 = '0' := by decide
  unfold fmt04x fmtUnsigned hexWord
  by_cases h1 : w / 16 = 0
  · have e1 : w / 4096 = 0 := by omega
    have e2 : w / 256 = 0 := by omega
    simp [digitsAux, h1, e1, e2, padZero, h0]
  · by_cases h2 : w / 16 / 16 = 0
    · have e1 : w / 4096 = 0 := by omega
      have e2 : w / 256 = 0 := by omega
      have e3 : w / 16 % 16 = w / 16 := by omega
      simp [digitsAux, h1, h2, e1, e2, e3, padZero, h0]
    · by_cases h3 : w / 16 / 16 / 16 = 0
      · have e1 : w / 4096 = 0 := by omega
        have e2 : w / 16 / 16 % 16 = w / 256 := by omega
        have e3 : w / 256 % 16 = w / 256 := by omega
        simp [digitsAux, h1, h2, h3, e1, e2, e3, padZero, h0]
      · have h4 : w / 16 / 16 / 16 / 16 = 0 := by omega
        have e1 : w / 16 / 16 / 16 % 16 = w / 4096 % 16 := by omega
        have e2 : w / 16 / 16 % 16 = w / 256 % 16 := by omega
        simp [digitsAux, h1, h2, h3, h4, e1, e2, padZero]

theorem digitsAux_ne_NUL (base : Nat) (upper : Bool) (hb0 : 0 < base)
    (hb : base ≤ 16) :
    ∀ (fuel n : Nat) (acc : List Char), (∀ ch ∈ acc, ch ≠ NUL) →
      ∀ ch ∈ digitsAux base upper fuel n acc, ch ≠ NUL := by
  intro fuel
  induction fuel with
  | zero => intro n acc hacc ch hch; exact hacc ch (by simpa [digitsAux] using hch)
  | succ f ih =>
    intro n acc hacc ch hch
    have hd : hexDigit upper (n % base) ≠ NUL :=
      hexDigit_ne_NUL upper _ (lt_of_lt_of_le (Nat.mod_lt _ hb0) hb)
    have hacc' : ∀ ch ∈ hexDigit upper (n % base) :: acc, ch ≠ NUL := by
      intro c hc
      rcases List.mem_cons.1 hc with h | h
      · rw [h]; exact hd
      · exact hacc c h
    simp only [digitsAux] at hch
    split at hch
    · exact hacc' ch hch
    · exact ih _ _ hacc' ch hch

theorem fmtD_ne_NUL (i : Int) : ∀ ch ∈ fmtD i, ch ≠ NUL := by
  intro ch hch
  unfold fmtD at hch
  split at hch
  · rcases List.mem_cons.1 hch with h | h
    · rw [h]; decide
    · exact digitsAux_ne_NUL 10 false (by decide) (by decide) _ _ [] (by simp) ch h
  · exact digitsAux_ne_NUL 10 false (by decide) (by decide) _ _ [] (by simp) ch hch

theorem hexWord_ne_NUL (w : Nat) : ∀ ch ∈ hexWord w, ch ≠ NUL := by
  intro ch hch
  simp only [hexWord, List.mem_cons, List.mem_singleton, List.not_mem_nil, or_false] at hch
  rcases hch with rfl | rfl | rfl | rfl <;>
    exact hexDigit_ne_NUL false _ (Nat.mod_lt _ (by decide))

theorem joinWords_ne_NUL : ∀ ws : List Nat, ∀ ch ∈ joinWords ws, ch ≠ NUL
  | [], ch, h => by simp [joinWords] at h
  | [w], ch, h => hexWord_ne_NUL w ch (by simpa [joinWords] using h)
  | w :: x :: xs, ch, h => by
    simp only [joinWords, List.mem_append, List.mem_cons] at h
    rcases h with h | h | h
    · exact hexWord_ne_NUL w ch h
    · rw [h]; decide
    · exact joinWords_ne_NUL (x :: xs) ch h

theorem emitLoop_filled (buf buflen : Int) (f : Nat → List Char) (T0 : List Char)
    (c : Cursor) (hint : buflen < 2 ^ 31) (h : Filled buf buflen T0 c)
    (hterm : Terminated buf T0 c) :
    ∀ n, (T0.length : Int) + (emitText f n).length + 1 ≤ buflen →
      Filled buf buflen (T0 ++ emitText f n) (forLoop n (fun i c => c.emit (f i)) c) ∧
      Terminated buf (T0 ++ emitText f n) (forLoop n (fun i c => c.emit (f i)) c) := by
  intro n
  induction n with
  | zero =>
    intro _
    simpa [emitText, forLoop] using And.intro h hterm
  | succ n ih =>
    intro hroom
    simp only [emitText, List.length_append] at hroom
    push_cast at hroom
    obtain ⟨hf, _⟩ := ih (by omega)
    rw [forLoop_succ]
    have := emit_filled buf buflen _ (f n) _ hint hf (by
      simp only [List.length_append]; push_cast; omega)
    simpa [emitText, List.append_assoc] using this

theorem dashAll_snoc (xs : List Nat) (w : Nat) :
    dashAll (xs ++ [w]) = dashAll xs ++ (hexWord w ++ ['-']) := by
  induction xs with
  | nil => simp [dashAll]
  | cons x xs ih =>
    show dashAll (x :: (xs ++ [w])) = _
    simp [dashAll, ih]

theorem joinWords_snoc (xs : List Nat) (w : Nat) :
    joinWords (xs ++ [w]) = dashAll xs ++ hexWord w := by
  induction xs with
  | nil => simp [joinWords, dashAll]
  | cons x xs ih =>
    cases xs with
    | nil => simp [joinWords, dashAll]
    | cons y ys =>
      show joinWords (x :: y :: (ys ++ [w])) = _
      have : joinWords (y :: (ys ++ [w])) = dashAll (y :: ys) ++ hexWord w := ih
      simp only [joinWords] at this ⊢
      simp [dashAll, joinWords, this]

theorem emitText_words (ws : List Nat) (hw : ∀ w ∈ ws, w < 65536) :
    ∀ k, k ≤ ws.length →
      emitText (fun i => fmt04x (ws.getD i 0) ++ ['-']) k = dashAll (ws.take k) := by
  intro k
  induction k with
  | zero => intro _; simp [emitText, dashAll]
  | succ k ih =>
    intro hk
    have hlt : k < ws.length := by omega
    have hget : ws.getD k 0 = ws[k] := by
      simp [List.getD_eq_getElem?_getD, List.getElem?_eq_getElem hlt]
    have htake : ws.take (k + 1) = ws.take k ++ [ws[k]] := by
      rw [List.take_succ, List.getElem?_eq_getElem hlt]; rfl
    simp only [emitText, ih (by omega), htake, dashAll_snoc, hget,
      fmt04x_word _ (hw _ (List.getElem_mem hlt))]

theorem ne_NUL_append (A B : List Char) (ha : ∀ ch ∈ A, ch ≠ NUL)
    (hb : ∀ ch ∈ B, ch ≠ NUL) : ∀ ch ∈ A ++ B, ch ≠ NUL := by
  intro ch hch
  rcases List.mem_append.1 hch with h | h
  · exact ha ch h
  · exact hb ch h

/-- The statements of formatOneReadResult that put the data words, from a
cursor that has put `T0`. -/
theorem words_filled (buf buflen : Int) (ws : List Nat) (T0 : List Char) (c : Cursor)
    (hint : buflen < 2 ^ 31) (h : Filled buf buflen T0 c)
    (hterm : Terminated buf T0 c) (hw : ∀ w ∈ ws, w < 65536)
    (hroom : (T0.length : Int) + (joinWords ws).length + 1 ≤ buflen) :
    Filled buf buflen (T0 ++ joinWords ws)
      (if (ws.length : Int) ≠ 0 then
        (forLoop ((ws.length : Int) - 1).toNat
          (fun i c => c.emit (fmt04x (ws.getD i 0) ++ ['-'])) c).emit
            (fmt04x (ws.getD ((ws.length : Int) - 1).toNat 0))
       else forLoop ((ws.length : Int) - 1).toNat
          (fun i c => c.emit (fmt04x (ws.getD i 0) ++ ['-'])) c) ∧
    Terminated buf (T0 ++ joinWords ws)
      (if (ws.length : Int) ≠ 0 then
        (forLoop ((ws.length : Int) - 1).toNat
          (fun i c => c.emit (fmt04x (ws.getD i 0) ++ ['-'])) c).emit
            (fmt04x (ws.getD ((ws.length : Int) - 1).toNat 0))
       else forLoop ((ws.length : Int) - 1).toNat
          (fun i c => c.emit (fmt04x (ws.getD i 0) ++ ['-'])) c) := by
  by_cases h0 : ws.length = 0
  · have hnil : ws = [] := List.length_eq_zero.1 h0
    subst hnil
    simpa [joinWords, forLoop] using And.intro h hterm
  · have hne : (ws.length : Int) ≠ 0 := by exact_mod_cast h0
    have hk : ((ws.length : Int) - 1).toNat = ws.length - 1 := by omega
    simp only [hne, ne_eq, not_false_eq_true, if_true, hk]
    have hlt : ws.length - 1 < ws.length := by omega
    have hsplit : ws = ws.take (ws.length - 1) ++ [ws[ws.length - 1]] := by
      have := List.take_succ (l := ws) (n := ws.length - 1)
      rw [List.getElem?_eq_getElem hlt] at this
      have e : ws.length - 1 + 1 = ws.length := by omega
      rw [e, List.take_length] at this
      exact this
    have hjoin : joinWords ws
        = dashAll (ws.take (ws.length - 1)) ++ hexWord ws[ws.length - 1] := by
      conv_lhs => rw [hsplit]
      exact joinWords_snoc _ _
    have hget : ws.getD (ws.length - 1) 0 = ws[ws.length - 1] := by
      simp [List.getD_eq_getElem?_getD, List.getElem?_eq_getElem hlt]
    have hloop := emitText_words ws hw (ws.length - 1) (by omega)
    rw [hjoin] at hroom ⊢
    simp only [List.length_append] at hroom
    push_cast at hroom
    obtain ⟨hf, _⟩ := emitLoop_filled buf buflen
      (fun i => fmt04x (ws.getD i 0) ++ ['-']) T0 c hint h hterm (ws.length - 1)
      (by rw [hloop]; omega)
    rw [hloop] at hf
    have hword : fmt04x ws[ws.length - 1] = hexWord ws[ws.length - 1] :=
      fmt04x_word _ (hw _ (List.getElem_mem hlt))
    have := emit_filled buf buflen _ (fmt04x (ws.getD (ws.length - 1) 0)) _ hint hf (by
      rw [hget, hword]; simp only [List.length_append]; push_cast; omega)
    rw [hget, hword] at this ⊢
    rw [List.append_assoc] at this
    exact this

/-- C10. With a buffer that is large enough, formatOneReadResult leaves the
labelled result code, followed for the result code Success, and only for
it, by the data label and the read data words: in order, four lower-case
zero-padded hexadecimal digits each, joined by single '-' with none before
the first or after the last.  Zero words give no word text, and the words
0x1234, 0x5678 give 1234-5678. -/
theorem formatOneReadResult_text (r : C1G2ReadOpSpecResult) (init : Int → Char)
    (buf buflen : Int) (startStr : List Char)
    (hw : ∀ w ∈ r.readData, w < 65536) (hint : buflen < 2 ^ 31)
    (hstart : ∀ ch ∈ startStr, ch ≠ NUL) :
    (((readText3 r).length + 1 : Nat) ≤ buflen →
      cstr (Docsample3.formatOneReadResult r (Mem.fresh init) buf buflen).cell
        buflen.toNat buf = readText3 r) ∧
    (((readText5 startStr r).length + 1 : Nat) ≤ buflen →
      cstr (Docsample5.formatOneReadResult r (Mem.fresh init) buf buflen
        startStr).1.cell buflen.toNat buf = readText5 startStr r) ∧
    (r.result = C1G2ReadResultType_Success →
      readText3 r = "ReadResult 0: Data  ".toList ++ joinWords r.readData ∧
      readText5 startStr r = startStr ++ "result=0 Data=".toList ++ joinWords r.readData) ∧
    (r.result ≠ C1G2ReadResultType_Success →
      readText3 r = "ReadResult ".toList ++ fmtD r.result ∧
      readText5 startStr r = startStr ++ "result=".toList ++ fmtD r.result) ∧
    joinWords [] = [] ∧
    joinWords [0x1234, 0x5678] = "1234-5678".toList ∧
    (∀ w, (hexWord w).length = 4) := by
  refine ⟨?_, ?_, ?_, ?_, rfl, by decide, fun _ => rfl⟩
  · intro hroom
    unfold readText3 at hroom ⊢
    simp only [Docsample3.formatOneReadResult]
    have hlab : ∀ ch ∈ "ReadResult ".toList ++ fmtD r.result, ch ≠ NUL :=
      ne_NUL_append _ _ (by decide) (fmtD_ne_NUL _)
    by_cases hs : r.result = C1G2ReadResultType_Success
    · simp only [hs, if_true] at hroom ⊢
      simp only [List.length_append] at hroom
      push_cast at hroom
      obtain ⟨hf1, _⟩ := emit_filled buf buflen []
        ("ReadResult ".toList ++ fmtD C1G2ReadResultType_Success) _ hint
        (filled_start init buf buflen)
        (by simp only [List.length_nil, List.length_append]; push_cast; omega)
      obtain ⟨hf2, ht2⟩ := emit_filled buf buflen _ ": Data  ".toList _ hint hf1
        (by simp only [List.length_nil, List.length_append, List.nil_append]
            push_cast; omega)
      obtain ⟨hf3, ht3⟩ := words_filled buf buflen r.readData _ _ hint hf2 ht2 hw
        (by simp only [List.length_nil, List.length_append, List.nil_append]
            push_cast; omega)
      have := final_text buf buflen _ _ hf3 ht3
        (by simp only [List.length_nil, List.length_append, List.nil_append]
            push_cast; omega)
        (ne_NUL_append _ _ (ne_NUL_append _ _ (by simpa [hs] using hlab) (by decide))
          (joinWords_ne_NUL _))
      simpa [List.append_assoc] using this
    · simp only [hs, if_false, List.append_nil] at hroom ⊢
      obtain ⟨hf1, ht1⟩ := emit_filled buf buflen []
        ("ReadResult ".toList ++ fmtD r.result) _ hint
        (filled_start init buf buflen)
        (by simp only [List.length_nil]; push_cast at hroom ⊢; omega)
      have := final_text buf buflen _ _ hf1 ht1
        (by simp only [List.nil_append]; push_cast at hroom ⊢; omega)
        (by simpa using hlab)
      simpa using this
  · intro hroom
    unfold readText5 at hroom ⊢
    simp only [Docsample5.formatOneReadResult]
    have hlab : ∀ ch ∈ startStr ++ ("result=".toList ++ fmtD r.result), ch ≠ NUL :=
      ne_NUL_append _ _ hstart (ne_NUL_append _ _ (by decide) (fmtD_ne_NUL _))
    obtain ⟨hf0, _⟩ := emit_filled buf buflen [] startStr _ hint
      (filled_start init buf buflen)
      (by simp only [List.length_nil, List.length_append] at hroom ⊢
          push_cast at hroom ⊢; omega)
    obtain ⟨hf1, ht1⟩ := emit_filled buf buflen _
      ("result=".toList ++ fmtD r.result) _ hint hf0
      (by simp only [List.length_nil, List.length_append, List.nil_append] at hroom ⊢
          push_cast at hroom ⊢; omega)
    simp only [List.nil_append] at hf1 ht1
    by_cases hs : r.result = C1G2ReadResultType_Success
    · simp only [hs, if_true] at hroom hf1 ht1 hlab ⊢
      simp only [List.length_append] at hroom
      push_cast at hroom
      obtain ⟨hf2, ht2⟩ := emit_filled buf buflen _ " Data=".toList _ hint hf1
        (by simp only [List.length_append]; push_cast; omega)
      obtain ⟨hf3, ht3⟩ := words_filled buf buflen r.readData _ _ hint hf2 ht2 hw
        (by simp only [List.length_append]; push_cast; omega)
      have := final_text buf buflen _ _ hf3 ht3
        (by simp only [List.length_append]; push_cast; omega)
        (ne_NUL_append _ _ (ne_NUL_append _ _ hlab (by decide)) (joinWords_ne_NUL _))
      simpa [List.append_assoc] using this
    · simp only [hs, if_false, List.append_nil] at hroom ⊢
      have := final_text buf buflen _ _ hf1 ht1
        (by push_cast at hroom ⊢; omega) hlab
      simpa using this
  · intro hs
    simp only [readText3, readText5, hs, if_true]
    constructor
    · simp [C1G2ReadResultType_Success, fmtD, fmtUnsigned, digitsAux, hexDigit]
    · simp [C1G2ReadResultType_Success, fmtD, fmtUnsigned, digitsAux, hexDigit]
  · intro hs
    simp [readText3, readText5, hs]

set_option maxRecDepth 100000 in
/-- C10 at the example of the specification: a successful Read result
with the words 0x1234, 0x5678 in the buffers the samples use. -/
theorem formatOneReadResult_text_witness :
    cstr (Docsample3.formatOneReadResult ⟨0, [0x1234, 0x5678]⟩
        (Mem.fresh (fun _ => 'z')) 0 64).cell 64 0
      = "ReadResult 0: Data  1234-5678".toList ∧
    cstr (Docsample5.formatOneReadResult ⟨0, [0x1234, 0x5678]⟩
        (Mem.fresh (fun _ => 'z')) 0 1024 "\n    READ ".toList).1.cell 1024 0
      = "\n    READ result=0 Data=1234-5678".toList := by
  obtain ⟨h3, _, _⟩ :=
    formatOneReadResult_text ⟨0, [0x1234, 0x5678]⟩ (fun _ => 'z') 0 64
      "\n    READ ".toList (by decide) (by decide) (by decide)
  obtain ⟨_, h5, _⟩ :=
    formatOneReadResult_text ⟨0, [0x1234, 0x5678]⟩ (fun _ => 'z') 0 1024
      "\n    READ ".toList (by decide) (by decide) (by decide)
  have e64 : (64 : Int).toNat = 64 := rfl
  have e1024 : (1024 : Int).toNat = 1024 := rfl
  refine ⟨?_, ?_⟩
  · have := h3 (by decide)
    rw [e64] at this
    rw [this]; decide
  · have := h5 (by decide)
    rw [e1024] at this
    rw [this]; decide

set_option maxRecDepth 1000000 in
/-- C7 fails on the code. In docsample3, formatOneReadResult called with
the 64-byte buffer of printOneTagReportData and a successful result of ten
words writes to offsets 65 to 69, past the end of the buffer: the ninth
word leaves `bufsize` at -1, which the next snprintf takes as a huge
size.  In docsample5, formatOneEPC with a two-byte buffer and the start
string "epc=" writes the placeholder at offsets 4 to 17. -/
theorem formatOneReadResult_writes_past_buffer :
    (Docsample3.formatOneReadResult tenWordRead (Mem.fresh (fun _ => 'z')) 0
        64).touched.filter (fun q => decide (64 ≤ q)) = [65, 66, 67, 68, 69] ∧
    (Docsample5.formatOneEPC none (Mem.fresh (fun _ => 'z')) 0 2
        "epc=".toList).1.touched.filter (fun q => decide (2 ≤ q))
      = [4, 5, 6, 7, 8, 9, 10, 11, 12, 13, 14, 15, 16, 17] := by
  decide!

/-! ## Return values of the formatters -/

set_option maxRecDepth 1000000 in
/-- C11 fails on the code. In docsample5, formatOneWriteResult with a
15-byte buffer and the start string of printOneTagReportData leaves the
14 characters that fit and returns 19, the length of the untruncated
text: more than the number of bytes written and more than buflen - 1. -/
theorem formatOneWriteResult_returns_untruncated_length :
    (Docsample5.formatOneWriteResult ⟨0⟩ (Mem.fresh (fun _ => 'z')) 0 15
        "\n    WRITE ".toList).2 = 19 ∧
    cstr (Docsample5.formatOneWriteResult ⟨0⟩ (Mem.fresh (fun _ => 'z')) 0 15
        "\n    WRITE ".toList).1.cell 15 0 = "\n    WRITE res".toList ∧
    (Docsample5.formatOneSerializedTID ⟨[0x1234]⟩ (Mem.fresh (fun _ => 'z')) 0 5
        "T=".toList).2 = 6 ∧
    cstr (Docsample5.formatOneSerializedTID ⟨[0x1234]⟩ (Mem.fresh (fun _ => 'z')) 0 5
        "T=".toList).1.cell 5 0 = "T=12".toList := by
  decide!

/-! ## The firmware version check of docsample5 -/

set_option maxRecDepth 1000000 in
/-- C20 fails on the code. For a reader reporting firmware 4.2.0.240, or
3.9.1.240, both below 4.4, docsample5's getReaderCapabilities returns 0:
the check rejects only versions whose major and minor numbers are both
below 4.  Firmware 3.3.0.1 is rejected, 4.4.0.1 and 5.2.0.240 pass. -/
theorem getReaderCapabilities_accepts_old_firmware :
    (getReaderCapabilities .docsample5 (firmwareReader "4.2.0.240") (Session.new 0)).1 = 0 ∧
    (getReaderCapabilities .docsample5 (firmwareReader "3.9.1.240") (Session.new 0)).1 = 0 ∧
    sscanfVersion "4.2.0.240".toList 0 0 = (4, 2) ∧
    sscanfVersion "3.9.1.240".toList 0 0 = (3, 9) ∧
    (getReaderCapabilities .docsample5 (firmwareReader "3.3.0.1") (Session.new 0)).1 = -1 ∧
    (getReaderCapabilities .docsample5 (firmwareReader "4.4.0.1") (Session.new 0)).1 = 0 ∧
    (getReaderCapabilities .docsample5 (firmwareReader "5.2.0.240") (Session.new 0)).1 = 0 := by
  decide!

/-! ## Message identifiers -/

set_option maxRecDepth 1000000 in
/-- C13 fails on the code. In a run of docsample3 in which everything
works, the GET_REPORT poll of the monitor loop is sent with the message
identifier 0, which IMPINJ_ENABLE_EXTENSIONS carried already: the poll is
composed without taking an identifier from the counter. -/
theorem poll_reuses_message_id :
    (run .docsample3 goodReader 5 "reader" (Session.new 0)).map
        (fun r => (commandsSent r.2.trace).map
          (fun c => (c.m_pType, c.messageID)))
      = some [(.IMPINJ_ENABLE_EXTENSIONS, 0), (.SET_READER_CONFIG, 1),
          (.GET_READER_CAPABILITIES, 2), (.SET_READER_CONFIG, 3), (.ADD_ROSPEC, 4),
          (.ADD_ACCESSSPEC, 5), (.ENABLE_ACCESSSPEC, 6), (.ENABLE_ROSPEC, 7),
          (.START_ROSPEC, 8), (.GET_REPORT, 0), (.STOP_ROSPEC, 9),
          (.SET_READER_CONFIG, 10)] := by
  decide!

/-! ## The monitor loop -/

theorem monitorLoop_some_deadline (v : Sample) (R : Reader) (timeout startTime : Int) :
    ∀ (fuel : Nat) (pollTime : Int) (s t : Session),
      monitorLoop v R timeout startTime fuel pollTime s = some t →
      ∃ j, j < fuel ∧ R.time (s.clockReads + j) - startTime > timeout := by
  intro fuel
  induction fuel with
  | zero => intro pollTime s t h; simp [monitorLoop] at h
  | succ n ih =>
    intro pollTime s t h
    simp only [monitorLoop] at h
    split at h
    · rename_i hd
      rw [monitorIteration_done] at hd
      exact ⟨0, by omega, by simpa using hd⟩
    · obtain ⟨j, hj, hlate⟩ := ih _ _ _ h
      rw [monitorIteration_clockReads] at hlate
      refine ⟨j + 1, by omega, ?_⟩
      have : s.clockReads + (j + 1) = s.clockReads + 1 + j := by omega
      rw [this]; exact hlate

theorem awaitAndPrintReport_some_iff (v : Sample) (R : Reader) (fuel : Nat)
    (timeout : Int) (s : Session) :
    (∃ r, awaitAndPrintReport v R fuel timeout s = some r) ↔
      ∃ j, j < fuel ∧
        R.time (s.clockReads + clockBase v + j) - R.time s.clockReads > timeout := by
  unfold awaitAndPrintReport
  cases v with
  | docsample3 =>
    simp only [clockBase]
    constructor
    · rintro ⟨r, hr⟩
      split at hr
      · cases hr
      · rename_i t ht
        obtain ⟨j, hj, hl⟩ := monitorLoop_some_deadline _ _ _ _ _ _ _ _ ht
        exact ⟨j, hj, by simpa [Nat.add_assoc] using hl⟩
    · rintro ⟨j, hj, hl⟩
      obtain ⟨t, ht⟩ := monitorLoop_terminates .docsample3 R timeout
        (R.time s.clockReads) fuel (R.time s.tick.clockReads) s.tick.tick
        ⟨j, hj, by simpa [Nat.add_assoc] using hl⟩
      exact ⟨(0, t), by simp only [ht]⟩
  | docsample5 =>
    simp only [clockBase]
    constructor
    · rintro ⟨r, hr⟩
      split at hr
      · cases hr
      · rename_i t ht
        obtain ⟨j, hj, hl⟩ := monitorLoop_some_deadline _ _ _ _ _ _ _ _ ht
        exact ⟨j, hj, by simpa using hl⟩
    · rintro ⟨j, hj, hl⟩
      obtain ⟨t, ht⟩ := monitorLoop_terminates .docsample5 R timeout
        (R.time s.clockReads) fuel (R.time s.clockReads) s.tick
        ⟨j, hj, by simpa using hl⟩
      exact ⟨(0, t), by simp only [ht]⟩

theorem awaitAndPrintReport_zero (v : Sample) (R : Reader) (fuel : Nat)
    (timeout : Int) (s : Session) (r : Int × Session)
    (h : awaitAndPrintReport v R fuel timeout s = some r) : r.1 = 0 := by
  unfold awaitAndPrintReport at h
  simp only [] at h
  split at h
  · cases h
  · cases h; rfl

theorem firstFailure_failed_step :
    ∀ (steps : List (Session → Option (Int × Session))) (k0 : Nat) (s : Session)
      (k : Nat) (sk : Session), firstFailure steps k0 s = .failed k sk →
      ∃ st s1 r, steps.get? (k - k0) = some st ∧ st s1 = some r ∧ r.1 ≠ 0 ∧
        r.2 = sk ∧ k0 ≤ k := by
  intro steps
  induction steps with
  | nil => intro k0 s k sk h; simp [firstFailure] at h
  | cons st rest ih =>
    intro k0 s k sk h
    simp only [firstFailure] at h
    cases hs : st s with
    | none => rw [hs] at h; cases h
    | some r =>
      rw [hs] at h
      simp only [] at h
      by_cases hz : r.1 = 0
      · simp only [hz, if_true] at h
        obtain ⟨st1, s1, r1, hget, hst, hne, hsk, hle⟩ := ih _ _ _ _ h
        refine ⟨st1, s1, r1, ?_, hst, hne, hsk, by omega⟩
        have : k - k0 = (k - (k0 + 1)) + 1 := by omega
        rw [this]; simpa using hget
      · simp only [hz, if_false, Outcome.failed.injEq] at h
        obtain ⟨rfl, rfl⟩ := h
        exact ⟨st, s, r, by simp, hs, hz, rfl, le_refl _⟩

theorem forwardOutcome_not_eleven (v : Sample) (R : Reader) (fuel : Nat)
    (s sk : Session) : forwardOutcome v R fuel s ≠ .failed 11 sk := by
  intro h
  obtain ⟨st, s1, r, hget, hst, hne, _, _⟩ := firstFailure_failed_step _ _ _ _ _ h
  simp [forwardSteps] at hget
  subst hget
  exact hne (awaitAndPrintReport_zero _ _ _ _ _ _ hst)

/-- C14. awaitAndPrintReport never returns anything but 0, whatever the
timeout and whatever is received or fails; it returns exactly when the
deadline check finds the deadline passed (within the fuel of the model),
and `run` never returns the code 11. -/
theorem awaitAndPrintReport_returns_zero (v : Sample) (R : Reader) (fuel : Nat)
    (timeout : Int) (s : Session) :
    (∀ r, awaitAndPrintReport v R fuel timeout s = some r → r.1 = 0) ∧
    ((∃ t, awaitAndPrintReport v R fuel timeout s = some (0, t)) ↔
      ∃ j, j < fuel ∧
        R.time (s.clockReads + clockBase v + j) - R.time s.clockReads > timeout) ∧
    (∀ (host : String) (s0 : Session) (r : Int × Session),
      run v R fuel host s0 = some r → r.1 ≠ 11) := by
  refine ⟨fun r h => awaitAndPrintReport_zero v R fuel timeout s r h, ?_, ?_⟩
  · rw [← awaitAndPrintReport_some_iff]
    constructor
    · rintro ⟨t, ht⟩; exact ⟨_, ht⟩
    · rintro ⟨r, hr⟩
      have h0 := awaitAndPrintReport_zero v R fuel timeout s r hr
      refine ⟨r.2, ?_⟩
      rw [hr, ← h0]
  · intro host s0 r h
    unfold run at h
    split at h
    · cases h; simp
    · split at h
      · cases h; simp
      · split at h
        · cases h; simp
        · rw [runSequence_eq] at h
          have hne := forwardOutcome_not_eleven v R fuel (connected host s0)
          revert h hne
          cases forwardOutcome v R fuel (connected host s0) with
          | failed k sk =>
            intro h hne
            simp only [afterOutcome, Option.some.injEq] at h
            subst h
            simp only []
            intro hk
            have : k = 11 := by exact_mod_cast hk
            subst this
            exact hne sk rfl
          | completed sk =>
            intro h _
            simp only [afterOutcome, Option.some.injEq] at h
            subst h
            simp
          | stuck => intro h _; simp [afterOutcome] at h

theorem extends_count (e : Event) {s t : Session}
    (h : Extends (fun x => x ≠ e) s t) : t.trace.count e = s.trace.count e := by
  obtain ⟨evs, ht, hp⟩ := h
  rw [ht, List.count_append, List.count_eq_zero.2 (fun hm => hp e hm rfl)]
  simp

theorem output_ne_recv (n : Int) (e : Event) (h : e.isOutput = true) :
    e ≠ .recvMessage n := by
  rintro rfl
  simp [Event.isOutput] at h

theorem monitorIteration_recvSlices (v : Sample) (R : Reader)
    (timeout startTime pollTime : Int) (s : Session) :
    recvSlices (monitorIteration v R timeout startTime pollTime s).2.2.trace
      = recvSlices s.trace + 1 := by
  unfold monitorIteration recvSlices
  have hout : ∀ e : Event, e.isOutput = true → e ≠ .recvMessage 1000 :=
    output_ne_recv 1000
  have h1 : (recvMessage R 1000 s).2.tick.trace.count (.recvMessage 1000)
      = s.trace.count (.recvMessage 1000) + 1 := by
    obtain ⟨pre, post, ht, hpre, hpost⟩ := (recvMessage_single R 1000 s).shape
    rw [tick_trace, ht]
    simp only [List.count_append, List.count_cons_self]
    rw [List.count_eq_zero.2 (fun hm => hout _ (hpre _ hm) rfl),
      List.count_eq_zero.2 (fun hm => hout _ (hpost _ hm) rfl)]
  have h2 := extends_count (.recvMessage 1000)
    (pollReader_extends (P := fun x => x ≠ .recvMessage 1000) v R
      (R.time (recvMessage R 1000 s).2.clockReads) pollTime
      (recvMessage R 1000 s).2.tick hout (by simp))
  have h3 := extends_count (.recvMessage 1000)
    (Extends.logs (P := fun x => x ≠ .recvMessage 1000)
      (pollReader v R (R.time (recvMessage R 1000 s).2.clockReads) pollTime
        (recvMessage R 1000 s).2.tick).2
      (dispatch v R s.m_Verbose (recvMessage R 1000 s).1)
      (fun e he => hout e (dispatch_output _ _ _ _ e he)))
  rw [h3, h2, h1]

/-- The loop makes exactly `n + 1` passes when the deadline check first
succeeds at the clock reading number `n` after the start of the loop. -/
theorem monitorLoop_exact (v : Sample) (R : Reader) (timeout startTime : Int) :
    ∀ (n : Nat) (pollTime : Int) (s : Session),
      (∀ j, j < n → ¬ (R.time (s.clockReads + j) - startTime > timeout)) →
      R.time (s.clockReads + n) - startTime > timeout →
      (∀ fuel, fuel ≤ n → monitorLoop v R timeout startTime fuel pollTime s = none) ∧
      ∃ t, (∀ fuel, n + 1 ≤ fuel →
          monitorLoop v R timeout startTime fuel pollTime s = some t) ∧
        t.clockReads = s.clockReads + (n + 1) ∧
        recvSlices t.trace = recvSlices s.trace + (n + 1) := by
  intro n
  induction n with
  | zero =>
    intro pollTime s _ hlate
    have hd : (monitorIteration v R timeout startTime pollTime s).2.1 = true := by
      rw [monitorIteration_done]; simpa using hlate
    refine ⟨?_, (monitorIteration v R timeout startTime pollTime s).2.2, ?_,
      monitorIteration_clockReads _ _ _ _ _ _, monitorIteration_recvSlices _ _ _ _ _ _⟩
    · intro fuel hf
      have : fuel = 0 := by omega
      subst this; rfl
    · intro fuel hf
      obtain ⟨f, rfl⟩ : ∃ f, fuel = f + 1 := ⟨fuel - 1, by omega⟩
      simp only [monitorLoop, hd, if_true]
  | succ n ih =>
    intro pollTime s hearly hlate
    have hd : ¬ ((monitorIteration v R timeout startTime pollTime s).2.1 = true) := by
      rw [monitorIteration_done]
      have := hearly 0 (by omega)
      simpa using this
    have hc := monitorIteration_clockReads v R timeout startTime pollTime s
    obtain ⟨hnone, t, hsome, hclk, hrecv⟩ := ih
      (monitorIteration v R timeout startTime pollTime s).1
      (monitorIteration v R timeout startTime pollTime s).2.2
      (fun j hj => by
        rw [hc]
        have := hearly (j + 1) (by omega)
        rwa [show s.clockReads + (j + 1) = s.clockReads + 1 + j by omega] at this)
      (by
        rw [hc]
        rwa [show s.clockReads + (n + 1) = s.clockReads + 1 + n by omega] at hlate)
    refine ⟨?_, t, ?_, by rw [hclk, hc]; omega, ?_⟩
    · intro fuel hf
      cases fuel with
      | zero => rfl
      | succ f =>
        simp only [monitorLoop, hd, if_false]
        exact hnone f (by omega)
    · intro fuel hf
      obtain ⟨f, rfl⟩ : ∃ f, fuel = f + 1 := ⟨fuel - 1, by omega⟩
      simp only [monitorLoop, hd, if_false]
      exact hsome f (by omega)
    · rw [hrecv, monitorIteration_recvSlices]; omega

/-- C15. With a deadline of `T` seconds and a clock that shows one more
second after every receive slice (no traffic: every slice takes its full
second), the monitor loop ends after exactly `T + 1` slices: `T` passes do
not end it, and with room for `T + 1` passes or more it returns 0 in a
state in which `T + 1` slices were received and the clock was read once
per slice. -/
theorem monitor_ends_after_T_plus_one_slices (v : Sample) (R : Reader) (T : Nat)
    (s : Session)
    (hclock : ∀ j, R.time (s.clockReads + clockBase v + j)
      = R.time s.clockReads + ((j : Int) + 1)) :
    awaitAndPrintReport v R T (T : Int) s = none ∧
    ∃ t, (∀ fuel, T + 1 ≤ fuel →
        awaitAndPrintReport v R fuel (T : Int) s = some (0, t)) ∧
      recvSlices t.trace = recvSlices s.trace + (T + 1) ∧
      t.clockReads = s.clockReads + clockBase v + (T + 1) := by
  have hearly : ∀ j, j < T →
      ¬ (R.time (s.clockReads + clockBase v + j) - R.time s.clockReads > (T : Int)) := by
    intro j hj
    rw [hclock]; omega
  have hlate : R.time (s.clockReads + clockBase v + T) - R.time s.clockReads > (T : Int) := by
    rw [hclock]; omega
  unfold awaitAndPrintReport
  cases v with
  | docsample3 =>
    simp only [clockBase] at hearly hlate ⊢
    obtain ⟨hnone, t, hsome, hclk, hrecv⟩ := monitorLoop_exact .docsample3 R (T : Int)
      (R.time s.clockReads) T (R.time s.tick.clockReads) s.tick.tick
      (fun j hj => by simpa [Nat.add_assoc] using hearly j hj)
      (by simpa [Nat.add_assoc] using hlate)
    refine ⟨by simp only [hnone T (le_refl _)], t, ?_, by simpa using hrecv, ?_⟩
    · intro fuel hf
      simp only [hsome fuel hf]
    · rw [hclk]; simp
  | docsample5 =>
    simp only [clockBase] at hearly hlate ⊢
    obtain ⟨hnone, t, hsome, hclk, hrecv⟩ := monitorLoop_exact .docsample5 R (T : Int)
      (R.time s.clockReads) T (R.time s.clockReads) s.tick
      (fun j hj => by simpa using hearly j hj)
      (by simpa using hlate)
    refine ⟨by simp only [hnone T (le_refl _)], t, ?_, by simpa using hrecv, ?_⟩
    · intro fuel hf
      simp only [hsome fuel hf]
    · rw [hclk]; simp

/-- C15 at the deadline of docsample3: without traffic the loop for 60
seconds ends after 61 slices, not after 60. -/
theorem monitor_ends_after_T_plus_one_slices_witness :
    awaitAndPrintReport .docsample3 (idleReader .docsample3) 60 60 (Session.new 0)
      = none ∧
    ∃ t, awaitAndPrintReport .docsample3 (idleReader .docsample3) 61 60 (Session.new 0)
        = some (0, t) ∧ recvSlices t.trace = 61 := by
  obtain ⟨hnone, t, hsome, hrecv, _⟩ :=
    monitor_ends_after_T_plus_one_slices .docsample3 (idleReader .docsample3) 60
      (Session.new 0) (by
        intro j
        simp only [idleReader, clockBase, Session.new]
        omega)
  exact ⟨hnone, t, hsome 61 (le_refl _), by simpa [recvSlices, Session.new] using hrecv⟩

/-! ## The poll of docsample3's monitor loop -/

theorem commandsSent_append (a b : List Event) :
    commandsSent (a ++ b) = commandsSent a ++ commandsSent b := by
  simp [commandsSent, List.filterMap_append]

theorem commandsSent_outputs (es : List Event) (h : ∀ e ∈ es, e.isOutput = true) :
    commandsSent es = [] := by
  unfold commandsSent
  rw [List.filterMap_eq_nil_iff]
  intro e he
  have := h e he
  cases e <;> simp [Event.isOutput] at this ⊢

theorem sendMessage_commandsSent (R : Reader) (c : Command) (s : Session) :
    commandsSent (sendMessage R c s).2.trace = commandsSent s.trace ++ [c] := by
  obtain ⟨pre, post, ht, hpre, hpost⟩ := (sendMessage_single R c s).shape
  rw [ht]
  simp only [commandsSent_append, commandsSent_outputs pre hpre]
  rw [show Event.sendMessage c :: post = [Event.sendMessage c] ++ post by rfl,
    commandsSent_append, commandsSent_outputs post hpost]
  simp [commandsSent]

set_option maxRecDepth 1000000 in
/-- C16 as stated fails at the boundary. On an iteration at which exactly
10 seconds have elapsed since the poll reference point, docsample3 sends
nothing and keeps the reference point; and in a 60-second loop without
traffic whose slices last one second each, GET_REPORT is sent 5 times (at
seconds 11, 22, 33, 44 and 55), not once every 10 seconds. -/
theorem poll_not_sent_at_ten_seconds :
    (pollReader .docsample3 goodReader 10 0 (Session.new 0)).1 = 0 ∧
    commandsSent (pollReader .docsample3 goodReader 10 0 (Session.new 0)).2.trace = [] ∧
    (pollReader .docsample3 goodReader 11 0 (Session.new 0)).1 = 11 ∧
    commandsSent (pollReader .docsample3 goodReader 11 0 (Session.new 0)).2.trace
      = [getReportCommand] ∧
    (awaitAndPrintReport .docsample3 (idleReader .docsample3) 61 60 (Session.new 0)).map
        (fun r => (commandsSent r.2.trace).length) = some 5 := by
  decide!

/-- C16, amended. On an iteration of docsample3's loop at which more than
10 seconds have elapsed since the poll reference point, exactly one
GET_REPORT is sent and the reference point becomes the current time,
whatever the connection answers to the send; otherwise nothing is sent and
the reference point is kept.  Whether the loop ends after the iteration
depends on the deadline alone, not on the send. -/
theorem poll_fires_after_more_than_ten_seconds (R : Reader)
    (tempTime pollTime : Int) (s : Session) :
    (tempTime - pollTime > 10 →
      (pollReader .docsample3 R tempTime pollTime s).1 = tempTime ∧
      commandsSent (pollReader .docsample3 R tempTime pollTime s).2.trace
        = commandsSent s.trace ++ [getReportCommand]) ∧
    (¬ (tempTime - pollTime > 10) →
      pollReader .docsample3 R tempTime pollTime s = (pollTime, s)) ∧
    (∀ timeout startTime : Int,
      (monitorIteration .docsample3 R timeout startTime pollTime s).1
        = (pollReader .docsample3 R (R.time s.clockReads) pollTime
            (recvMessage R 1000 s).2.tick).1 ∧
      (monitorIteration .docsample3 R timeout startTime pollTime s).2.1
        = decide (R.time s.clockReads - startTime > timeout)) := by
  refine ⟨?_, ?_, ?_⟩
  · intro h
    simp only [pollReader, h, if_true]
    exact ⟨trivial, sendMessage_commandsSent R _ s⟩
  · intro h
    simp only [pollReader, h, if_false]
  · intro timeout startTime
    refine ⟨?_, monitorIteration_done _ _ _ _ _ _⟩
    unfold monitorIteration
    simp [(recvMessage_single R 1000 s).clock]

set_option maxRecDepth 1000000 in
/-- C16, amended, for a connection on which every send fails: at second
11 the poll is sent once and the reference point moves to 11. -/
theorem poll_fires_after_more_than_ten_seconds_witness :
    (pollReader .docsample3 (failingSendReader) 11 0 (Session.new 0)).1 = 11 ∧
    commandsSent (pollReader .docsample3 (failingSendReader) 11 0 (Session.new 0)).2.trace
      = commandsSent (Session.new 0).trace ++ [getReportCommand] :=
  (poll_fires_after_more_than_ten_seconds failingSendReader 11 0 (Session.new 0)).1
    (by decide)

/-! ## What the monitor loop does with a received message -/

/-- C17. A message the monitor loop receives is processed by its type
alone: for an RO_ACCESS_REPORT the output is (after the entry count, when
verbose) one printOneTagReportData line per entry, in list order; a
READER_EVENT_NOTIFICATION goes to handleReaderEventNotification, or gives
the warning when it has no data; any other type gives only the warning
with the type name.  The output is appended to the trace on every
iteration, and when the deadline is detected on the iteration the loop
returns the state after that output. -/
theorem monitor_dispatch_by_type (v : Sample) (R : Reader) (s : Session) (m : Message)
    (timeout startTime pollTime : Int)
    (hrecv : R.recvMessage s.ioCount 1000 = .ok m) :
    (m.m_pType = .RO_ACCESS_REPORT →
      monitorOutput v R s.m_Verbose m
        = (if s.m_Verbose ≠ 0 then
            [Event.printf ("INFO: " ++
              String.mk (fmtUnsigned 10 false m.tagReportData.length) ++
              " tag report entries\n")]
           else []) ++ m.tagReportData.map (reportLine v R)) ∧
    (m.m_pType = .READER_EVENT_NOTIFICATION →
      (∀ d, m.readerEventNotificationData = some d →
        monitorOutput v R s.m_Verbose m = handleReaderEventNotification d) ∧
      (m.readerEventNotificationData = none →
        monitorOutput v R s.m_Verbose m
          = [.printf "WARNING: READER_EVENT_NOTIFICATION without data\n"])) ∧
    (m.m_pType ≠ .RO_ACCESS_REPORT → m.m_pType ≠ .READER_EVENT_NOTIFICATION →
      monitorOutput v R s.m_Verbose m
        = [.printf ("WARNING: Ignored unexpected message during monitor: " ++
            m.m_pType.m_pName ++ "\n")]) ∧
    (monitorIteration v R timeout startTime pollTime s).2.2.trace
      = (pollReader v R (R.time s.clockReads) pollTime
          (recvMessage R 1000 s).2.tick).2.trace ++ monitorOutput v R s.m_Verbose m ∧
    (R.time s.clockReads - startTime > timeout →
      ∀ fuel, monitorLoop v R timeout startTime (fuel + 1) pollTime s
        = some (monitorIteration v R timeout startTime pollTime s).2.2) := by
  refine ⟨?_, ?_, ?_, ?_, ?_⟩
  · intro h
    simp only [monitorOutput, h, printTagReportData]
    congr 1
  · intro h
    refine ⟨fun d hd => ?_, fun hd => ?_⟩ <;> simp only [monitorOutput, h, hd]
  · intro h1 h2
    unfold monitorOutput
    cases hm : m.m_pType with
    | RO_ACCESS_REPORT => exact absurd hm h1
    | READER_EVENT_NOTIFICATION => exact absurd hm h2
    | ERROR_MESSAGE => rfl
    | other name => rfl
  · have h1 : (recvMessage R 1000 s).1 = some m := by
      simp [recvMessage, recvResult, hrecv]
    unfold monitorIteration
    simp [dispatch, h1, (recvMessage_single R 1000 s).clock]
  · intro hlate fuel
    have hd : (monitorIteration v R timeout startTime pollTime s).2.1 = true := by
      rw [monitorIteration_done]; simpa using hlate
    simp only [monitorLoop, hd, if_true]

/-- C17 for a report with two entries received by docsample3 on the
iteration on which a 60-second deadline is detected. -/
theorem monitor_dispatch_by_type_witness :
    monitorOutput .docsample3 reportingReader 0 (reportMessage twoEntries)
      = [] ++ twoEntries.map (reportLine .docsample3 reportingReader) ∧
    monitorLoop .docsample3 reportingReader 60 0 1 0 (Session.new 0).tick.tick
      = some (monitorIteration .docsample3 reportingReader 60 0 0
          (Session.new 0).tick.tick).2.2 ∧
    (monitorIteration .docsample3 reportingReader 60 0 0
        (Session.new 0).tick.tick).2.2.trace
      = (pollReader .docsample3 reportingReader (reportingReader.time 2) 0
          (recvMessage reportingReader 1000 (Session.new 0).tick.tick).2.tick).2.trace ++
        monitorOutput .docsample3 reportingReader 0 (reportMessage twoEntries) := by
  have h := monitor_dispatch_by_type .docsample3 reportingReader (Session.new 0).tick.tick
    (reportMessage twoEntries) 60 0 0 rfl
  exact ⟨h.1 rfl, h.2.2.2.2 (by decide) 0, h.2.2.2.1⟩

/-! ## Receive timeouts -/

set_option maxRecDepth 1000000 in
/-- C18 as stated fails. recvMessage returns the null pointer for a
timeout as for a transport error, and checkConnectionStatus does not try
again after a timeout: with a reader from which nothing arrives it returns
-1 after its single receive, and `run` returns 1 without sending any
command. -/
theorem checkConnectionStatus_fails_on_timeout :
    (recvMessage silentReader 1000 (Session.new 0)).1.isNone = true ∧
    (recvMessage brokenReader 1000 (Session.new 0)).1.isNone = true ∧
    (checkConnectionStatus silentReader (Session.new 0)).1 = -1 ∧
    (run .docsample3 silentReader 5 "reader" (Session.new 0)).map
        (fun r => (r.1, r.2.trace.count (.recvMessage 10000), commandsSent r.2.trace))
      = some (1, 1, []) := by
  decide!

/-- C18, amended. When the connection's receive fails, with a timeout or
with any other error, recvMessage returns the null pointer; the two cases
differ only in the line "ERROR: recvMessage failed", which is not printed
for a timeout.  The monitor loop processes nothing on such an iteration
and goes on as the deadline says.  The connection-status check returns -1,
and `run` then returns 1. -/
theorem recvMessage_failure_is_null (R : Reader) (s : Session) (err : ErrorDetails)
    (hrecv : ∀ n, R.recvMessage s.ioCount n = .error err) :
    (∀ n, (recvMessage R n s).1 = none) ∧
    (∀ n, (recvMessage R n s).2.trace
      = s.trace ++ (.recvMessage n ::
          ((if err.m_eResultCode ≠ .RC_RecvTimeout then
              [Event.printf ("ERROR: recvMessage failed, " ++
                err.m_pWhatStr.getD "no reason given" ++ "\n")]
            else []) ++ errorRefLines err))) ∧
    (∀ (v : Sample) (timeout startTime pollTime : Int),
      (monitorIteration v R timeout startTime pollTime s).2.2.trace
        = (pollReader v R (R.time s.clockReads) pollTime
            (recvMessage R 1000 s).2.tick).2.trace ∧
      (monitorIteration v R timeout startTime pollTime s).2.1
        = decide (R.time s.clockReads - startTime > timeout)) ∧
    (checkConnectionStatus R s).1 = -1 ∧
    (R.typeRegistry = true → R.connection = true → R.openConnectionToReader = 0 →
      ∀ (v : Sample) (fuel : Nat) (host : String) (s0 : Session),
        s0.ioCount = s.ioCount → ∃ t, run v R fuel host s0 = some (1, t)) := by
  have hnull : ∀ n, (recvMessage R n s).1 = none := by
    intro n; simp [recvMessage, recvResult, hrecv]
  refine ⟨hnull, ?_, ?_, ?_, ?_⟩
  · intro n
    simp [recvMessage, recvResult, hrecv]
  · intro v timeout startTime pollTime
    refine ⟨?_, monitorIteration_done _ _ _ _ _ _⟩
    unfold monitorIteration
    simp [dispatch, hnull, (recvMessage_single R 1000 s).clock]
  · simp [checkConnectionStatus, connectionStatusResult, hnull]
  · intro hreg hconn hopen v fuel host s0 hio
    have hfail : (checkConnectionStatus R (connected host s0)).1 = -1 := by
      have hc : (connected host s0).ioCount = s.ioCount := by rw [← hio]; rfl
      simp [checkConnectionStatus, connectionStatusResult, recvMessage, recvResult,
        hc, hrecv]
    have hsteps : forwardSteps v R fuel
        = (fun s => some (checkConnectionStatus R s)) ::
          (forwardSteps v R fuel).drop 1 := rfl
    rw [run_eq v R fuel host s0 hreg hconn hopen]
    unfold forwardOutcome
    rw [hsteps, firstFailure_cons_total, hfail]
    exact ⟨_, rfl⟩

/-- C18, amended, for a reader from which nothing arrives. -/
theorem recvMessage_failure_is_null_witness :
    (recvMessage silentReader 1000 (Session.new 0)).1 = none ∧
    (checkConnectionStatus silentReader (Session.new 0)).1 = -1 ∧
    ∃ t, run .docsample5 silentReader 5 "reader" (Session.new 0) = some (1, t) :=
  have h := recvMessage_failure_is_null silentReader (Session.new 0) recvTimeout
    (fun _ => rfl)
  ⟨h.1 1000, h.2.2.2.1, h.2.2.2.2 rfl rfl rfl .docsample5 5 "reader" (Session.new 0) rfl⟩

/-! ## A failed capability check -/

theorem SingleCall.sent_transact {c : Command} {n : Int} {s t : Session}
    (h : SingleCall (.transact c n) s t) :
    commandsSent t.trace = commandsSent s.trace ++ [c] := by
  obtain ⟨pre, post, ht, hpre, hpost⟩ := h.shape
  rw [ht]
  simp only [commandsSent_append, commandsSent_outputs pre hpre]
  rw [show Event.transact c n :: post = [Event.transact c n] ++ post by rfl,
    commandsSent_append, commandsSent_outputs post hpost]
  simp [commandsSent]

theorem SingleCall.sent_recv {n : Int} {s t : Session}
    (h : SingleCall (.recvMessage n) s t) :
    commandsSent t.trace = commandsSent s.trace := by
  obtain ⟨pre, post, ht, hpre, hpost⟩ := h.shape
  rw [ht]
  simp only [commandsSent_append, commandsSent_outputs pre hpre]
  rw [show Event.recvMessage n :: post = [Event.recvMessage n] ++ post by rfl,
    commandsSent_append, commandsSent_outputs post hpost]
  simp [commandsSent]

theorem teardown_commandsSent (s : Session) :
    commandsSent (teardown s).trace = commandsSent s.trace := by
  obtain ⟨out, hout, hoo⟩ := teardown_trace s
  rw [hout]
  simp only [commandsSent_append, commandsSent_outputs out hoo]
  simp [commandsSent]

theorem connected_commandsSent (host : String) (s : Session) :
    commandsSent (connected host s).trace = commandsSent s.trace := by
  simp only [connected, logs_trace, commandsSent_append]
  rw [commandsSent_outputs _ (whenVerbose_output _ _ (by simp [Event.isOutput])),
    commandsSent_outputs _ (whenVerbose_output _ _ (by simp [Event.isOutput]))]
  simp [commandsSent]

theorem getReaderCapabilities_rejects (v : Sample) (R : Reader) (s : Session)
    (m : Message)
    (hrsp : R.transact s.ioCount (commandOf .GET_READER_CAPABILITIES false s) 5000 = .ok m)
    (hbad : m.generalDeviceCapabilities = none ∨
      ∃ d, m.generalDeviceCapabilities = some d ∧ d.deviceManufacturerName ≠ 25882) :
    (getReaderCapabilities v R s).1 = -1 := by
  have hrsp' : R.transact s.ioCount ⟨.GET_READER_CAPABILITIES, s.m_messageID, false⟩ 5000
      = .ok m := hrsp
  simp only [getReaderCapabilities, transact, nextID_ioCount, hrsp', transactResult]
  by_cases ht : m.m_pType = .ERROR_MESSAGE
  · simp [ht, capabilitiesResult]
  · simp only [ht, if_false, capabilitiesResult]
    rcases hbad with h | ⟨d, h, hd⟩
    · simp only [h]
      split <;> rfl
    · simp only [h]
      split
      · rfl
      · simp [Ne.symm hd]

/-- C19. When the connection check, enable extensions and the factory
reset succeed and the capabilities response has no general device
capabilities or names a manufacturer other than 25882,
getReaderCapabilities returns -1 and `run` returns 4.  The commands of the
whole run are the three forward commands up to GET_READER_CAPABILITIES and
the factory reset of the clean-up, none of them a command of a later step,
and the clean-up reset is followed only by output and closing the
connection. -/
theorem run_capability_check_fails (v : Sample) (R : Reader) (fuel : Nat)
    (host : String) (s s1 s2 s3 : Session) (m : Message)
    (hreg : R.typeRegistry = true) (hconn : R.connection = true)
    (hopen : R.openConnectionToReader = 0)
    (h1 : checkConnectionStatus R (connected host s) = (0, s1))
    (h2 : enableImpinjExtensions R s1 = (0, s2))
    (h3 : resetConfigurationToFactoryDefaults R s2 = (0, s3))
    (hrsp : R.transact s3.ioCount (commandOf .GET_READER_CAPABILITIES false s3) 5000
      = .ok m)
    (hbad : m.generalDeviceCapabilities = none ∨
      ∃ d, m.generalDeviceCapabilities = some d ∧ d.deviceManufacturerName ≠ 25882) :
    (getReaderCapabilities v R s3).1 ≠ 0 ∧
    ∃ sEnd a b, run v R fuel host s = some (4, sEnd) ∧
      commandsSent sEnd.trace = commandsSent s.trace ++
        [commandOf .IMPINJ_ENABLE_EXTENSIONS false s1,
          commandOf .SET_READER_CONFIG true s2,
          commandOf .GET_READER_CAPABILITIES false s3,
          cleanupCommand (getReaderCapabilities v R s3).2] ∧
      (∀ c ∈ [commandOf .IMPINJ_ENABLE_EXTENSIONS false s1,
          commandOf .SET_READER_CONFIG true s2,
          commandOf .GET_READER_CAPABILITIES false s3,
          cleanupCommand (getReaderCapabilities v R s3).2], forwardStepOf c ≤ 4) ∧
      (cleanupCommand (getReaderCapabilities v R s3).2).isFactoryReset = true ∧
      sEnd.trace = (getReaderCapabilities v R s3).2.trace ++
        (a ++ Event.transact (cleanupCommand (getReaderCapabilities v R s3).2) 5000 ::
          (b ++ [.closeConnection])) ∧
      (∀ e ∈ a, e.isOutput = true) ∧ (∀ e ∈ b, e.isOutput = true) := by
  have hcap := getReaderCapabilities_rejects v R s3 m hrsp hbad
  have hsteps : forwardSteps v R fuel
      = (fun s => some (checkConnectionStatus R s)) ::
        (fun s => some (enableImpinjExtensions R s)) ::
        (fun s => some (resetConfigurationToFactoryDefaults R s)) ::
        (fun s => some (getReaderCapabilities v R s)) ::
        (forwardSteps v R fuel).drop 4 := rfl
  have hfo : forwardOutcome v R fuel (connected host s)
      = .failed 4 (getReaderCapabilities v R s3).2 := by
    unfold forwardOutcome
    rw [hsteps, firstFailure_cons_total, h1]
    simp only [if_true]
    rw [firstFailure_cons_total, h2]
    simp only [if_true]
    rw [firstFailure_cons_total, h3]
    simp only [if_true]
    rw [firstFailure_cons_total, hcap]
    simp
  have hrun := run_eq v R fuel host s hreg hconn hopen
  rw [hfo] at hrun
  simp only [afterOutcome, Option.map_some'] at hrun
  have h42 : ¬ (4 ≤ 2) := by decide
  simp only [h42, if_false] at hrun
  have hclean := bestEffortCleanup_single R (getReaderCapabilities v R s3).2
  obtain ⟨out, hout, hoo⟩ := teardown_trace (bestEffortCleanup R (getReaderCapabilities v R s3).2)
  obtain ⟨pre, post, ht, hpre, hpost⟩ := hclean.shape
  -- the commands step by step
  have e1 : commandsSent s1.trace = commandsSent s.trace := by
    have := (checkConnectionStatus_single R (connected host s)).sent_recv
    rw [h1, connected_commandsSent] at this
    exact this
  have e2 : commandsSent s2.trace
      = commandsSent s1.trace ++ [commandOf .IMPINJ_ENABLE_EXTENSIONS false s1] := by
    have := (commandStep_single R .IMPINJ_ENABLE_EXTENSIONS false
      "enableImpinjExtensions" "INFO: Impinj Extensions are enabled\n" s1).sent_transact
    rw [show commandStep R .IMPINJ_ENABLE_EXTENSIONS false "enableImpinjExtensions"
      "INFO: Impinj Extensions are enabled\n" s1 = enableImpinjExtensions R s1 from rfl,
      h2] at this
    exact this
  have e3 : commandsSent s3.trace
      = commandsSent s2.trace ++ [commandOf .SET_READER_CONFIG true s2] := by
    have := (commandStep_single R .SET_READER_CONFIG true
      "resetConfigurationToFactoryDefaults"
      "INFO: Configuration reset to factory defaults\n" s2).sent_transact
    rw [show commandStep R .SET_READER_CONFIG true "resetConfigurationToFactoryDefaults"
      "INFO: Configuration reset to factory defaults\n" s2
        = resetConfigurationToFactoryDefaults R s2 from rfl, h3] at this
    exact this
  have e4 : commandsSent (getReaderCapabilities v R s3).2.trace
      = commandsSent s3.trace ++ [commandOf .GET_READER_CAPABILITIES false s3] :=
    (getReaderCapabilities_single v R s3).sent_transact
  refine ⟨by rw [hcap]; decide, _, pre, post ++ out, hrun, ?_, ?_, rfl, ?_, hpre, ?_⟩
  · rw [teardown_commandsSent, hclean.sent_transact, e4, e3, e2, e1]
    simp
  · intro c hc
    simp only [List.mem_cons, List.mem_singleton, List.not_mem_nil, or_false] at hc
    rcases hc with rfl | rfl | rfl | rfl <;>
      simp [forwardStepOf, commandOf, cleanupCommand]
  · rw [hout, ht]; simp
  · intro e he
    rcases List.mem_append.1 he with h | h
    · exact hpost e h
    · exact hoo e h

set_option maxRecDepth 1000000 in
/-- C19 for a reader of another manufacturer: docsample5 returns 4 after
four commands, the last of them the factory reset. -/
theorem run_capability_check_fails_witness :
    (getReaderCapabilities .docsample5 foreignReader
      (resetConfigurationToFactoryDefaults foreignReader
        (enableImpinjExtensions foreignReader
          (checkConnectionStatus foreignReader
            (connected "reader" (Session.new 0))).2).2).2).1 ≠ 0 ∧
    ∃ sEnd, run .docsample5 foreignReader 5 "reader" (Session.new 0) = some (4, sEnd) ∧
      (commandsSent sEnd.trace).length = 4 := by
  obtain ⟨hne, sEnd, a, b, hrun, hsent, _⟩ :=
    run_capability_check_fails .docsample5 foreignReader 5 "reader" (Session.new 0)
      (checkConnectionStatus foreignReader (connected "reader" (Session.new 0))).2
      (enableImpinjExtensions foreignReader
        (checkConnectionStatus foreignReader (connected "reader" (Session.new 0))).2).2
      (resetConfigurationToFactoryDefaults foreignReader
        (enableImpinjExtensions foreignReader
          (checkConnectionStatus foreignReader
            (connected "reader" (Session.new 0))).2).2).2
      _ rfl rfl rfl
      (Prod.ext (by decide!) rfl) (Prod.ext (by decide!) rfl) (Prod.ext (by decide!) rfl)
      rfl (Or.inr ⟨_, rfl, by decide⟩)
  exact ⟨hne, sEnd, hrun, by rw [hsent]; rfl⟩

/-! ## Message identifiers of the transacted commands -/

@[simp] theorem tick_messageID (s : Session) : s.tick.m_messageID = s.m_messageID := rfl
@[simp] theorem nextID_messageID (s : Session) :
    s.nextID.m_messageID = (s.m_messageID + 1) % 2 ^ 32 := rfl

theorem transact_messageID (R : Reader) (c : Command) (s : Session) :
    (transact R c s).2.m_messageID = s.m_messageID := by simp [transact]

theorem recvMessage_messageID (R : Reader) (n : Int) (s : Session) :
    (recvMessage R n s).2.m_messageID = s.m_messageID := by simp [recvMessage]

theorem sendMessage_messageID (R : Reader) (c : Command) (s : Session) :
    (sendMessage R c s).2.m_messageID = s.m_messageID := by simp [sendMessage]

theorem commandStep_messageID (R : Reader) (ty : CmdType) (reset : Bool)
    (what info : String) (s : Session) :
    (commandStep R ty reset what info s).2.m_messageID = (s.m_messageID + 1) % 2 ^ 32 := by
  simp [commandStep, transact_messageID]

theorem getReaderCapabilities_messageID (v : Sample) (R : Reader) (s : Session) :
    (getReaderCapabilities v R s).2.m_messageID = (s.m_messageID + 1) % 2 ^ 32 := by
  simp [getReaderCapabilities, transact_messageID]

theorem checkConnectionStatus_messageID (R : Reader) (s : Session) :
    (checkConnectionStatus R s).2.m_messageID = s.m_messageID := by
  simp [checkConnectionStatus, recvMessage_messageID]

theorem pollReader_messageID (v : Sample) (R : Reader) (tempTime pollTime : Int)
    (s : Session) : (pollReader v R tempTime pollTime s).2.m_messageID = s.m_messageID := by
  unfold pollReader
  cases v with
  | docsample3 =>
    simp only []
    split
    · exact sendMessage_messageID R _ s
    · rfl
  | docsample5 => rfl

theorem monitorIteration_messageID (v : Sample) (R : Reader)
    (timeout startTime pollTime : Int) (s : Session) :
    (monitorIteration v R timeout startTime pollTime s).2.2.m_messageID
      = s.m_messageID := by
  unfold monitorIteration
  simp [pollReader_messageID, recvMessage_messageID]

theorem monitorLoop_messageID (v : Sample) (R : Reader) (timeout startTime : Int) :
    ∀ (fuel : Nat) (pollTime : Int) (s t : Session),
      monitorLoop v R timeout startTime fuel pollTime s = some t →
      t.m_messageID = s.m_messageID := by
  intro fuel
  induction fuel with
  | zero => intro pollTime s t h; simp [monitorLoop] at h
  | succ n ih =>
    intro pollTime s t h
    have hit := monitorIteration_messageID v R timeout startTime pollTime s
    simp only [monitorLoop] at h
    split at h
    · cases h; exact hit
    · rw [ih _ _ _ h, hit]

theorem awaitAndPrintReport_messageID (v : Sample) (R : Reader) (fuel : Nat)
    (timeout : Int) (s : Session) (r : Int × Session)
    (h : awaitAndPrintReport v R fuel timeout s = some r) :
    r.2.m_messageID = s.m_messageID := by
  unfold awaitAndPrintReport at h
  cases v with
  | docsample3 =>
    simp only [] at h
    split at h
    · cases h
    · rename_i t ht
      cases h
      simpa using monitorLoop_messageID .docsample3 R timeout _ _ _ _ _ ht
  | docsample5 =>
    simp only [] at h
    split at h
    · cases h
    · rename_i t ht
      cases h
      simpa using monitorLoop_messageID .docsample5 R timeout _ _ _ _ _ ht

theorem commandsTransacted_append (a b : List Event) :
    commandsTransacted (a ++ b) = commandsTransacted a ++ commandsTransacted b := by
  simp [commandsTransacted, List.filterMap_append]

theorem commandsTransacted_extends {s t : Session}
    (h : Extends (fun e => ∀ c n, e ≠ .transact c n) s t) :
    commandsTransacted t.trace = commandsTransacted s.trace := by
  obtain ⟨evs, ht, hp⟩ := h
  rw [ht, commandsTransacted_append]
  have : commandsTransacted evs = [] := by
    unfold commandsTransacted
    rw [List.filterMap_eq_nil_iff]
    intro e he
    have := hp e he
    cases e <;> simp at this ⊢
  rw [this, List.append_nil]

theorem output_ne_transact (e : Event) (h : e.isOutput = true) :
    ∀ c n, e ≠ .transact c n := by
  rintro c n rfl
  simp [Event.isOutput] at h

theorem commandsTransacted_outputs (es : List Event) (h : ∀ e ∈ es, e.isOutput = true) :
    commandsTransacted es = [] := by
  unfold commandsTransacted
  rw [List.filterMap_eq_nil_iff]
  intro e he
  have := h e he
  cases e <;> simp [Event.isOutput] at this ⊢

theorem SingleCall.transacted {c : Command} {n : Int} {s t : Session}
    (h : SingleCall (.transact c n) s t) :
    commandsTransacted t.trace = commandsTransacted s.trace ++ [c] := by
  obtain ⟨pre, post, ht, hpre, hpost⟩ := h.shape
  rw [ht]
  simp only [commandsTransacted_append, commandsTransacted_outputs pre hpre]
  rw [show Event.transact c n :: post = [Event.transact c n] ++ post by rfl,
    commandsTransacted_append, commandsTransacted_outputs post hpost]
  simp [commandsTransacted]

theorem firstFailure_inv (I : Nat → Session → Prop) :
    ∀ (steps : List (Session → Option (Int × Session))) (k : Nat) (s : Session),
      (∀ i st, steps.get? i = some st → ∀ s r, I (k + i) s → st s = some r →
        I (k + i + 1) r.2) →
      I k s →
      match firstFailure steps k s with
      | .failed j t => I (j + 1) t
      | .completed t => I (k + steps.length) t
      | .stuck => True := by
  intro steps
  induction steps with
  | nil => intro k s _ h; simpa [firstFailure] using h
  | cons st rest ih =>
    intro k s hsteps hI
    simp only [firstFailure]
    cases h : st s with
    | none => simp
    | some r =>
      simp only []
      have h0 : I (k + 1) r.2 := by
        simpa using hsteps 0 st rfl s r (by simpa using hI) h
      by_cases hz : r.1 = 0
      · simp only [hz, if_true]
        have hrest := ih (k + 1) r.2 (fun i st' hi s' r' hI' hr' => by
          have e : k + 1 + i = k + (i + 1) := by omega
          have := hsteps (i + 1) st' (by simpa using hi) s' r' (by rw [← e]; exact hI') hr'
          rw [e]; exact this) h0
        revert hrest
        cases firstFailure rest (k + 1) r.2 with
        | failed j t => exact id
        | completed t =>
          intro hrest
          simp only [List.length_cons] at hrest ⊢
          rw [show k + (rest.length + 1) = k + 1 + rest.length by omega]
          exact hrest
        | stuck => simp
      · simp only [hz, if_false]
        exact h0

theorem commandStep_counted (R : Reader) (ty : CmdType) (reset : Bool)
    (what info : String) (s : Session) (n : Nat) (hn : n < 10) (hc : Counted n s)
    (hexp : forwardCommands.get? n = some ⟨ty, n, reset⟩) :
    Counted (n + 1) (commandStep R ty reset what info s).2 := by
  obtain ⟨hid, htr⟩ := hc
  refine ⟨?_, ?_⟩
  · rw [commandStep_messageID, hid]
    exact Nat.mod_eq_of_lt (by omega)
  · rw [(commandStep_single R ty reset what info s).transacted, htr, hid,
      List.take_succ]
    simp only [List.get?_eq_getElem?] at hexp
    rw [hexp]
    rfl

theorem getReaderCapabilities_counted (v : Sample) (R : Reader) (s : Session)
    (hc : Counted 2 s) : Counted 3 (getReaderCapabilities v R s).2 := by
  obtain ⟨hid, htr⟩ := hc
  refine ⟨?_, ?_⟩
  · rw [getReaderCapabilities_messageID, hid]; rfl
  · rw [(getReaderCapabilities_single v R s).transacted, htr, hid]
    rfl

theorem forwardSteps_counted (v : Sample) (R : Reader) (fuel : Nat) :
    ∀ i st, (forwardSteps v R fuel).get? i = some st → ∀ s r,
      Counted (idsBefore (1 + i)) s → st s = some r →
      Counted (idsBefore (1 + i + 1)) r.2 := by
  intro i st hst s r hc hr
  unfold forwardSteps at hst
  match i, hst, hc with
  | 0, hst, hc =>
    simp at hst; subst hst; simp at hr; subst hr
    have hc0 : Counted 0 s := hc
    refine ⟨?_, ?_⟩
    · rw [checkConnectionStatus_messageID]; exact hc0.1
    · rw [commandsTransacted_extends ((checkConnectionStatus_single R s).extends
        output_ne_transact (by intro c n h; cases h))]
      exact hc0.2
  | 1, hst, hc =>
    simp at hst; subst hst; simp at hr; subst hr
    exact commandStep_counted R _ _ _ _ s 0 (by decide) hc rfl
  | 2, hst, hc =>
    simp at hst; subst hst; simp at hr; subst hr
    exact commandStep_counted R _ _ _ _ s 1 (by decide) hc rfl
  | 3, hst, hc =>
    simp at hst; subst hst; simp at hr; subst hr
    exact getReaderCapabilities_counted v R s hc
  | 4, hst, hc =>
    simp at hst; subst hst; simp at hr; subst hr
    exact commandStep_counted R _ _ _ _ s 3 (by decide) hc rfl
  | 5, hst, hc =>
    simp at hst; subst hst; simp at hr; subst hr
    exact commandStep_counted R _ _ _ _ s 4 (by decide) hc rfl
  | 6, hst, hc =>
    simp at hst; subst hst; simp at hr; subst hr
    exact commandStep_counted R _ _ _ _ s 5 (by decide) hc rfl
  | 7, hst, hc =>
    simp at hst; subst hst; simp at hr; subst hr
    exact commandStep_counted R _ _ _ _ s 6 (by decide) hc rfl
  | 8, hst, hc =>
    simp at hst; subst hst; simp at hr; subst hr
    exact commandStep_counted R _ _ _ _ s 7 (by decide) hc rfl
  | 9, hst, hc =>
    simp at hst; subst hst; simp at hr; subst hr
    exact commandStep_counted R _ _ _ _ s 8 (by decide) hc rfl
  | 10, hst, hc =>
    simp at hst; subst hst
    have hc9 : Counted 9 s := hc
    have hext := (awaitAndPrintReport_extends (P := fun e => ∀ c n, e ≠ .transact c n)
      v R fuel _ s r output_ne_transact (by intro c n h; cases h)
      (by intro c n h; cases h) hr).2
    refine ⟨?_, ?_⟩
    · rw [awaitAndPrintReport_messageID v R fuel _ s r hr]; exact hc9.1
    · rw [commandsTransacted_extends hext]; exact hc9.2
  | 11, hst, hc =>
    simp at hst; subst hst; simp at hr; subst hr
    exact commandStep_counted R _ _ _ _ s 9 (by decide) hc rfl
  | n + 12, hst, _ => simp at hst

theorem forwardCommands_ids (n : Nat) (hn : n ≤ 10) :
    (forwardCommands.take n).map (fun c => c.messageID) = List.range n := by
  interval_cases n <;> rfl

theorem teardown_transacted (s : Session) :
    commandsTransacted (teardown s).trace = commandsTransacted s.trace := by
  obtain ⟨out, hout, hoo⟩ := teardown_trace s
  rw [hout]
  simp only [commandsTransacted_append, commandsTransacted_outputs out hoo]
  simp [commandsTransacted]

theorem connected_counted (host : String) (verbose : Int) :
    Counted 0 (connected host (Session.new verbose)) := by
  refine ⟨rfl, ?_⟩
  simp only [connected, logs_trace, commandsTransacted_append]
  rw [commandsTransacted_outputs _ (whenVerbose_output _ _ (by simp [Event.isOutput])),
    commandsTransacted_outputs _ (whenVerbose_output _ _ (by simp [Event.isOutput]))]
  simp [commandsTransacted, Session.new]

theorem cleanup_ids (R : Reader) (n : Nat) (hn : n ≤ 10) (t : Session)
    (hc : Counted n t) :
    commandsTransacted (teardown (bestEffortCleanup R t)).trace
      = forwardCommands.take n ++ [⟨.SET_READER_CONFIG, n, true⟩] ∧
    (commandsTransacted (teardown (bestEffortCleanup R t)).trace).map
        (fun c => c.messageID) = List.range (n + 1) := by
  have h : commandsTransacted (teardown (bestEffortCleanup R t)).trace
      = forwardCommands.take n ++ [⟨.SET_READER_CONFIG, n, true⟩] := by
    rw [teardown_transacted, (bestEffortCleanup_single R t).transacted, hc.2]
    simp [cleanupCommand, hc.1]
  refine ⟨h, ?_⟩
  rw [h, List.map_append, forwardCommands_ids n hn, List.range_succ]
  rfl

theorem idsBefore_le (j : Nat) (hj : j ≤ 12) : idsBefore (j + 1) ≤ 10 := by
  unfold idsBefore
  split
  · omega
  · split <;> omega

/-- The identifiers of the commands the step functions compose.  In a run
of a new session the counter starts at 0; each of the ten step functions
gives its command the current value of the counter, advances the counter
by one and transacts that one command.  The commands transacted in the
run therefore carry the identifiers 0, 1, 2, ... in order, and a run that
returns 0 transacts eleven commands, the ten forward commands and the
final factory reset, with the identifiers 0 to 10.  The poll of
docsample3's monitor loop is sent, not transacted, and is not among
them. -/
theorem transacted_ids_count_up (v : Sample) (R : Reader) (fuel : Nat)
    (host : String) (verbose : Int) (r : Int × Session)
    (hrun : run v R fuel host (Session.new verbose) = some r) :
    (Session.new verbose).m_messageID = 0 ∧
    (∀ p ∈ commandSteps v R, ∀ s : Session,
      (p.1 s).messageID = s.m_messageID ∧
      (p.2 s).2.m_messageID = (s.m_messageID + 1) % 2 ^ 32 ∧
      commandsTransacted (p.2 s).2.trace = commandsTransacted s.trace ++ [p.1 s]) ∧
    (commandsTransacted r.2.trace).map (fun c => c.messageID)
      = List.range (commandsTransacted r.2.trace).length ∧
    (r.1 = 0 → commandsTransacted r.2.trace
      = forwardCommands ++ [⟨.SET_READER_CONFIG, 10, true⟩]) := by
  refine ⟨rfl, ?_, ?_⟩
  · intro p hp s
    simp only [commandSteps, List.mem_cons, List.mem_singleton, List.not_mem_nil,
      or_false] at hp
    rcases hp with rfl | rfl | rfl | rfl | rfl | rfl | rfl | rfl | rfl | rfl
    all_goals first
      | exact ⟨rfl, commandStep_messageID _ _ _ _ _ _,
          (commandStep_single _ _ _ _ _ _).transacted⟩
      | exact ⟨rfl, getReaderCapabilities_messageID _ _ _,
          (getReaderCapabilities_single _ _ _).transacted⟩
  · have key : ∀ (n : Nat) (tr : List Command),
        tr.map (fun c => c.messageID) = List.range n →
        tr.map (fun c => c.messageID) = List.range tr.length := by
      intro n tr h
      have hl : tr.length = n := by
        have := congrArg List.length h
        simpa using this
      rw [hl]; exact h
    by_cases hreg : R.typeRegistry = true
    swap
    · simp [run, hreg] at hrun
      subst hrun
      simp [commandsTransacted, Session.new]
    by_cases hconn : R.connection = true
    swap
    · simp [run, hreg, hconn] at hrun
      subst hrun
      simp [commandsTransacted, Session.new]
    by_cases hopen : R.openConnectionToReader = 0
    swap
    · have hopen' : ¬ (0 = R.openConnectionToReader) := fun h => hopen h.symm
      simp only [run, hreg, hconn, hopen', Bool.true_eq_false, if_false, ne_eq,
        not_false_eq_true, if_true, Option.some.injEq] at hrun
      subst hrun
      have hv : commandsTransacted (whenVerbose (Session.new verbose).m_Verbose
          [.printf ("INFO: Connecting to " ++ host ++ "....\n")]) = [] :=
        commandsTransacted_outputs _ (whenVerbose_output _ _ (by simp [Event.isOutput]))
      simp [commandsTransacted_append, hv]
      simp [commandsTransacted, Session.new]
    rw [run_eq v R fuel host _ hreg hconn hopen] at hrun
    have hinv := firstFailure_inv (fun k s => Counted (idsBefore k) s)
      (forwardSteps v R fuel) 1 (connected host (Session.new verbose))
      (forwardSteps_counted v R fuel) (connected_counted host verbose)
    have hrange := forwardOutcome_range v R fuel (connected host (Session.new verbose))
    unfold forwardOutcome at hrun hrange
    revert hinv hrun hrange
    cases firstFailure (forwardSteps v R fuel) 1 (connected host (Session.new verbose)) with
    | stuck => intro hrun; simp [afterOutcome] at hrun
    | failed j t =>
      intro hrun hinv hrange
      obtain ⟨h1, h12⟩ := hrange j t rfl
      simp only [afterOutcome, Option.map_some', Option.some.injEq] at hrun
      subst hrun
      simp only [] at hinv ⊢
      have hle := idsBefore_le j h12
      refine ⟨?_, ?_⟩
      · by_cases hj : j ≤ 2
        · simp only [hj, if_true]
          rw [teardown_transacted, hinv.2]
          exact key _ _ (forwardCommands_ids _ hle)
        · simp only [hj, if_false]
          exact key _ _ (cleanup_ids R _ hle t hinv).2
      · intro h0
        have : (j : Int) = 0 := h0
        omega
    | completed t =>
      intro hrun hinv _
      simp only [afterOutcome, Option.map_some', Option.some.injEq] at hrun
      subst hrun
      have hc : Counted 10 t := hinv
      have := cleanup_ids R 10 (le_refl _) t hc
      exact ⟨key _ _ this.2, fun _ => this.1⟩

set_option maxRecDepth 1000000 in
/-- The transacted commands of a run of docsample5 in which everything
works. -/
theorem transacted_ids_count_up_witness :
    ∃ r, run .docsample5 goodReader 5 "reader" (Session.new 0) = some r ∧
      (commandsTransacted r.2.trace).map (fun c => c.messageID)
        = List.range (commandsTransacted r.2.trace).length ∧
      commandsTransacted r.2.trace
        = forwardCommands ++ [⟨.SET_READER_CONFIG, 10, true⟩] := by
  have hsome : (run .docsample5 goodReader 5 "reader" (Session.new 0)).isSome = true := by
    decide!
  have hzero : (run .docsample5 goodReader 5 "reader" (Session.new 0)).map Prod.fst
      = some 0 := by decide!
  obtain ⟨r, hr⟩ := Option.isSome_iff_exists.1 hsome
  have h := transacted_ids_count_up .docsample5 goodReader 5 "reader" 0 r hr
  refine ⟨r, hr, h.2.2.1, h.2.2.2 ?_⟩
  rw [hr] at hzero
  simpa using hzero

set_option maxRecDepth 1000000 in
/-- C12 fails on the code. In a run of docsample3 in which everything
works and the monitor loop polls once, twelve commands are composed and
the run returns 0.  The tenth of them, the GET_REPORT poll, carries the
identifier 0 and not 9, so that two commands of the run share the
identifier 0, and STOP_ROSPEC, the eleventh, carries 9 and not 10.  In
docsample5, whose loop does not poll, the eleven commands carry 0 to 10. -/
theorem composed_ids_do_not_count_up :
    (run .docsample3 goodReader 5 "reader" (Session.new 0)).map
        (fun r => (r.1, (commandsSent r.2.trace).map (fun c => c.messageID)))
      = some (0, [0, 1, 2, 3, 4, 5, 6, 7, 8, 0, 9, 10]) ∧
    (run .docsample3 goodReader 5 "reader" (Session.new 0)).map
        (fun r => (commandsSent r.2.trace).get? 9) = some (some getReportCommand) ∧
    (run .docsample3 goodReader 5 "reader" (Session.new 0)).map
        (fun r => (commandsSent r.2.trace).get? 10)
      = some (some ⟨.STOP_ROSPEC, 9, false⟩) ∧
    (run .docsample3 goodReader 5 "reader" (Session.new 0)).map
        (fun r => decide ((commandsSent r.2.trace).map (fun c => c.messageID)).Nodup)
      = some false ∧
    (run .docsample5 goodReader 5 "reader" (Session.new 0)).map
        (fun r => (r.1, (commandsSent r.2.trace).map (fun c => c.messageID)))
      = some (0, List.range 11) := by
  decide!


/-! ## The connection-status check -/

/-- C21. checkConnectionStatus returns 0 exactly when its receive with the
10-second limit yields a message whose type is READER_EVENT_NOTIFICATION,
which carries notification data holding a ConnectionAttemptEvent with
status Success; in every other case it returns -1. -/
theorem checkConnectionStatus_zero_iff (R : Reader) (s : Session) :
    ((checkConnectionStatus R s).1 = 0 ↔
      ∃ m d e, R.recvMessage s.ioCount 10000 = .ok m ∧
        m.m_pType = .READER_EVENT_NOTIFICATION ∧
        m.readerEventNotificationData = some d ∧
        d.connectionAttemptEvent = some e ∧
        e.status = ConnectionAttemptStatusType_Success) ∧
    ((checkConnectionStatus R s).1 ≠ 0 → (checkConnectionStatus R s).1 = -1) ∧
    (∀ err, R.recvMessage s.ioCount 10000 = .error err →
      (checkConnectionStatus R s).1 = -1) := by
  have key : ∀ pm : Option Message,
      ((connectionStatusResult s.m_Verbose pm).1 = 0 ↔
        ∃ m d e, pm = some m ∧ m.m_pType = .READER_EVENT_NOTIFICATION ∧
          m.readerEventNotificationData = some d ∧
          d.connectionAttemptEvent = some e ∧
          e.status = ConnectionAttemptStatusType_Success) ∧
      ((connectionStatusResult s.m_Verbose pm).1 ≠ 0 →
        (connectionStatusResult s.m_Verbose pm).1 = -1) := by
    intro pm
    unfold connectionStatusResult
    cases pm with
    | none => simp
    | some m =>
      by_cases ht : m.m_pType = .READER_EVENT_NOTIFICATION
      swap
      · have ht' : ¬ (MsgType.READER_EVENT_NOTIFICATION = m.m_pType) := fun h => ht h.symm
        simp [ht, ht']
      cases hd : m.readerEventNotificationData with
      | none => simp [ht, hd]
      | some d =>
        cases he : d.connectionAttemptEvent with
        | none => simp [ht, hd, he]
        | some e =>
          by_cases hs : e.status = ConnectionAttemptStatusType_Success
          · simp [ht, hd, he, hs]
          · have hs' : ¬ (ConnectionAttemptStatusType_Success = e.status) :=
              fun h => hs h.symm
            simp [ht, hd, he, hs, hs']
  have hrecv : ∀ m, (recvMessage R 10000 s).1 = some m ↔
      R.recvMessage s.ioCount 10000 = .ok m := by
    intro m
    unfold recvMessage recvResult
    cases R.recvMessage s.ioCount 10000 <;> simp
  have hval : (checkConnectionStatus R s).1
      = (connectionStatusResult s.m_Verbose (recvMessage R 10000 s).1).1 := rfl
  rw [hval]
  refine ⟨?_, (key _).2, ?_⟩
  · rw [(key _).1]
    constructor
    · rintro ⟨m, d, e, h, rest⟩
      exact ⟨m, d, e, (hrecv m).1 h, rest⟩
    · rintro ⟨m, d, e, h, rest⟩
      exact ⟨m, d, e, (hrecv m).2 h, rest⟩
  · intro err herr
    have : (recvMessage R 10000 s).1 = none := by
      simp [recvMessage, recvResult, herr]
    rw [this]
    rfl

/-! ## Diagnostics on failure -/

set_option maxRecDepth 1000000 in
/-- C22 fails on the code. When the capabilities response has a successful
status but names another manufacturer, or carries no general device
capabilities, getReaderCapabilities returns -1 and has printed nothing: in
both samples the only event of the call is the transaction itself. -/
theorem getReaderCapabilities_fails_silently :
    (getReaderCapabilities .docsample3 foreignReader (Session.new 0)).1 = -1 ∧
    (getReaderCapabilities .docsample3 foreignReader (Session.new 0)).2.trace
      = [.transact ⟨.GET_READER_CAPABILITIES, 0, false⟩ 5000] ∧
    (getReaderCapabilities .docsample5 bareReader (Session.new 0)).1 = -1 ∧
    (getReaderCapabilities .docsample5 bareReader (Session.new 0)).2.trace
      = [.transact ⟨.GET_READER_CAPABILITIES, 0, false⟩ 5000] ∧
    printedLines (getReaderCapabilities .docsample3 bareReader (Session.new 1)).2.trace
      = [] ∧
    (run .docsample3 foreignReader 5 "reader" (Session.new 0)).map
        (fun r => (r.1, printedLines r.2.trace)) = some (4, []) := by
  decide!

/-! ## The access command of docsample5 -/

theorem password_halves (n : Nat) (h : n < 2 ^ 32) :
    ((n >>> 16) &&& 0x0000ffff) * 65536 + (n &&& 0x0000ffff) = n ∧
    (n >>> 16) &&& 0x0000ffff = n / 65536 ∧ n &&& 0x0000ffff = n % 65536 := by
  have e1 : n &&& 0x0000ffff = n % 65536 := Nat.and_pow_two_sub_one_eq_mod n 16
  have e2 : (n >>> 16) &&& 0x0000ffff = (n >>> 16) % 65536 :=
    Nat.and_pow_two_sub_one_eq_mod _ 16
  have e3 : n >>> 16 = n / 65536 := Nat.shiftRight_eq_div_pow n 16
  rw [e1, e2, e3]
  refine ⟨?_, ?_, rfl⟩
  · have : n / 65536 < 65536 := by omega
    rw [Nat.mod_eq_of_lt this]; omega
  · have : n / 65536 < 65536 := by omega
    exact Nat.mod_eq_of_lt this

/-- C26. In scenario 1 the access command of docsample5 holds exactly one
operation: a write (OpSpecID 10) to memory bank 0 at word pointer 2 with
the current password as access password, whose data are two 16-bit words,
the high half and then the low half of the 32-bit new password, so that
word0 * 65536 + word1 is the new password. -/
theorem set_password_writes_two_halves (s : Session) (rand : Nat → Nat)
    (hmode : s.m_qtmode = 1) (hnew : s.m_newPassword < 2 ^ 32) :
    ∃ word0 word1,
      Docsample5.accessCommandOpSpecs s rand
        = [.C1G2Write 10 s.m_password 0 2 [word0, word1]] ∧
      word0 = s.m_newPassword / 65536 ∧ word1 = s.m_newPassword % 65536 ∧
      word0 < 65536 ∧ word1 < 65536 ∧
      word0 * 65536 + word1 = s.m_newPassword := by
  obtain ⟨hsum, hhi, hlo⟩ := password_halves s.m_newPassword hnew
  refine ⟨(s.m_newPassword >>> 16) &&& 0x0000ffff, s.m_newPassword &&& 0x0000ffff,
    ?_, hhi, hlo, ?_, ?_, hsum⟩
  · simp only [Docsample5.accessCommandOpSpecs, hmode]
  · rw [hhi]; omega
  · rw [hlo]; omega

/-- C26 for the current password 0x01020304 and the new password
0xDEADBEEF: the words written are 0xDEAD and 0xBEEF. -/
theorem set_password_writes_two_halves_witness :
    Docsample5.accessCommandOpSpecs (scenarioSession 1 0x01020304 0xDEADBEEF) (fun _ => 0)
      = [.C1G2Write 10 0x01020304 0 2 [0xDEAD, 0xBEEF]] := by
  obtain ⟨w0, w1, h, h0, h1, _⟩ := set_password_writes_two_halves
    (scenarioSession 1 0x01020304 0xDEADBEEF) (fun _ => 0) rfl (by decide)
  rw [h, h0, h1]
  rfl

/-- C29 fails on the code. In scenario 2 the access command holds three
read operations with the OpSpecIDs 2, 2 and 3: the reads of the TID and of
the public EPC memory share the OpSpecID 2.  In every other scenario the
OpSpecIDs are pairwise distinct, and every scenario has at least one
operation. -/
theorem scenario_two_repeats_opSpecID :
    (Docsample5.accessCommandOpSpecs (scenarioSession 2 0 0) (fun _ => 0)).map
        AccessCommandOpSpec.opSpecID = [2, 2, 3] ∧
    Docsample5.accessCommandOpSpecs (scenarioSession 2 0 0) (fun _ => 0)
      = [.C1G2Read 2 0 2 0 6, .C1G2Read 2 0 2 6 6, .C1G2Read 3 0 3 0 32] ∧
    (∀ (s : Session) (rand : Nat → Nat), s.m_qtmode ≠ 2 →
      ((Docsample5.accessCommandOpSpecs s rand).map
        AccessCommandOpSpec.opSpecID).Nodup) ∧
    (∀ (s : Session) (rand : Nat → Nat),
      Docsample5.accessCommandOpSpecs s rand ≠ []) := by
  refine ⟨rfl, rfl, ?_, ?_⟩
  · intro s rand h2
    unfold Docsample5.accessCommandOpSpecs
    split <;> first | exact absurd (by assumption) h2 | simp [AccessCommandOpSpec.opSpecID]
  · intro s rand
    unfold Docsample5.accessCommandOpSpecs
    split <;> simp

/-! ## The GetQTConfig result -/

theorem lookupName_ne_NUL (table : List String) (wild : Nat → List Char)
    (htable : ∀ t ∈ table, ∀ ch ∈ t.toList, ch ≠ NUL)
    (hwild : ∀ n, ∀ ch ∈ wild n, ch ≠ NUL) (i : Nat) :
    ∀ ch ∈ lookupName table wild i, ch ≠ NUL := by
  unfold lookupName
  cases h : table.get? i with
  | none => exact hwild i
  | some t => exact htable t (List.get?_mem h)

theorem dataStrings_ne_NUL : ∀ t ∈ Docsample5.dataStrings, ∀ ch ∈ t.toList, ch ≠ NUL := by
  decide

theorem rangeStrings_ne_NUL : ∀ t ∈ Docsample5.rangeStrings, ∀ ch ∈ t.toList, ch ≠ NUL := by
  decide

theorem getQTText_ne_NUL (startStr : List Char) (wild : Nat → List Char)
    (r : ImpinjGetQTConfigOpSpecResult) (hstart : ∀ ch ∈ startStr, ch ≠ NUL)
    (hwild : ∀ n, ∀ ch ∈ wild n, ch ≠ NUL) :
    ∀ ch ∈ getQTText startStr wild r, ch ≠ NUL := by
  unfold getQTText
  refine ne_NUL_append _ _ (ne_NUL_append _ _ hstart
    (ne_NUL_append _ _ (ne_NUL_append _ _ (by decide) (fmtD_ne_NUL _)) (by decide))) ?_
  split
  · exact ne_NUL_append _ _ (ne_NUL_append _ _ (ne_NUL_append _ _
      (ne_NUL_append _ _ (by decide)
        (lookupName_ne_NUL _ _ dataStrings_ne_NUL hwild _)) (by decide))
      (lookupName_ne_NUL _ _ rangeStrings_ne_NUL hwild _)) (by decide)
  · simp

/-- The cursor of formatOneGetQTConfigResult before the final terminator,
from a cursor that has put `T0`. -/
theorem getQT_filled (buf buflen : Int) (r : ImpinjGetQTConfigOpSpecResult)
    (startStr : List Char) (wild : Nat → List Char) (T0 : List Char) (c : Cursor)
    (hint : buflen < 2 ^ 31) (h : Filled buf buflen T0 c)
    (hroom : (T0.length : Int) + (getQTText startStr wild r).length + 1 ≤ buflen) :
    ∃ c1, (Docsample5.formatOneGetQTConfigResult r c.mem c.p c.bufsize startStr wild)
        = (c1.mem.write (c.p + c.bufsize - 1) NUL, c.bufsize - c1.bufsize) ∧
      Filled buf buflen (T0 ++ getQTText startStr wild r) c1 ∧
      Terminated buf (T0 ++ getQTText startStr wild r) c1 := by
  unfold getQTText at hroom ⊢
  simp only [Docsample5.formatOneGetQTConfigResult]
  have hc : ({ mem := c.mem, p := c.p, bufsize := c.bufsize } : Cursor) = c := rfl
  rw [hc]
  simp only [List.length_append] at hroom
  push_cast at hroom
  obtain ⟨hf0, _⟩ := emit_filled buf buflen T0 startStr c hint h (by omega)
  obtain ⟨hf1, ht1⟩ := emit_filled buf buflen _
    ("result=".toList ++ fmtD r.result ++ [' ']) _ hint hf0
    (by simp only [List.length_append]; push_cast; omega)
  by_cases hs : ImpinjGetQTConfigResultType_Success = r.result
  · simp only [hs, if_true] at hroom ⊢
    simp only [List.length_append] at hroom
    push_cast at hroom
    obtain ⟨hf2, ht2⟩ := emit_filled buf buflen _
      ("data=".toList ++ lookupName Docsample5.dataStrings wild r.dataProfile ++
        " range=".toList ++ lookupName Docsample5.rangeStrings wild r.accessRange ++ ['\n'])
      _ hint hf1
      (by simp only [List.length_append]; push_cast; omega)
    rw [List.append_assoc, List.append_assoc] at hf2 ht2
    rw [← List.append_assoc startStr] at hf2 ht2
    exact ⟨_, rfl, hf2, ht2⟩
  · simp only [hs, if_false, List.append_nil] at hroom ⊢
    rw [List.append_assoc] at hf1 ht1
    exact ⟨_, rfl, hf1, ht1⟩

/-- C24. With a buffer that is large enough, formatOneGetQTConfigResult
leaves the start string and the result code, followed exactly for the
result Success by "data=<name> range=<name>" and a newline, and returns
the length of that text.  The names are the entries of the tables
[Unknown, Private, Public] and [Unknown, Normal, Short] at the raw
ordinals; an ordinal is inside its table exactly when it is at most 2, and
for a larger one the formatter prints whatever lies behind the table: the
ordinal is neither checked nor clamped. -/
theorem formatOneGetQTConfigResult_names (r : ImpinjGetQTConfigOpSpecResult)
    (init : Int → Char) (buf buflen : Int) (startStr : List Char)
    (wild : Nat → List Char) (hint : buflen < 2 ^ 31)
    (hstart : ∀ ch ∈ startStr, ch ≠ NUL) (hwild : ∀ n, ∀ ch ∈ wild n, ch ≠ NUL) :
    (((getQTText startStr wild r).length + 1 : Nat) ≤ buflen →
      cstr (Docsample5.formatOneGetQTConfigResult r (Mem.fresh init) buf buflen
        startStr wild).1.cell buflen.toNat buf = getQTText startStr wild r ∧
      (Docsample5.formatOneGetQTConfigResult r (Mem.fresh init) buf buflen
        startStr wild).2 = (getQTText startStr wild r).length) ∧
    (r.result = ImpinjGetQTConfigResultType_Success →
      getQTText startStr wild r
        = startStr ++ "result=0 data=".toList ++
          lookupName Docsample5.dataStrings wild r.dataProfile ++ " range=".toList ++
          lookupName Docsample5.rangeStrings wild r.accessRange ++ ['\n']) ∧
    (r.result ≠ ImpinjGetQTConfigResultType_Success →
      getQTText startStr wild r = startStr ++ "result=".toList ++ fmtD r.result ++ [' ']) ∧
    (∀ i, (Docsample5.dataStrings.get? i).isSome = true ↔ i ≤ 2) ∧
    (∀ i, (Docsample5.rangeStrings.get? i).isSome = true ↔ i ≤ 2) ∧
    (List.map (lookupName Docsample5.dataStrings wild) [0, 1, 2]
      = ["Unknown".toList, "Private".toList, "Public".toList]) ∧
    (List.map (lookupName Docsample5.rangeStrings wild) [0, 1, 2]
      = ["Unknown".toList, "Normal".toList, "Short".toList]) ∧
    (∀ i, 2 < i → lookupName Docsample5.dataStrings wild i = wild i ∧
      lookupName Docsample5.rangeStrings wild i = wild i) := by
  have hget : ∀ (tbl : List String), tbl.length = 3 →
      ∀ i, (tbl.get? i).isSome = true ↔ i ≤ 2 := by
    intro tbl hl i
    rw [List.get?_eq_getElem?, Option.isSome_iff_exists]
    constructor
    · rintro ⟨a, ha⟩
      have := (List.getElem?_eq_some_iff.1 ha).1
      omega
    · intro hi
      exact ⟨tbl[i], List.getElem?_eq_getElem (by omega)⟩
  refine ⟨?_, ?_, ?_, hget _ rfl, hget _ rfl, rfl, rfl, ?_⟩
  · intro hroom
    obtain ⟨c1, heq, hf, ht⟩ := getQT_filled buf buflen r startStr wild []
      { mem := Mem.fresh init, p := buf, bufsize := buflen } hint
      (filled_start init buf buflen)
      (by simp only [List.length_nil]; push_cast at hroom ⊢; omega)
    simp only [List.nil_append] at hf ht
    simp only [] at heq
    rw [heq]
    refine ⟨final_text buf buflen _ _ hf ht (by push_cast at hroom ⊢; omega)
      (getQTText_ne_NUL startStr wild r hstart hwild), ?_⟩
    show buflen - c1.bufsize = _
    rw [hf.size_eq]; omega
  · intro hs
    have hs' : ImpinjGetQTConfigResultType_Success = r.result := hs.symm
    have h0 : fmtD ImpinjGetQTConfigResultType_Success = ['0'] := by decide
    simp only [getQTText, hs', if_true]
    rw [hs, h0]
    simp
  · intro hs
    have hs' : ¬ (ImpinjGetQTConfigResultType_Success = r.result) := fun h => hs h.symm
    simp [getQTText, hs']
  · intro i hi
    have h1 : Docsample5.dataStrings.get? i = none := by
      rw [List.get?_eq_getElem?]
      exact List.getElem?_eq_none (by simp [Docsample5.dataStrings]; omega)
    have h2 : Docsample5.rangeStrings.get? i = none := by
      rw [List.get?_eq_getElem?]
      exact List.getElem?_eq_none (by simp [Docsample5.rangeStrings]; omega)
    unfold lookupName
    rw [h1, h2]
    exact ⟨rfl, rfl⟩

set_option maxRecDepth 1000000 in
/-- C24 for a successful result with the ordinals 1 and 2 behind the start
string of printOneTagReportData, and for a failed result. -/
theorem formatOneGetQTConfigResult_names_witness :
    cstr (Docsample5.formatOneGetQTConfigResult ⟨0, 1, 2⟩ (Mem.fresh (fun _ => 'z')) 0
        1024 "\n    GETQT ".toList (fun _ => "?".toList)).1.cell 1024 0
      = "\n    GETQT result=0 data=Private range=Short\n".toList ∧
    getQTText "\n    GETQT ".toList (fun _ => "?".toList) ⟨3, 1, 2⟩
      = "\n    GETQT result=3 ".toList := by
  obtain ⟨h, _⟩ := formatOneGetQTConfigResult_names ⟨0, 1, 2⟩ (fun _ => 'z') 0 1024
    "\n    GETQT ".toList (fun _ => "?".toList) (by decide) (by decide)
    (fun _ => (by decide : ∀ ch ∈ "?".toList, ch ≠ NUL))
  have e1024 : (1024 : Int).toNat = 1024 := rfl
  refine ⟨?_, by decide⟩
  have := (h (by decide)).1
  rw [e1024] at this
  rw [this]; decide

/-! ## Texts of the remaining docsample5 formatters -/

theorem fmt02X_length_ge (n : Nat) : 2 ≤ (fmt02X n).length := by
  simp only [fmt02X, padZero, List.length_append, List.length_replicate]
  omega

theorem fmt02X_ne_NUL (n : Nat) : ∀ ch ∈ fmt02X n, ch ≠ NUL := by
  intro ch hch
  simp only [fmt02X, padZero, List.mem_append] at hch
  rcases hch with h | h
  · rw [(List.mem_replicate.1 h).2]; decide
  · exact digitsAux_ne_NUL 16 true (by decide) (by decide) _ _ [] (by simp) ch h

theorem loopText_ne_NUL (value : Nat → List Char)
    (hv : ∀ i, ∀ ch ∈ value i, ch ≠ NUL) :
    ∀ n, ∀ ch ∈ loopText value n, ch ≠ NUL := by
  intro n
  induction n with
  | zero => intro ch h; simp [loopText] at h
  | succ n ih =>
    simp only [loopText]
    exact ne_NUL_append _ _ (ne_NUL_append _ _ ih (sepAt_ne_NUL n)) (hv n)

theorem fmt02X_word (w : Nat) (h : w < 65536) : fmt02X w = hexUpper w := by
  have h0 : hexDigit true 0 = '0' := by decide
  unfold hexUpper
  by_cases h256 : w < 256
  · simp only [h256, if_true]
    exact fmt02X_byte w h256
  simp only [h256, if_false]
  unfold fmt02X fmtUnsigned
  have h1 : ¬ (w / 16 = 0) := by omega
  have h2 : ¬ (w / 16 / 16 = 0) := by omega
  by_cases h3 : w / 16 / 16 / 16 = 0
  · have hlt : w < 4096 := by omega
    have e2 : w / 16 / 16 % 16 = w / 256 := by omega
    simp [digitsAux, h1, h2, h3, hlt, e2, padZero]
  · have hge : ¬ (w < 4096) := by omega
    have h4 : w / 16 / 16 / 16 / 16 = 0 := by omega
    have e1 : w / 16 / 16 / 16 % 16 = w / 4096 := by omega
    have e2 : w / 16 / 16 % 16 = w / 256 % 16 := by omega
    simp [digitsAux, h1, h2, h3, h4, hge, e1, e2, padZero]

/-- The hexadecimal loop from a cursor that has put `T0` and is
terminated, for any number of passes. -/
theorem hexLoop_all (buf buflen : Int) (value : Nat → List Char)
    (T0 : List Char) (c : Cursor) (hint : buflen < 2 ^ 31)
    (h : Filled buf buflen T0 c) (hterm : Terminated buf T0 c) (n : Nat)
    (hval : ∀ i, i < n → 2 ≤ (value i).length)
    (hroom : (T0.length : Int) + (loopText value n).length + 1 ≤ buflen) :
    Filled buf buflen (T0 ++ loopText value n) (forLoop n (hexLoopBody value) c) ∧
    Terminated buf (T0 ++ loopText value n) (forLoop n (hexLoopBody value) c) := by
  obtain ⟨hf, ht⟩ := hexLoop_filled buf buflen value T0 c hint h n hval hroom
  refine ⟨hf, ?_⟩
  cases n with
  | zero => simpa [loopText, forLoop] using hterm
  | succ k => exact ht (by omega)

theorem tid_filled (buf buflen : Int) (pTID : ImpinjSerializedTID)
    (startStr : List Char) (T0 : List Char) (c : Cursor)
    (hint : buflen < 2 ^ 31) (h : Filled buf buflen T0 c)
    (hroom : (T0.length : Int) + (tidText startStr pTID).length + 1 ≤ buflen) :
    ∃ c1, Docsample5.formatOneSerializedTID pTID c.mem c.p c.bufsize startStr
        = (c1.mem.write (c.p + c.bufsize - 1) NUL, c.bufsize - c1.bufsize) ∧
      Filled buf buflen (T0 ++ tidText startStr pTID) c1 ∧
      Terminated buf (T0 ++ tidText startStr pTID) c1 := by
  unfold tidText at hroom ⊢
  simp only [Docsample5.formatOneSerializedTID]
  have hc : ({ mem := c.mem, p := c.p, bufsize := c.bufsize } : Cursor) = c := rfl
  rw [hc]
  simp only [List.length_append] at hroom
  push_cast at hroom
  obtain ⟨hf0, ht0⟩ := emit_filled buf buflen T0 startStr c hint h (by omega)
  obtain ⟨hf1, ht1⟩ := hexLoop_all buf buflen (fun i => fmt02X (pTID.tid.getD i 0))
    _ _ hint hf0 ht0 pTID.tid.length (fun i _ => fmt02X_length_ge _)
    (by simp only [List.length_append]; push_cast; omega)
  rw [List.append_assoc] at hf1 ht1
  exact ⟨_, rfl, hf1, ht1⟩

theorem result_filled (buf buflen : Int) (result : Int)
    (startStr : List Char) (T0 : List Char) (c : Cursor)
    (hint : buflen < 2 ^ 31) (h : Filled buf buflen T0 c)
    (hroom : (T0.length : Int) + (resultText startStr result).length + 1 ≤ buflen) :
    ∃ c1, (Docsample5.formatOneWriteResult ⟨result⟩ c.mem c.p c.bufsize startStr
        = (c1.mem.write (c.p + c.bufsize - 1) NUL, c.bufsize - c1.bufsize) ∧
      Docsample5.formatOneSetQTConfigResult ⟨result⟩ c.mem c.p c.bufsize startStr
        = (c1.mem.write (c.p + c.bufsize - 1) NUL, c.bufsize - c1.bufsize)) ∧
      Filled buf buflen (T0 ++ resultText startStr result) c1 ∧
      Terminated buf (T0 ++ resultText startStr result) c1 := by
  unfold resultText at hroom ⊢
  simp only [Docsample5.formatOneWriteResult, Docsample5.formatOneSetQTConfigResult]
  have hc : ({ mem := c.mem, p := c.p, bufsize := c.bufsize } : Cursor) = c := rfl
  rw [hc]
  simp only [List.length_append] at hroom
  push_cast at hroom
  obtain ⟨hf0, _⟩ := emit_filled buf buflen T0 startStr c hint h (by omega)
  obtain ⟨hf1, ht1⟩ := emit_filled buf buflen _
    ("result=".toList ++ fmtD result) _ hint hf0
    (by simp only [List.length_append]; push_cast; omega)
  rw [List.append_assoc] at hf1 ht1
  exact ⟨_, ⟨rfl, rfl⟩, hf1, ht1⟩

theorem read_filled (buf buflen : Int) (r : C1G2ReadOpSpecResult)
    (startStr : List Char) (T0 : List Char) (c : Cursor)
    (hint : buflen < 2 ^ 31) (h : Filled buf buflen T0 c)
    (hw : ∀ w ∈ r.readData, w < 65536)
    (hroom : (T0.length : Int) + (readText5 startStr r).length + 1 ≤ buflen) :
    ∃ c1, Docsample5.formatOneReadResult r c.mem c.p c.bufsize startStr
        = (c1.mem.write (c.p + c.bufsize - 1) NUL, c.bufsize - c1.bufsize) ∧
      Filled buf buflen (T0 ++ readText5 startStr r) c1 ∧
      Terminated buf (T0 ++ readText5 startStr r) c1 := by
  unfold readText5 at hroom ⊢
  simp only [Docsample5.formatOneReadResult]
  have hc : ({ mem := c.mem, p := c.p, bufsize := c.bufsize } : Cursor) = c := rfl
  rw [hc]
  simp only [List.length_append] at hroom
  push_cast at hroom
  obtain ⟨hf0, _⟩ := emit_filled buf buflen T0 startStr c hint h (by omega)
  obtain ⟨hf1, ht1⟩ := emit_filled buf buflen _
    ("result=".toList ++ fmtD r.result) _ hint hf0
    (by simp only [List.length_append]; push_cast; omega)
  by_cases hs : r.result = C1G2ReadResultType_Success
  · simp only [hs, if_true] at hroom hf1 ht1 ⊢
    simp only [List.length_append] at hroom
    push_cast at hroom
    obtain ⟨hf2, ht2⟩ := emit_filled buf buflen _ " Data=".toList _ hint hf1
      (by simp only [List.length_append]; push_cast; omega)
    obtain ⟨hf3, ht3⟩ := words_filled buf buflen r.readData _ _ hint hf2 ht2 hw
      (by simp only [List.length_append]; push_cast; omega)
    have hT : T0 ++ startStr ++ ("result=".toList ++ fmtD C1G2ReadResultType_Success) ++
        " Data=".toList ++ joinWords r.readData
        = T0 ++ (startStr ++ ("result=".toList ++ fmtD C1G2ReadResultType_Success) ++
          (" Data=".toList ++ joinWords r.readData)) := by
      simp only [List.append_assoc]
    rw [hT] at hf3 ht3
    exact ⟨_, rfl, hf3, ht3⟩
  · simp only [hs, if_false, List.append_nil] at hroom ⊢
    rw [List.append_assoc] at hf1 ht1
    exact ⟨_, rfl, hf1, ht1⟩

theorem epcBody_ne_NUL (pEPCParameter : Option EPCParameter) :
    ∀ ch ∈ epcBody pEPCParameter, ch ≠ NUL := by
  unfold epcBody
  cases pEPCParameter with
  | none => decide
  | some param =>
    simp only []
    rcases hv : epcValue param with ⟨pv, n⟩
    cases pv with
    | none =>
      exact (by decide : ∀ ch ∈ "---unknown-epc-data-type---".toList, ch ≠ NUL)
    | some pValue => exact loopText_ne_NUL _ (fun i => fmt02X_ne_NUL _) n

theorem epc_filled (buf buflen : Int) (pEPCParameter : Option EPCParameter)
    (startStr : List Char) (T0 : List Char) (c : Cursor)
    (hint : buflen < 2 ^ 31) (h : Filled buf buflen T0 c)
    (hroom : (T0.length : Int) + (startStr ++ epcBody pEPCParameter).length + 1 ≤ buflen) :
    ∃ c1, Docsample5.formatOneEPC pEPCParameter c.mem c.p c.bufsize startStr
        = (c1.mem.write (c.p + c.bufsize - 1) NUL, c.bufsize - c1.bufsize) ∧
      Filled buf buflen (T0 ++ (startStr ++ epcBody pEPCParameter)) c1 ∧
      Terminated buf (T0 ++ (startStr ++ epcBody pEPCParameter)) c1 := by
  unfold epcBody at hroom ⊢
  simp only [Docsample5.formatOneEPC]
  have hc : ({ mem := c.mem, p := c.p, bufsize := c.bufsize } : Cursor) = c := rfl
  rw [hc]
  simp only [List.length_append] at hroom
  push_cast at hroom
  obtain ⟨hf0, ht0⟩ := emit_filled buf buflen T0 startStr c hint h (by omega)
  cases pEPCParameter with
  | none =>
    simp only [] at hroom ⊢
    obtain ⟨hf1, ht1⟩ := emit_filled buf buflen _ "--null epc---".toList _ hint hf0
      (by simp only [List.length_append]; push_cast; omega)
    rw [List.append_assoc] at hf1 ht1
    exact ⟨_, rfl, hf1, ht1⟩
  | some param =>
    simp only [] at hroom ⊢
    rcases hv : epcValue param with ⟨pv, n⟩
    rw [hv] at hroom
    cases pv with
    | none =>
      simp only [] at hroom ⊢
      obtain ⟨hf1, ht1⟩ := emit_filled buf buflen _
        "---unknown-epc-data-type---".toList _ hint hf0
        (by simp only [List.length_append]; push_cast; omega)
      rw [List.append_assoc] at hf1 ht1
      exact ⟨_, rfl, hf1, ht1⟩
    | some pValue =>
      simp only [] at hroom ⊢
      obtain ⟨hf1, ht1⟩ := hexLoop_all buf buflen (fun i => fmt02X (pValue.getD i 0))
        _ _ hint hf0 ht0 n (fun i _ => fmt02X_length_ge _)
        (by simp only [List.length_append]; push_cast; omega)
      rw [List.append_assoc] at hf1 ht1
      exact ⟨_, rfl, hf1, ht1⟩

/-- C30. With a buffer that is large enough, formatOneSerializedTID leaves
the start string followed by the TID words, each rendered by `%02X`: two
upper-case hexadecimal digits for a word below 0x100, three below 0x1000,
four from there on, with a '-' before every even-indexed word after the
first.  The rendering is not injective: the word sequences 0x12, 0x345
and 0x123, 0x45 both give 12345. -/
theorem formatOneSerializedTID_text (pTID : ImpinjSerializedTID) (init : Int → Char)
    (buf buflen : Int) (startStr : List Char) (hint : buflen < 2 ^ 31)
    (hstart : ∀ ch ∈ startStr, ch ≠ NUL) :
    (((tidText startStr pTID).length + 1 : Nat) ≤ buflen →
      cstr (Docsample5.formatOneSerializedTID pTID (Mem.fresh init) buf buflen
        startStr).1.cell buflen.toNat buf = tidText startStr pTID ∧
      (Docsample5.formatOneSerializedTID pTID (Mem.fresh init) buf buflen startStr).2
        = (tidText startStr pTID).length) ∧
    (∀ n, tidText startStr pTID
        = startStr ++ loopText (fun i => fmt02X (pTID.tid.getD i 0)) pTID.tid.length ∧
      loopText (fun i => fmt02X (pTID.tid.getD i 0)) (n + 1)
        = loopText (fun i => fmt02X (pTID.tid.getD i 0)) n ++
          (if 0 < n ∧ n % 2 = 0 then ['-'] else []) ++ fmt02X (pTID.tid.getD n 0)) ∧
    (∀ w, w < 65536 → fmt02X w = hexUpper w ∧
      (hexUpper w).length = if w < 256 then 2 else if w < 4096 then 3 else 4) ∧
    tidText startStr ⟨[0x12, 0x345]⟩ = startStr ++ "12345".toList ∧
    tidText startStr ⟨[0x123, 0x45]⟩ = startStr ++ "12345".toList ∧
    tidText startStr ⟨[0xE280, 0x1105, 0x2000, 0x7]⟩
      = startStr ++ "E2801105-200007".toList := by
  refine ⟨?_, fun n => ⟨rfl, rfl⟩, ?_, ?_, ?_, ?_⟩
  · intro hroom
    obtain ⟨c1, heq, hf, ht⟩ := tid_filled buf buflen pTID startStr []
      { mem := Mem.fresh init, p := buf, bufsize := buflen } hint
      (filled_start init buf buflen)
      (by simp only [List.length_nil]; push_cast at hroom ⊢; omega)
    simp only [List.nil_append] at hf ht
    simp only [] at heq
    rw [heq]
    refine ⟨final_text buf buflen _ _ hf ht (by push_cast at hroom ⊢; omega)
      (ne_NUL_append _ _ hstart (loopText_ne_NUL _ (fun i => fmt02X_ne_NUL _) _)), ?_⟩
    show buflen - c1.bufsize = _
    rw [hf.size_eq]; omega
  · intro w hw
    refine ⟨fmt02X_word w hw, ?_⟩
    unfold hexUpper
    split
    · rfl
    · split <;> rfl
  · have : loopText (fun i => fmt02X (([0x12, 0x345] : List Nat).getD i 0)) 2
        = "12345".toList := by decide
    simp only [tidText, List.length_cons, List.length_nil]
    rw [this]
  · have : loopText (fun i => fmt02X (([0x123, 0x45] : List Nat).getD i 0)) 2
        = "12345".toList := by decide
    simp only [tidText, List.length_cons, List.length_nil]
    rw [this]
  · have : loopText (fun i => fmt02X (([0xE280, 0x1105, 0x2000, 0x7] : List Nat).getD i 0)) 4
        = "E2801105-200007".toList := by decide
    simp only [tidText, List.length_cons, List.length_nil]
    rw [this]

set_option maxRecDepth 1000000 in
/-- C30 in a 64-byte buffer: the two word sequences leave the same text. -/
theorem formatOneSerializedTID_text_witness :
    cstr (Docsample5.formatOneSerializedTID ⟨[0x12, 0x345]⟩ (Mem.fresh (fun _ => 'z')) 0
        64 "T=".toList).1.cell 64 0 = "T=12345".toList ∧
    cstr (Docsample5.formatOneSerializedTID ⟨[0x123, 0x45]⟩ (Mem.fresh (fun _ => 'z')) 0
        64 "T=".toList).1.cell 64 0 = "T=12345".toList := by
  have e64 : (64 : Int).toNat = 64 := rfl
  obtain ⟨h1, _, _, t1, _⟩ := formatOneSerializedTID_text ⟨[0x12, 0x345]⟩ (fun _ => 'z')
    0 64 "T=".toList (by decide) (by decide)
  obtain ⟨h2, _, _, _, t2, _⟩ := formatOneSerializedTID_text ⟨[0x123, 0x45]⟩ (fun _ => 'z')
    0 64 "T=".toList (by decide) (by decide)
  have a := (h1 (by rw [t1]; decide)).1
  have b := (h2 (by rw [t2]; decide)).1
  rw [e64] at a b
  rw [a, b, t1, t2]
  exact ⟨rfl, rfl⟩

/-! ## The line of docsample5 -/

theorem write_last_line (T : List Char) (c : Cursor) (hf : Filled 0 1024 T c)
    (ht : Terminated 0 T c) (hroom : (T.length : Int) + 1 ≤ 1024) (p bufsize : Int)
    (hp : p = T.length) (hb : bufsize = 1024 - T.length) :
    Filled 0 1024 T { mem := c.mem.write 1023 NUL, p := p, bufsize := bufsize } ∧
    Terminated 0 T { mem := c.mem.write 1023 NUL, p := p, bufsize := bufsize } := by
  refine ⟨⟨by simp [hp], by simp [hb], ?_, ?_⟩, ?_⟩
  · intro i hi
    have : ¬ ((0 : Int) + (i : Int) = 1023) := by omega
    simp only [Mem.write, this, if_false]
    exact hf.cells i hi
  · intro q hq
    simp only [Mem.write, List.mem_append, List.mem_singleton] at hq
    rcases hq with h1 | h1
    · exact hf.inside q h1
    · omega
  · unfold Terminated at ht ⊢
    simp only [Mem.write]
    split
    · rfl
    · exact ht

theorem advance_line (T seg : List Char) (l : LineState) (c1 : Cursor)
    (r : Mem × Int)
    (hl : Filled 0 1024 T { mem := l.mem, p := l.ptr, bufsize := l.bufLimit })
    (heq : r = (c1.mem.write (l.ptr + l.bufLimit - 1) NUL, l.bufLimit - c1.bufsize))
    (hf : Filled 0 1024 (T ++ seg) c1) (ht : Terminated 0 (T ++ seg) c1)
    (hroom : ((T ++ seg).length : Int) + 1 ≤ 1024) :
    LineOK (T ++ seg) (l.advance r) := by
  have hp : l.ptr = 0 + (T.length : Int) := hl.p_eq
  have hb : l.bufLimit = 1024 - (T.length : Int) := hl.size_eq
  have hs := hf.size_eq
  have hpos : l.ptr + l.bufLimit - 1 = 1023 := by omega
  subst heq
  rw [hpos]
  unfold LineOK LineState.advance
  exact write_last_line (T ++ seg) c1 hf ht hroom _ _
    (by simp only [List.length_append] at hs ⊢; push_cast at hs ⊢; omega)
    (by simp only [List.length_append] at hs ⊢; push_cast at hs ⊢; omega)

theorem segments_append {α : Type} (f : α → List Char) (xs ys : List α) :
    segments f (xs ++ ys) = segments f xs ++ segments f ys := by
  induction xs with
  | nil => rfl
  | cons x xs ih => simp [segments, ih]

theorem segments_ne_NUL {α : Type} (f : α → List Char)
    (hf : ∀ x, ∀ ch ∈ f x, ch ≠ NUL) :
    ∀ xs : List α, ∀ ch ∈ segments f xs, ch ≠ NUL := by
  intro xs
  induction xs with
  | nil => intro ch h; simp [segments] at h
  | cons x xs ih => exact ne_NUL_append _ _ (hf x) ih

theorem readText5_ne_NUL (startStr : List Char) (r : C1G2ReadOpSpecResult)
    (hstart : ∀ ch ∈ startStr, ch ≠ NUL) : ∀ ch ∈ readText5 startStr r, ch ≠ NUL := by
  unfold readText5
  refine ne_NUL_append _ _ (ne_NUL_append _ _ hstart
    (ne_NUL_append _ _ (by decide) (fmtD_ne_NUL _))) ?_
  split
  · exact ne_NUL_append _ _ (by decide) (joinWords_ne_NUL _)
  · simp

theorem resultText_ne_NUL (startStr : List Char) (result : Int)
    (hstart : ∀ ch ∈ startStr, ch ≠ NUL) : ∀ ch ∈ resultText startStr result, ch ≠ NUL :=
  ne_NUL_append _ _ hstart (ne_NUL_append _ _ (by decide) (fmtD_ne_NUL _))

theorem tidText_ne_NUL (startStr : List Char) (pTID : ImpinjSerializedTID)
    (hstart : ∀ ch ∈ startStr, ch ≠ NUL) : ∀ ch ∈ tidText startStr pTID, ch ≠ NUL :=
  ne_NUL_append _ _ hstart (loopText_ne_NUL _ (fun _ => fmt02X_ne_NUL _) _)

theorem resultSegment_ne_NUL (wild : Nat → List Char)
    (hwild : ∀ n, ∀ ch ∈ wild n, ch ≠ NUL) (r : OpSpecResult) :
    ∀ ch ∈ resultSegment wild r, ch ≠ NUL := by
  cases r with
  | read r => exact readText5_ne_NUL _ r (by decide)
  | write r => exact resultText_ne_NUL _ _ (by decide)
  | setQT r => exact resultText_ne_NUL _ _ (by decide)
  | getQT r => exact getQTText_ne_NUL _ wild r (by decide) hwild
  | other n => intro ch h; simp [resultSegment] at h

theorem customSegment_ne_NUL (c : CustomParameter) :
    ∀ ch ∈ customSegment c, ch ≠ NUL := by
  cases c with
  | serializedTID t => exact tidText_ne_NUL _ t (by decide)
  | other n => intro ch h; simp [customSegment] at h

theorem results_fold (wild : Nat → List Char)
    (f : LineState → OpSpecResult → LineState)
    (hread : ∀ l rr, f l (.read rr) = l.advance
      (Docsample5.formatOneReadResult rr l.mem l.ptr l.bufLimit "\n    READ ".toList))
    (hwrite : ∀ l rr, f l (.write rr) = l.advance
      (Docsample5.formatOneWriteResult rr l.mem l.ptr l.bufLimit "\n    WRITE ".toList))
    (hset : ∀ l rr, f l (.setQT rr) = l.advance
      (Docsample5.formatOneSetQTConfigResult rr l.mem l.ptr l.bufLimit
        "\n    SETQT ".toList))
    (hget : ∀ l rr, f l (.getQT rr) = l.advance
      (Docsample5.formatOneGetQTConfigResult rr l.mem l.ptr l.bufLimit
        "\n    GETQT ".toList wild))
    (hother : ∀ l n, f l (.other n) = l) :
    ∀ (rs : List OpSpecResult) (T : List Char) (l : LineState), LineOK T l →
      (∀ rr, OpSpecResult.read rr ∈ rs → ∀ w ∈ rr.readData, w < 65536) →
      (T.length : Int) + (segments (resultSegment wild) rs).length + 1 ≤ 1024 →
      LineOK (T ++ segments (resultSegment wild) rs) (rs.foldl f l) := by
  intro rs
  induction rs with
  | nil => intro T l hl _ _; simpa [segments] using hl
  | cons x xs ih =>
    intro T l hl hw hroom
    simp only [segments, List.length_append] at hroom
    push_cast at hroom
    simp only [List.foldl_cons, segments, ← List.append_assoc]
    have hstep : LineOK (T ++ resultSegment wild x) (f l x) := by
      cases x with
      | read rr =>
        obtain ⟨c1, heq, hf, ht⟩ := read_filled 0 1024 rr "\n    READ ".toList T
          { mem := l.mem, p := l.ptr, bufsize := l.bufLimit } (by decide) hl.1
          (hw rr (by simp)) (by simp only [resultSegment] at hroom; omega)
        rw [hread]
        exact advance_line T _ l c1 _ hl.1 heq hf ht (by
          simp only [resultSegment, List.length_append] at hroom ⊢
          push_cast at hroom ⊢; omega)
      | write rr =>
        obtain ⟨c1, ⟨heq, _⟩, hf, ht⟩ := result_filled 0 1024 rr.result
          "\n    WRITE ".toList T
          { mem := l.mem, p := l.ptr, bufsize := l.bufLimit } (by decide) hl.1
          (by simp only [resultSegment] at hroom; omega)
        rw [hwrite]
        exact advance_line T _ l c1 _ hl.1 heq hf ht (by
          simp only [resultSegment, List.length_append] at hroom ⊢
          push_cast at hroom ⊢; omega)
      | setQT rr =>
        obtain ⟨c1, ⟨_, heq⟩, hf, ht⟩ := result_filled 0 1024 rr.result
          "\n    SETQT ".toList T
          { mem := l.mem, p := l.ptr, bufsize := l.bufLimit } (by decide) hl.1
          (by simp only [resultSegment] at hroom; omega)
        rw [hset]
        exact advance_line T _ l c1 _ hl.1 heq hf ht (by
          simp only [resultSegment, List.length_append] at hroom ⊢
          push_cast at hroom ⊢; omega)
      | getQT rr =>
        obtain ⟨c1, heq, hf, ht⟩ := getQT_filled 0 1024 rr "\n    GETQT ".toList wild T
          { mem := l.mem, p := l.ptr, bufsize := l.bufLimit } (by decide) hl.1
          (by simp only [resultSegment] at hroom; omega)
        rw [hget]
        exact advance_line T _ l c1 _ hl.1 heq hf ht (by
          simp only [resultSegment, List.length_append] at hroom ⊢
          push_cast at hroom ⊢; omega)
      | other n =>
        rw [hother]
        simpa [resultSegment] using hl
    exact ih _ _ hstep (fun rr hrr => hw rr (by simp [hrr])) (by
      simp only [List.length_append]; push_cast; omega)

theorem custom_fold (f : LineState → CustomParameter → LineState)
    (htid : ∀ l t, f l (.serializedTID t) = l.advance
      (Docsample5.formatOneSerializedTID t l.mem l.ptr l.bufLimit
        "\n    SERIAL-TID ".toList))
    (hother : ∀ l n, f l (.other n) = l) :
    ∀ (cs : List CustomParameter) (T : List Char) (l : LineState), LineOK T l →
      (T.length : Int) + (segments customSegment cs).length + 1 ≤ 1024 →
      LineOK (T ++ segments customSegment cs) (cs.foldl f l) := by
  intro cs
  induction cs with
  | nil => intro T l hl _; simpa [segments] using hl
  | cons x xs ih =>
    intro T l hl hroom
    simp only [segments, List.length_append] at hroom
    push_cast at hroom
    simp only [List.foldl_cons, segments, ← List.append_assoc]
    have hstep : LineOK (T ++ customSegment x) (f l x) := by
      cases x with
      | serializedTID t =>
        obtain ⟨c1, heq, hf, ht⟩ := tid_filled 0 1024 t "\n    SERIAL-TID ".toList T
          { mem := l.mem, p := l.ptr, bufsize := l.bufLimit } (by decide) hl.1
          (by simp only [customSegment] at hroom; omega)
        rw [htid]
        exact advance_line T _ l c1 _ hl.1 heq hf ht (by
          simp only [customSegment, List.length_append] at hroom ⊢
          push_cast at hroom ⊢; omega)
      | other n =>
        rw [hother]
        simpa [customSegment] using hl
    exact ih _ _ hstep (by simp only [List.length_append]; push_cast; omega)

/-- C25. Whenever the whole text fits in the 1024-byte line buffer,
docsample5 prints for a tag report entry the EPC segment with the prefix
"epc=", then one labelled segment for each Read, Write, SetQT and GetQT
result in the order of the results in the record, then one SERIAL-TID
segment for each serialized TID among the custom parameters in their
order, and a newline.  Results and custom parameters of other types
contribute nothing; no recognised one is dropped or moved. -/
theorem printOneTagReportData_line (R : Reader) (t : TagReportData)
    (hw : ∀ rr, OpSpecResult.read rr ∈ t.opSpecResults → ∀ w ∈ rr.readData, w < 65536)
    (hwild : ∀ n, ∀ ch ∈ R.wild n, ch ≠ NUL)
    (hfit : (lineText5 R.wild t).length + 1 ≤ 1024) :
    Docsample5.printOneTagReportData R t
      = String.mk (lineText5 R.wild t ++ "\n".toList) ∧
    lineText5 R.wild t
      = "epc=".toList ++ epcBody t.epcParameter ++
        segments (resultSegment R.wild) t.opSpecResults ++
        segments customSegment t.custom ∧
    (∀ (a b : List OpSpecResult), segments (resultSegment R.wild) (a ++ b)
      = segments (resultSegment R.wild) a ++ segments (resultSegment R.wild) b) ∧
    (∀ (x : OpSpecResult) (xs : List OpSpecResult),
      segments (resultSegment R.wild) (x :: xs)
        = resultSegment R.wild x ++ segments (resultSegment R.wild) xs) ∧
    (∀ (x : CustomParameter) (xs : List CustomParameter),
      segments customSegment (x :: xs) = customSegment x ++ segments customSegment xs) := by
  refine ⟨?_, rfl, segments_append _, fun _ _ => rfl, fun _ _ => rfl⟩
  have hlen : ((lineText5 R.wild t).length : Int) + 1 ≤ 1024 := by exact_mod_cast hfit
  unfold lineText5 at hlen
  simp only [List.length_append] at hlen
  push_cast at hlen
  -- the EPC segment
  obtain ⟨c1, heq, hf1, ht1⟩ := epc_filled 0 1024 t.epcParameter "epc=".toList []
    { mem := Mem.fresh R.stack, p := 0, bufsize := 1024 } (by decide)
    (filled_start R.stack 0 1024)
    (by simp only [List.length_nil, List.length_append]; push_cast; omega)
  have h1 := advance_line [] _
    { mem := Mem.fresh R.stack, ptr := 0, bufLimit := 1024 } c1 _
    (filled_start R.stack 0 1024) heq hf1 ht1
    (by simp only [List.nil_append, List.length_append]; push_cast; omega)
  simp only [List.nil_append] at h1
  have h2 : LineOK ("epc=".toList ++ epcBody t.epcParameter)
      { ({ mem := Mem.fresh R.stack, ptr := 0, bufLimit := 1024 } : LineState).advance
          (Docsample5.formatOneEPC t.epcParameter (Mem.fresh R.stack) 0 1024
            "epc=".toList) with
        mem := (({ mem := Mem.fresh R.stack, ptr := 0, bufLimit := 1024 } :
          LineState).advance (Docsample5.formatOneEPC t.epcParameter
            (Mem.fresh R.stack) 0 1024 "epc=".toList)).mem.write 1023 NUL } :=
    write_last_line _ _ h1.1 h1.2
      (by simp only [List.length_append]; push_cast; omega) _ _
      (h1.1.p_eq.trans (zero_add _)) h1.1.size_eq
  -- the results, then the custom parameters
  have h4 : LineOK (lineText5 R.wild t) (Docsample5.lineBuffer R t) := by
    unfold lineText5 Docsample5.lineBuffer
    refine custom_fold _ ?_ ?_ t.custom _ _ ?_ ?_
    · intro l x; rfl
    · intro l n; rfl
    · refine results_fold R.wild _ ?_ ?_ ?_ ?_ ?_ t.opSpecResults _ _ ?_ hw ?_
      · intro l x; rfl
      · intro l x; rfl
      · intro l x; rfl
      · intro l x; rfl
      · intro l n; rfl
      · exact h2
      · simp only [List.length_append]; push_cast; omega
    · simp only [List.length_append]; push_cast; omega
  have hnn : ∀ ch ∈ lineText5 R.wild t, ch ≠ NUL :=
    ne_NUL_append _ _ (ne_NUL_append _ _
      (ne_NUL_append _ _ (by decide) (epcBody_ne_NUL _))
      (segments_ne_NUL _ (resultSegment_ne_NUL R.wild hwild) _))
      (segments_ne_NUL _ customSegment_ne_NUL _)
  have hcstr : cstr (Docsample5.lineBuffer R t).mem.cell 1024 0 = lineText5 R.wild t := by
    apply cstr_eq
    · exact h4.1.cells
    · exact h4.2
    · exact hnn
    · omega
  unfold Docsample5.printOneTagReportData
  rw [hcstr]

set_option maxRecDepth 1000000 in
/-- C25 for an entry with a read, an unknown, a write and a GetQT result,
an unknown custom parameter and a serialized TID. -/
theorem printOneTagReportData_line_witness :
    Docsample5.printOneTagReportData goodReader fullEntry
      = String.mk (lineText5 goodReader.wild fullEntry ++ "\n".toList) ∧
    lineText5 goodReader.wild fullEntry
      = ("epc=ABCD\n    READ result=0 Data=1234\n    WRITE result=0" ++
          "\n    GETQT result=0 data=Private range=Short\n" ++
          "\n    SERIAL-TID E2801105").toList := by
  have htext : lineText5 goodReader.wild fullEntry
      = ("epc=ABCD\n    READ result=0 Data=1234\n    WRITE result=0" ++
          "\n    GETQT result=0 data=Private range=Short\n" ++
          "\n    SERIAL-TID E2801105").toList := by decide!
  refine ⟨(printOneTagReportData_line goodReader fullEntry ?_ ?_ ?_).1, htext⟩
  · intro rr hrr w hw
    simp only [fullEntry, List.mem_cons, List.not_mem_nil, or_false,
      OpSpecResult.read.injEq] at hrr
    rcases hrr with h | h | h | h
    · subst h
      simp only [List.mem_singleton] at hw
      omega
    · cases h
    · cases h
    · cases h
  · intro n ch h
    simp [goodReader] at h
  · rw [htext]; decide

/-! ## The placeholders of formatOneEPC -/

theorem hexDigit_alphabet : ∀ d, d < 16 → hexDigit true d ∈ hexAlphabet := by
  decide

theorem digitsAux_alphabet :
    ∀ (fuel n : Nat) (acc : List Char), (∀ ch ∈ acc, ch ∈ hexAlphabet) →
      ∀ ch ∈ digitsAux 16 true fuel n acc, ch ∈ hexAlphabet := by
  intro fuel
  induction fuel with
  | zero => intro n acc hacc ch hch; exact hacc ch (by simpa [digitsAux] using hch)
  | succ f ih =>
    intro n acc hacc ch hch
    have hd : hexDigit true (n % 16) ∈ hexAlphabet :=
      hexDigit_alphabet _ (Nat.mod_lt _ (by decide))
    have hacc' : ∀ ch ∈ hexDigit true (n % 16) :: acc, ch ∈ hexAlphabet := by
      intro c hc
      rcases List.mem_cons.1 hc with h | h
      · rw [h]; exact hd
      · exact hacc c h
    simp only [digitsAux] at hch
    split at hch
    · exact hacc' ch hch
    · exact ih _ _ hacc' ch hch

theorem fmt02X_alphabet (n : Nat) : ∀ ch ∈ fmt02X n, ch ∈ hexAlphabet := by
  intro ch hch
  simp only [fmt02X, padZero, List.mem_append] at hch
  rcases hch with h | h
  · rw [(List.mem_replicate.1 h).2]; decide
  · exact digitsAux_alphabet _ _ [] (by simp) ch h

theorem loopText_alphabet (value : Nat → Nat) :
    ∀ n, ∀ ch ∈ loopText (fun i => fmt02X (value i)) n, ch ∈ hexAlphabet := by
  intro n
  induction n with
  | zero => intro ch h; simp [loopText] at h
  | succ n ih =>
    intro ch hch
    simp only [loopText, List.mem_append] at hch
    rcases hch with (h | h) | h
    · exact ih ch h
    · unfold sepAt at h
      split at h
      · simp at h; subst h; decide
      · simp at h
    · exact fmt02X_alphabet _ ch h

theorem loopText_not_placeholder (value : Nat → Nat) (n : Nat) :
    loopText (fun i => fmt02X (value i)) n ≠ "--null epc---".toList ∧
    loopText (fun i => fmt02X (value i)) n ≠ "---unknown-epc-data-type---".toList := by
  have hn : 'n' ∉ hexAlphabet := by decide
  constructor
  · intro h
    exact hn (loopText_alphabet value n 'n' (by rw [h]; decide))
  · intro h
    exact hn (loopText_alphabet value n 'n' (by rw [h]; decide))

theorem epcBody_unknown_iff (param : EPCParameter) :
    epcBody (some param) = "---unknown-epc-data-type---".toList ↔
      (∃ name, param = .other name) ∨ ∃ nBit, param = .EPCData nBit none := by
  cases param with
  | EPC_96 a =>
    simp only [epcBody, epcValue]
    constructor
    · intro h
      exact absurd h (loopText_not_placeholder (fun i => a.getD i 0) 12).2
    · rintro (⟨name, h⟩ | ⟨nBit, h⟩) <;> cases h
  | EPCData nBit pv =>
    cases pv with
    | none =>
      simp only [epcBody, epcValue]
      exact ⟨fun _ => Or.inr ⟨nBit, rfl⟩, fun _ => trivial⟩
    | some v =>
      simp only [epcBody, epcValue]
      constructor
      · intro h
        exact absurd h (loopText_not_placeholder (fun i => v.getD i 0) _).2
      · rintro (⟨name, h⟩ | ⟨nBit, h⟩) <;> cases h
  | other name =>
    simp only [epcBody, epcValue]
    exact ⟨fun _ => Or.inl ⟨name, rfl⟩, fun _ => trivial⟩

theorem epcBody_not_null (param : EPCParameter) :
    epcBody (some param) ≠ "--null epc---".toList := by
  cases param with
  | EPC_96 a => exact (loopText_not_placeholder (fun i => a.getD i 0) 12).1
  | EPCData nBit pv =>
    cases pv with
    | none => simp only [epcBody, epcValue]; decide
    | some v => exact (loopText_not_placeholder (fun i => v.getD i 0) _).1
  | other name => simp only [epcBody, epcValue]; decide

theorem epc3_text (p : Option EPCParameter) (init : Int → Char) (buf buflen : Int)
    (hint : buflen < 2 ^ 31)
    (hvalue : ∀ param pValue n, p = some param → epcValue param = (some pValue, n) →
      1 ≤ n)
    (hroom : ((epcBody p).length + 1 : Nat) ≤ buflen) :
    cstr (Docsample3.formatOneEPC p (Mem.fresh init) buf buflen).cell buflen.toNat buf
      = epcBody p := by
  have hnn := epcBody_ne_NUL p
  unfold epcBody at hroom hnn ⊢
  simp only [Docsample3.formatOneEPC]
  cases p with
  | none =>
    simp only [] at hroom hnn ⊢
    obtain ⟨hf, ht⟩ := emit_filled buf buflen [] "--null epc---".toList _ hint
      (filled_start init buf buflen)
      (by simp only [List.length_nil]; push_cast at hroom ⊢; omega)
    simp only [List.nil_append] at hf ht
    exact final_text buf buflen _ _ hf ht (by push_cast at hroom ⊢; omega) hnn
  | some param =>
    simp only [] at hroom hnn ⊢
    rcases hv : epcValue param with ⟨pv, n⟩
    rw [hv] at hroom hnn
    cases pv with
    | none =>
      simp only [] at hroom hnn ⊢
      obtain ⟨hf, ht⟩ := emit_filled buf buflen [] "---unknown-epc-data-type---".toList
        _ hint (filled_start init buf buflen)
        (by simp only [List.length_nil]; push_cast at hroom ⊢; omega)
      simp only [List.nil_append] at hf ht
      exact final_text buf buflen _ _ hf ht (by push_cast at hroom ⊢; omega) hnn
    | some pValue =>
      simp only [] at hroom hnn ⊢
      have hn := hvalue param pValue n rfl hv
      obtain ⟨hf, ht⟩ := hexLoop_filled buf buflen (fun i => fmt02X (pValue.getD i 0))
        [] _ hint (filled_start init buf buflen) n (fun i _ => fmt02X_length_ge _)
        (by simp only [List.length_nil]; push_cast at hroom ⊢; omega)
      simp only [List.nil_append] at hf ht
      exact final_text buf buflen _ _ hf (ht (by omega))
        (by push_cast at hroom ⊢; omega) hnn

set_option maxRecDepth 1000000 in
/-- C23 as stated fails, in two ways.  For an EPCData parameter whose
value pointer is null formatOneEPC leaves the placeholder
---unknown-epc-data-type---, in both samples, although the type of the
parameter is EPCData.  And in docsample3, for an EPCData parameter with a
value array of zero bytes, formatOneEPC writes nothing but the terminator
at the last byte, so that the buffer shows what it held before: over a
buffer that held the placeholder, the placeholder. -/
theorem epcData_without_value_renders_unknown :
    cstr (Docsample3.formatOneEPC (some (.EPCData 0 none))
        (Mem.fresh (fun _ => 'z')) 0 64).cell 64 0
      = "---unknown-epc-data-type---".toList ∧
    cstr (Docsample5.formatOneEPC (some (.EPCData 0 none))
        (Mem.fresh (fun _ => 'z')) 0 64 "epc=".toList).1.cell 64 0
      = "epc=---unknown-epc-data-type---".toList ∧
    cstr (Docsample3.formatOneEPC (some (.EPCData 0 (some [])))
        (Mem.fresh staleBuffer) 0 64).cell 64 0
      = "---unknown-epc-data-type---".toList ∧
    (Docsample3.formatOneEPC (some (.EPCData 0 (some [])))
        (Mem.fresh staleBuffer) 0 64).touched = [63] := by
  decide!

/-- C23, amended. formatOneEPC never fails.  With a buffer that is large
enough, an absent parameter gives the literal --null epc---, and a present
parameter gives the literal ---unknown-epc-data-type--- exactly when no
value array is obtained from it, that is when its type is neither EPC_96
nor EPCData or it is an EPCData whose value pointer is null; a present
parameter never gives the literal of the absent one, and one with a value
array gives the hexadecimal rendering.  In docsample5 (behind the start
string) this holds for every parameter, in docsample3 for every parameter
whose value array, when there is one, has at least one byte.  The two
literals differ from each other and from every hexadecimal rendering. -/
theorem formatOneEPC_placeholders (p : Option EPCParameter) (init : Int → Char)
    (buf buflen : Int) (startStr : List Char) (hint : buflen < 2 ^ 31)
    (hstart : ∀ ch ∈ startStr, ch ≠ NUL) :
    (((startStr ++ epcBody p).length + 1 : Nat) ≤ buflen →
      (p = none →
        cstr (Docsample5.formatOneEPC p (Mem.fresh init) buf buflen startStr).1.cell
          buflen.toNat buf = startStr ++ "--null epc---".toList) ∧
      (∀ param, p = some param →
        (cstr (Docsample5.formatOneEPC p (Mem.fresh init) buf buflen startStr).1.cell
            buflen.toNat buf = startStr ++ "---unknown-epc-data-type---".toList ↔
          (∃ name, param = .other name) ∨ ∃ nBit, param = .EPCData nBit none) ∧
        cstr (Docsample5.formatOneEPC p (Mem.fresh init) buf buflen startStr).1.cell
          buflen.toNat buf ≠ startStr ++ "--null epc---".toList ∧
        (∀ pValue n, epcValue param = (some pValue, n) →
          cstr (Docsample5.formatOneEPC p (Mem.fresh init) buf buflen startStr).1.cell
            buflen.toNat buf
            = startStr ++ loopText (fun i => fmt02X (pValue.getD i 0)) n))) ∧
    ((∀ param pValue n, p = some param → epcValue param = (some pValue, n) → 1 ≤ n) →
      ((epcBody p).length + 1 : Nat) ≤ buflen →
      (p = none →
        cstr (Docsample3.formatOneEPC p (Mem.fresh init) buf buflen).cell
          buflen.toNat buf = "--null epc---".toList) ∧
      (∀ param, p = some param →
        (cstr (Docsample3.formatOneEPC p (Mem.fresh init) buf buflen).cell
            buflen.toNat buf = "---unknown-epc-data-type---".toList ↔
          (∃ name, param = .other name) ∨ ∃ nBit, param = .EPCData nBit none) ∧
        cstr (Docsample3.formatOneEPC p (Mem.fresh init) buf buflen).cell
          buflen.toNat buf ≠ "--null epc---".toList ∧
        (∀ pValue n, epcValue param = (some pValue, n) →
          cstr (Docsample3.formatOneEPC p (Mem.fresh init) buf buflen).cell
            buflen.toNat buf = loopText (fun i => fmt02X (pValue.getD i 0)) n))) ∧
    "--null epc---".toList ≠ "---unknown-epc-data-type---".toList ∧
    (∀ (value : Nat → Nat) (n : Nat),
      loopText (fun i => fmt02X (value i)) n ≠ "--null epc---".toList ∧
      loopText (fun i => fmt02X (value i)) n ≠ "---unknown-epc-data-type---".toList) := by
  have hbody : ∀ param pValue n, epcValue param = (some pValue, n) →
      epcBody (some param) = loopText (fun i => fmt02X (pValue.getD i 0)) n := by
    intro param pValue n hv
    simp only [epcBody, hv]
  refine ⟨?_, ?_, by decide, loopText_not_placeholder⟩
  · intro hroom
    have h5 : cstr (Docsample5.formatOneEPC p (Mem.fresh init) buf buflen
        startStr).1.cell buflen.toNat buf = startStr ++ epcBody p := by
      obtain ⟨c1, heq, hf, ht⟩ := epc_filled buf buflen p startStr []
        { mem := Mem.fresh init, p := buf, bufsize := buflen } hint
        (filled_start init buf buflen)
        (by simp only [List.length_nil]; push_cast at hroom ⊢; omega)
      simp only [List.nil_append] at hf ht
      simp only [] at heq
      rw [heq]
      exact final_text buf buflen _ _ hf ht (by push_cast at hroom ⊢; omega)
        (ne_NUL_append _ _ hstart (epcBody_ne_NUL p))
    rw [h5]
    refine ⟨fun hp => by rw [hp]; rfl, ?_⟩
    intro param hp
    subst hp
    refine ⟨?_, ?_, ?_⟩
    · rw [List.append_cancel_left_eq]
      exact epcBody_unknown_iff param
    · intro h
      exact epcBody_not_null param (List.append_cancel_left h)
    · intro pValue n hv
      rw [hbody param pValue n hv]
  · intro hvalue hroom
    rw [epc3_text p init buf buflen hint hvalue hroom]
    refine ⟨fun hp => by rw [hp]; rfl, ?_⟩
    intro param hp
    subst hp
    exact ⟨epcBody_unknown_iff param, epcBody_not_null param,
      fun pValue n hv => hbody param pValue n hv⟩

set_option maxRecDepth 1000000 in
/-- C23, amended, in the buffers the samples use: an absent parameter in
docsample3, and in docsample5 a parameter of an unknown type and the
example identifier. -/
theorem formatOneEPC_placeholders_witness :
    cstr (Docsample3.formatOneEPC none (Mem.fresh (fun _ => 'z')) 0 64).cell 64 0
      = "--null epc---".toList ∧
    cstr (Docsample5.formatOneEPC (some (.other "x")) (Mem.fresh (fun _ => 'z')) 0 1024
        "epc=".toList).1.cell 1024 0 = "epc=---unknown-epc-data-type---".toList ∧
    cstr (Docsample3.formatOneEPC (some (.EPC_96 exampleEPC))
        (Mem.fresh (fun _ => 'z')) 0 64).cell 64 0
      ≠ "---unknown-epc-data-type---".toList := by
  have e64 : (64 : Int).toNat = 64 := rfl
  have e1024 : (1024 : Int).toNat = 1024 := rfl
  obtain ⟨_, h3, _⟩ := formatOneEPC_placeholders none (fun _ => 'z') 0 64 "epc=".toList
    (by decide) (by decide)
  obtain ⟨h5, _⟩ := formatOneEPC_placeholders (some (.other "x")) (fun _ => 'z') 0 1024
    "epc=".toList (by decide) (by decide)
  obtain ⟨_, h3e, _⟩ := formatOneEPC_placeholders (some (.EPC_96 exampleEPC))
    (fun _ => 'z') 0 64 "epc=".toList (by decide) (by decide)
  have a := (h3 (by intro param pValue n h; cases h) (by decide)).1 rfl
  have b := ((h5 (by decide)).2 (.other "x") rfl).1.2 (Or.inl ⟨"x", rfl⟩)
  have c := ((h3e (by
      intro param pValue n hp hv
      cases hp
      simp only [epcValue, Prod.mk.injEq] at hv
      omega) (by decide!)).2 (.EPC_96 exampleEPC) rfl).1
  rw [e64] at a c
  rw [e1024] at b
  refine ⟨a, b, ?_⟩
  intro h
  rcases c.1 h with ⟨name, hn⟩ | ⟨nBit, hn⟩ <;> cases hn

/-! ## Bounds of docsample3's formatOneEPC -/

theorem snprintf_touched (m : Mem) (p size : Int) (text : List Char)
    (h1 : 1 ≤ size) (hint : size < 2 ^ 31) :
    ∀ q ∈ (snprintf m p size text).1.touched,
      q ∈ m.touched ∨ (p ≤ q ∧ q < p + size) := by
  intro q hq
  have hsz : sizeT size = size.toNat := sizeT_of_nonneg size (by omega) hint
  have hne : sizeT size ≠ 0 := by rw [hsz]; omega
  simp only [snprintf, hne, if_false] at hq
  rcases writeList_touched _ _ _ _ hq with h | h
  · exact Or.inl h
  · right
    have hl : ((List.take (sizeT size - 1) text ++ [NUL]).length : Int) ≤ size := by
      simp only [List.length_append, List.length_take, List.length_singleton]
      rw [hsz]
      push_cast
      omega
    omega

theorem hexLoopBody_inBuffer (buf buflen : Int) (value : Nat → List Char) (i : Nat)
    (c : Cursor) (hint : buflen < 2 ^ 31) (h : InBuffer buf buflen c)
    (hval : (value i).length = 2) :
    InBuffer buf buflen (hexLoopBody value i c) := by
  have hstep : ∀ c1 : Cursor, InBuffer buf buflen c1 →
      InBuffer buf buflen (if c1.bufsize > 2 then c1.emit (value i) else c1) := by
    intro c1 h1
    split
    · rename_i hgt
      have hret : (snprintf c1.mem c1.p c1.bufsize (value i)).2 = 2 := by
        unfold snprintf; split <;> simp [hval]
      refine ⟨?_, ?_, ?_, ?_⟩
      · show c1.p + (snprintf c1.mem c1.p c1.bufsize (value i)).2
          + (c1.bufsize - (snprintf c1.mem c1.p c1.bufsize (value i)).2) = _
        rw [hret]; have := h1.sum; omega
      · show 1 ≤ c1.bufsize - (snprintf c1.mem c1.p c1.bufsize (value i)).2
        rw [hret]; omega
      · show c1.bufsize - (snprintf c1.mem c1.p c1.bufsize (value i)).2 ≤ buflen
        rw [hret]; have := h1.le; omega
      · intro q hq
        have hle := h1.le
        have hsum := h1.sum
        rcases snprintf_touched c1.mem c1.p c1.bufsize (value i) (by omega) (by omega)
          q hq with hq1 | hq1
        · exact h1.inside q hq1
        · omega
    · exact h1
  unfold hexLoopBody
  apply hstep
  split
  · rename_i hc
    have hsum := h.sum
    have hle := h.le
    refine ⟨by show c.p + 1 + (c.bufsize - 1) = _; omega, by show 1 ≤ c.bufsize - 1; omega,
      by show c.bufsize - 1 ≤ buflen; omega, ?_⟩
    intro q hq
    simp only [Mem.write, List.mem_append, List.mem_singleton] at hq
    rcases hq with h1 | h1
    · exact h.inside q h1
    · omega
  · exact h

theorem hexLoop_inBuffer (buf buflen : Int) (value : Nat → List Char)
    (c : Cursor) (hint : buflen < 2 ^ 31) (h : InBuffer buf buflen c)
    (hval : ∀ i, (value i).length = 2) :
    ∀ n, InBuffer buf buflen (forLoop n (hexLoopBody value) c) := by
  intro n
  induction n with
  | zero => simpa [forLoop] using h
  | succ n ih =>
    rw [forLoop_succ]
    exact hexLoopBody_inBuffer buf buflen value n _ hint ih (hval n)

theorem inBuffer_start (init : Int → Char) (buf buflen : Int) (h1 : 1 ≤ buflen) :
    InBuffer buf buflen { mem := Mem.fresh init, p := buf, bufsize := buflen } :=
  ⟨rfl, h1, le_refl _, by simp [Mem.fresh]⟩

theorem emit_start_touched (init : Int → Char) (buf buflen : Int) (text : List Char)
    (h1 : 1 ≤ buflen) (hint : buflen < 2 ^ 31) :
    ∀ q ∈ (({ mem := Mem.fresh init, p := buf, bufsize := buflen } : Cursor).emit
        text).mem.touched, buf ≤ q ∧ q < buf + buflen := by
  intro q hq
  rcases snprintf_touched (Mem.fresh init) buf buflen text h1 hint q hq with h | h
  · simp [Mem.fresh] at h
  · exact h

/-- C27. In docsample3, for every EPC parameter (absent, of an unknown
type, EPC_96 or EPCData of any bit length, with bytes as values) and every
capacity buflen >= 1, formatOneEPC writes only to the offsets 0 to
buflen - 1 of its buffer.  In the hexadecimal loop the space counter is at
least 1 after every pass, and the cell at buflen - 1 holds the
terminator at the end. -/
theorem formatOneEPC_stays_in_buffer (p : Option EPCParameter) (init : Int → Char)
    (buf buflen : Int) (h1 : 1 ≤ buflen) (hint : buflen < 2 ^ 31)
    (hbytes : ∀ param pValue n, p = some param → epcValue param = (some pValue, n) →
      ∀ b ∈ pValue, b < 256) :
    (∀ q ∈ (Docsample3.formatOneEPC p (Mem.fresh init) buf buflen).touched,
      buf ≤ q ∧ q < buf + buflen) ∧
    (∀ param pValue n, p = some param → epcValue param = (some pValue, n) →
      ∀ k, 1 ≤ (forLoop k (hexLoopBody (fun i => fmt02X (pValue.getD i 0)))
        ({ mem := Mem.fresh init, p := buf, bufsize := buflen } : Cursor)).bufsize) ∧
    (Docsample3.formatOneEPC p (Mem.fresh init) buf buflen).cell (buf + buflen - 1)
      = NUL := by
  have hloop : ∀ (pValue : List Nat), (∀ b ∈ pValue, b < 256) → ∀ k,
      InBuffer buf buflen (forLoop k (hexLoopBody (fun i => fmt02X (pValue.getD i 0)))
        ({ mem := Mem.fresh init, p := buf, bufsize := buflen } : Cursor)) := by
    intro pValue hb k
    exact hexLoop_inBuffer buf buflen _ _ hint (inBuffer_start init buf buflen h1)
      (fun i => by
        show (fmt02X (pValue.getD i 0)).length = 2
        rw [fmt02X_byte _ (getD_lt_256 pValue hb i)]; rfl) k
  have hlast : ∀ (m : Mem), (∀ q ∈ m.touched, buf ≤ q ∧ q < buf + buflen) →
      ∀ q ∈ (m.write (buf + buflen - 1) NUL).touched, buf ≤ q ∧ q < buf + buflen := by
    intro m hm q hq
    simp only [Mem.write, List.mem_append, List.mem_singleton] at hq
    rcases hq with h | h
    · exact hm q h
    · omega
  refine ⟨?_, ?_, by simp [Docsample3.formatOneEPC, Mem.write]⟩
  · simp only [Docsample3.formatOneEPC]
    apply hlast
    cases p with
    | none => exact emit_start_touched init buf buflen _ h1 hint
    | some param =>
      simp only []
      rcases hv : epcValue param with ⟨pv, n⟩
      cases pv with
      | none => exact emit_start_touched init buf buflen _ h1 hint
      | some pValue =>
        exact (hloop pValue (hbytes param pValue n rfl hv) n).inside
  · intro param pValue n hp hv k
    exact (hloop pValue (hbytes param pValue n hp hv) k).pos

set_option maxRecDepth 1000000 in
/-- C27 for the example identifier in a buffer of 10 bytes: every write
lies at the offsets 0 to 9 and the text is cut off. -/
theorem formatOneEPC_stays_in_buffer_witness :
    (∀ q ∈ (Docsample3.formatOneEPC (some (.EPC_96 exampleEPC))
        (Mem.fresh (fun _ => 'z')) 0 10).touched, 0 ≤ q ∧ q < 0 + 10) ∧
    (Docsample3.formatOneEPC (some (.EPC_96 exampleEPC))
        (Mem.fresh (fun _ => 'z')) 0 10).cell (0 + 10 - 1) = NUL :=
  have h := formatOneEPC_stays_in_buffer (some (.EPC_96 exampleEPC)) (fun _ => 'z') 0 10
    (by decide) (by decide) (by
      intro param pValue n hp hv
      cases hp
      simp only [epcValue, Prod.mk.injEq, Option.some.injEq] at hv
      rw [← hv.1]
      decide)
  ⟨h.1, h.2.2⟩

/-! ## The line of docsample3 -/

set_option maxRecDepth 1000000 in
/-- A Read result of ten words does not fit in the result buffer and is
written past the end of `bBuf`.  With `aBuf` directly behind `bBuf` the
excess lands in the EPC text, which is then printed as A1234; with `aBuf`
in front of `bBuf` it lands behind both arrays and the EPC text is printed
whole. -/
theorem overrun_reaches_aBuf :
    Docsample3.printOneTagReportData goodReader overrunEntry
      = "EPC: A1234  ReadResult 3\n" ∧
    Docsample3.printOneTagReportDataAt 0 64 goodReader.stack overrunEntry
      = "EPC: AABB-CCDD-EEFF-0011-2233-4455  ReadResult 3\n" := by
  decide!

end ImpinjReader
